import Mathlib

/-!
# Adil-Music scraper server: the `/a-dl` audio-resolution fallback chain

A shallow embedding of `src/server.js`, handler `app.post('/a-dl')` (lines 121-212):
request validation, the quality search order, the retry helper `withRetries`, the four
resolvers of `providerEndpoints`, the nested fallback loop and the exhaustion branch.

JavaScript values are embedded as the JSON-like tree `JsVal`.  The outside world (the optional
scraping library and the HTTP client) is an explicit state of an arbitrary type `σ` that every
call threads; a call either returns a value or throws one.  Resolver invocations and the
back-off waits are recorded in a trace so that call counts can be stated.
-/

namespace AdilMusic

/-! ## JavaScript values -/

/-- JSON-like JavaScript values.  Numbers are the integral ones. -/
inductive JsVal where
  | undefined
  | null
  | bool (b : Bool)
  | num (n : Int)
  | str (s : String)
  | arr (items : List JsVal)
  | obj (fields : List (String × JsVal))

namespace JsVal

mutual
/-- Structural equality of values is decidable. -/
def decEq : (a b : JsVal) → Decidable (a = b)
  | undefined, undefined => isTrue rfl
  | null, null => isTrue rfl
  | bool a, bool b =>
    if h : a = b then isTrue (by rw [h]) else isFalse (by intro e; cases e; exact h rfl)
  | num a, num b =>
    if h : a = b then isTrue (by rw [h]) else isFalse (by intro e; cases e; exact h rfl)
  | str a, str b =>
    if h : a = b then isTrue (by rw [h]) else isFalse (by intro e; cases e; exact h rfl)
  | arr xs, arr ys =>
    match decEqList xs ys with
    | isTrue h => isTrue (by rw [h])
    | isFalse h => isFalse (by intro e; cases e; exact h rfl)
  | obj xs, obj ys =>
    match decEqFields xs ys with
    | isTrue h => isTrue (by rw [h])
    | isFalse h => isFalse (by intro e; cases e; exact h rfl)
  | undefined, null | undefined, bool _ | undefined, num _ | undefined, str _
  | undefined, arr _ | undefined, obj _
  | null, undefined | null, bool _ | null, num _ | null, str _ | null, arr _ | null, obj _
  | bool _, undefined | bool _, null | bool _, num _ | bool _, str _ | bool _, arr _
  | bool _, obj _
  | num _, undefined | num _, null | num _, bool _ | num _, str _ | num _, arr _ | num _, obj _
  | str _, undefined | str _, null | str _, bool _ | str _, num _ | str _, arr _ | str _, obj _
  | arr _, undefined | arr _, null | arr _, bool _ | arr _, num _ | arr _, str _ | arr _, obj _
  | obj _, undefined | obj _, null | obj _, bool _ | obj _, num _ | obj _, str _
  | obj _, arr _ =>
    isFalse (by intro e; cases e)
/-- Equality of lists of values. -/
def decEqList : (xs ys : List JsVal) → Decidable (xs = ys)
  | [], [] => isTrue rfl
  | [], _ :: _ | _ :: _, [] => isFalse (by intro e; cases e)
  | x :: xs, y :: ys =>
    match decEq x y, decEqList xs ys with
    | isTrue h, isTrue t => isTrue (by rw [h, t])
    | isFalse h, _ => isFalse (by intro e; cases e; exact h rfl)
    | _, isFalse t => isFalse (by intro e; cases e; exact t rfl)
/-- Equality of field lists. -/
def decEqFields : (xs ys : List (String × JsVal)) → Decidable (xs = ys)
  | [], [] => isTrue rfl
  | [], _ :: _ | _ :: _, [] => isFalse (by intro e; cases e)
  | (k, x) :: xs, (l, y) :: ys =>
    if hk : k = l then
      match decEq x y, decEqFields xs ys with
      | isTrue h, isTrue t => isTrue (by rw [hk, h, t])
      | isFalse h, _ => isFalse (by intro e; cases e; exact h rfl)
      | _, isFalse t => isFalse (by intro e; cases e; exact t rfl)
    else isFalse (by intro e; cases e; exact hk rfl)
end

instance : DecidableEq JsVal := decEq

/-- JavaScript truthiness (`ToBoolean`): `undefined`, `null`, `false`, `0` and `''` are falsy. -/
def truthy : JsVal → Bool
  | undefined => false
  | null => false
  | bool b => b
  | num n => decide (n ≠ 0)
  | str s => decide (s ≠ "")
  | arr _ => true
  | obj _ => true

/-- The values on which a property read raises a TypeError. -/
def isNullish : JsVal → Bool
  | undefined => true
  | null => true
  | _ => false

/-- First value stored under `key` in a field list, `undefined` when there is none. -/
def lookup : List (String × JsVal) → String → JsVal
  | [], _ => undefined
  | (k, v) :: rest, key => if k = key then v else lookup rest key

/-- Property read `v.key` on a receiver that is not nullish, for the keys this program reads
(`url`, `quality`, `status`, `download`, `filename`, `metadata`, `provider`, `response`, `data`,
`message`): a field of an object, `undefined` on anything else.  Every use below is guarded by
the truthiness of the receiver or by an explicit `isNullish` test. -/
def prop : JsVal → String → JsVal
  | obj fs, key => lookup fs key
  | _, _ => undefined

/-- Optional chaining `v?.key`. -/
def optProp (v : JsVal) (key : String) : JsVal :=
  if v.isNullish then undefined else v.prop key

/-- The operator `a || b`. -/
def or (a b : JsVal) : JsVal := if a.truthy then a else b

/-- The operator `a && b` (the right operand is a pure expression wherever this is used). -/
def and (a b : JsVal) : JsVal := if a.truthy then b else a

/-- Strict equality `a === b`.  Arrays and objects compare by reference; the only use compares
a number of the fixed quality list with a value parsed from the request, which are never the
same reference. -/
def strictEq : JsVal → JsVal → Bool
  | undefined, undefined => true
  | null, null => true
  | bool a, bool b => a == b
  | num a, num b => a == b
  | str a, str b => a == b
  | _, _ => false

end JsVal

open JsVal

/-! ## Request fields and the quality search order (lines 122-125, 143-145) -/

/-- The field `url` of `req.body || {}`. -/
def reqUrl (body : JsVal) : JsVal := (body.or (obj [])).prop "url"

/-- The field `quality` of `req.body || {}`. -/
def reqQuality (body : JsVal) : JsVal := (body.or (obj [])).prop "quality"

/-- `const qualities = [320, 256, 128, 92]`. -/
def qualities : List JsVal := [num 320, num 256, num 128, num 92]

/-- `quality ? [quality, ...qualities.filter((q) => q !== quality)] : qualities`. -/
def tryQualities (quality : JsVal) : List JsVal :=
  if quality.truthy then quality :: qualities.filter (fun q => !(q.strictEq quality))
  else qualities

/-! ## Calls, the outside world and the trace -/

/-- Result of awaiting a call: it returns a value or throws (rejects with) one. -/
inductive Outcome where
  | returns (v : JsVal)
  | throws (e : JsVal)
  deriving DecidableEq

/-- What the trace records: the invocation of the resolver at position `provider` of the
provider list for tier `q`, and a back-off wait of `ms` milliseconds. -/
inductive Event where
  | invoke (provider : Nat) (q : JsVal)
  | wait (ms : Nat)
  deriving DecidableEq

/-- The state a request runs in: the outside world and the trace recorded so far. -/
structure World (σ : Type) where
  env : σ
  trace : List Event

/-- A provider resolver `(url, q) => ...`: its `name` property and its effect. -/
structure Resolver (σ : Type) where
  name : String
  call : JsVal → JsVal → σ → Outcome × σ

/-- `const wait = (ms) => new Promise((r) => setTimeout(r, ms))`, awaited. -/
def wait {σ : Type} (ms : Nat) (w : World σ) : World σ :=
  ⟨w.env, w.trace ++ [Event.wait ms]⟩

/-- The `for` loop of `withRetries` at iteration `i`, with `n` iterations left and the current
value of `lastErr`.  A returning `fn` ends the loop; a throwing one sets `lastErr`, waits
`baseDelay * 2^i` unless this was the last iteration, and goes on; after the loop `lastErr` is
thrown. -/
def retryLoop {σ : Type} (fn : World σ → Outcome × World σ) (attempts baseDelay : Nat) :
    Nat → Nat → JsVal → World σ → Outcome × World σ
  | 0, _, lastErr, w => (Outcome.throws lastErr, w)
  | n + 1, i, _, w =>
    match fn w with
    | (Outcome.returns v, w1) => (Outcome.returns v, w1)
    | (Outcome.throws e, w1) =>
      retryLoop fn attempts baseDelay n (i + 1) e
        (if i < attempts - 1 then wait (baseDelay * 2 ^ i) w1 else w1)

/-- The helper `withRetries(fn, attempts, baseDelay)` (lines 128-141). -/
def withRetries {σ : Type} (fn : World σ → Outcome × World σ) (attempts baseDelay : Nat)
    (w : World σ) : Outcome × World σ :=
  retryLoop fn attempts baseDelay attempts 0 JsVal.null w

/-- The thunk `() => providerFn(url, q)` for the resolver at position `j`; the invocation is
recorded in the trace. -/
def callProvider {σ : Type} (p : Resolver σ) (j : Nat) (url q : JsVal) (w : World σ) :
    Outcome × World σ :=
  ((p.call url q w.env).1, ⟨(p.call url q w.env).2, w.trace ++ [Event.invoke j q]⟩)

/-! ## Payload validation, the success body and the failure entry (lines 183-199) -/

/-- The test `result && result.status && result.download && result.download.url`. -/
def validPayload (result : JsVal) : Bool :=
  result.truthy && (result.prop "status").truthy && (result.prop "download").truthy
    && ((result.prop "download").prop "url").truthy

/-- The object passed to `res.json` in the success branch (lines 184-191). -/
def successBody (result q : JsVal) (name : String) : JsVal :=
  obj [("status", bool true),
       ("url", (result.prop "download").prop "url"),
       ("filename", (result.prop "download").prop "filename"),
       ("metadata", result.prop "metadata"),
       ("quality", q),
       ("provider", ((result.prop "provider").or (str name)).or (str "unknown"))]

/-- The object pushed on `errorDetails` in the `catch` block (lines 195-199).  Reading
`err.provider` raises a TypeError when `err` is `null` or `undefined`: that is `none`. -/
def failureEntry (err : JsVal) (name : String) : Option JsVal :=
  if err.isNullish then none
  else some (obj [("provider", ((err.prop "provider").or (str name)).or (str "unknown")),
                  ("status", (err.prop "response").optProp "status"),
                  ("data", ((err.prop "response").optProp "data").or (err.prop "message"))])

/-! ## The fallback loop and the handler (lines 121-212) -/

/-- The handler's variables `lastError` and `errorDetails`. -/
structure Locals where
  lastError : JsVal
  errorDetails : List JsVal
  deriving DecidableEq

/-- How the handler ends: `res.status(status).json(body)` (status 200 when not set), or a
TypeError raised inside the `catch` block that leaves the handler with no response sent. -/
inductive Reply where
  | json (status : Nat) (body : JsVal)
  | typeError
  deriving DecidableEq

/-- Control after a piece of the loop: the handler has returned or been left by an exception,
or the loop goes on. -/
inductive Flow (σ : Type) where
  | finished (reply : Reply) (loc : Locals) (w : World σ)
  | next (loc : Locals) (w : World σ)

/-- One pass through the inner loop body (lines 181-205) for tier `q` and the resolver `p` at
position `j`. -/
def tryPair {σ : Type} (url q : JsVal) (j : Nat) (p : Resolver σ) (loc : Locals)
    (w : World σ) : Flow σ :=
  match withRetries (callProvider p j url q) 2 400 w with
  | (Outcome.returns result, w1) =>
    if validPayload result then
      Flow.finished (Reply.json 200 (successBody result q p.name)) loc w1
    else Flow.next loc w1
  | (Outcome.throws err, w1) =>
    match failureEntry err p.name with
    | none => Flow.finished Reply.typeError ⟨err, loc.errorDetails⟩ w1
    | some entry => Flow.next ⟨err, loc.errorDetails ++ [entry]⟩ w1

/-- The inner loop `for (const providerFn of providerEndpoints)` from position `j` on. -/
def providerLoop {σ : Type} (url q : JsVal) :
    List (Resolver σ) → Nat → Locals → World σ → Flow σ
  | [], _, loc, w => Flow.next loc w
  | p :: ps, j, loc, w =>
    match tryPair url q j p loc w with
    | Flow.finished r loc1 w1 => Flow.finished r loc1 w1
    | Flow.next loc1 w1 => providerLoop url q ps (j + 1) loc1 w1

/-- The outer loop `for (const q of tryQualities)`. -/
def qualityLoop {σ : Type} (url : JsVal) (providers : List (Resolver σ)) :
    List JsVal → Locals → World σ → Flow σ
  | [], loc, w => Flow.next loc w
  | q :: qs, loc, w =>
    match providerLoop url q providers 0 loc w with
    | Flow.finished r loc1 w1 => Flow.finished r loc1 w1
    | Flow.next loc1 w1 => qualityLoop url providers qs loc1 w1

/-- The value of `details` in the exhaustion branch (line 210). -/
def exhaustionDetails (loc : Locals) : JsVal :=
  if loc.errorDetails.length ≠ 0 then arr loc.errorDetails
  else (loc.lastError.and
      (((loc.lastError.prop "response").optProp "data").or (loc.lastError.prop "message"))).or
    (str "unknown error")

/-- The object passed to `res.status(500).json` (line 211). -/
def exhaustionBody (loc : Locals) : JsVal :=
  obj [("status", bool false),
       ("error", str "Audio download failed for all providers/qualities."),
       ("details", exhaustionDetails loc)]

/-- The object passed to `res.status(400).json` (line 124). -/
def missingUrlBody : JsVal :=
  obj [("status", bool false), ("error", str "YouTube URL is required")]

/-- A finished request: the reply, the final values of the handler's variables, and the final
world with the trace of the whole request. -/
structure Run (σ : Type) where
  reply : Reply
  locals : Locals
  world : World σ

/-- The handler of `POST /a-dl` over a provider list, for the request body `body`, started in
the outside world `env`. -/
def aDlWith {σ : Type} (providers : List (Resolver σ)) (body : JsVal) (env : σ) : Run σ :=
  if !(reqUrl body).truthy then
    ⟨Reply.json 400 missingUrlBody, ⟨null, []⟩, ⟨env, []⟩⟩
  else
    match qualityLoop (reqUrl body) providers (tryQualities (reqQuality body)) ⟨null, []⟩
        ⟨env, []⟩ with
    | Flow.finished r loc w => ⟨r, loc, w⟩
    | Flow.next loc w => ⟨Reply.json 500 (exhaustionBody loc), loc, w⟩

/-! ## The four resolvers of `providerEndpoints` (lines 147-175) -/

/-- The collaborators of the resolvers.  `ytmp3` and `apimp3` are `none` when `yscraper` is
`null` or the member is not a function; `axiosGet url config` and `axiosPost url data config`
are the awaited HTTP calls. -/
structure Services (σ : Type) where
  ytmp3 : Option (JsVal → JsVal → σ → Outcome × σ)
  apimp3 : Option (JsVal → JsVal → σ → Outcome × σ)
  axiosGet : String → JsVal → σ → Outcome × σ
  axiosPost : String → JsVal → JsVal → σ → Outcome × σ

/-- An error object `new Error(message)`. -/
def newError (message : String) : JsVal := obj [("message", str message)]

/-- The TypeError raised by a property read on, or by `Object.assign` to, `null` or
`undefined` (the text of its message depends on the engine). -/
def typeErrorValue : JsVal := obj [("message", str "TypeError")]

/-- Assignment `fields[key] = v`. -/
def setField : List (String × JsVal) → String → JsVal → List (String × JsVal)
  | [], key, v => [(key, v)]
  | (k, x) :: rest, key, v => if k = key then (k, v) :: rest else (k, x) :: setField rest key v

/-- What `throw Object.assign(e, { provider: name })` throws: the object `e` with `provider`
set; for a primitive or an array, an object whose only property among the keys read here is
`provider`; for `null` and `undefined` the TypeError raised by `Object.assign` itself. -/
def assignProvider (e : JsVal) (name : String) : JsVal :=
  match e with
  | undefined => typeErrorValue
  | null => typeErrorValue
  | obj fs => obj (setField fs "provider" (str name))
  | _ => obj [("provider", str name)]

/-- The body shared by the two direct HTTP resolvers once the request has been awaited: a
response whose `data` passes the test is returned, anything else is thrown tagged with the
provider. -/
def httpResolve {σ : Type} (name : String) (r : Outcome × σ) : Outcome × σ :=
  match r with
  | (Outcome.returns resp, env1) =>
    if resp.isNullish then (Outcome.throws (assignProvider typeErrorValue name), env1)
    else if validPayload (resp.prop "data") then (Outcome.returns (resp.prop "data"), env1)
    else (Outcome.throws (assignProvider (newError ("Invalid response from " ++ name)) name), env1)
  | (Outcome.throws e, env1) => (Outcome.throws (assignProvider e name), env1)

/-- `providerEndpoints[0]`: `yscraper.ytmp3(url, q)` when available, else `null`. -/
def ytmp3Resolver {σ : Type} (s : Services σ) : Resolver σ :=
  ⟨"", fun url q env =>
    match s.ytmp3 with
    | some f => f url q env
    | none => (Outcome.returns null, env)⟩

/-- `providerEndpoints[1]`: `yscraper.apimp3(url, q)` when available, else `null`. -/
def apimp3Resolver {σ : Type} (s : Services σ) : Resolver σ :=
  ⟨"", fun url q env =>
    match s.apimp3 with
    | some f => f url q env
    | none => (Outcome.returns null, env)⟩

/-- `providerEndpoints[2]`: GET to api.vreden.my.id with `{ params: { url, quality: q },
timeout: 8000 }`. -/
def vredenResolver {σ : Type} (s : Services σ) : Resolver σ :=
  ⟨"", fun url q env =>
    httpResolve "api.vreden.my.id"
      (s.axiosGet "https://api.vreden.my.id/api/v1/download/youtube/audio"
        (obj [("params", obj [("url", url), ("quality", q)]), ("timeout", num 8000)]) env)⟩

/-- `providerEndpoints[3]`: POST to cdn403.savetube.vip with data `{ url }` and
`{ timeout: 8000 }`. -/
def savetubeResolver {σ : Type} (s : Services σ) : Resolver σ :=
  ⟨"", fun url _ env =>
    httpResolve "cdn403.savetube.vip"
      (s.axiosPost "https://cdn403.savetube.vip/v2/info" (obj [("url", url)])
        (obj [("timeout", num 8000)]) env)⟩

/-- The array `providerEndpoints`.  Its elements are anonymous arrow functions, so the `name`
of each is the empty string. -/
def providerEndpoints {σ : Type} (s : Services σ) : List (Resolver σ) :=
  [ytmp3Resolver s, apimp3Resolver s, vredenResolver s, savetubeResolver s]

/-- The handler `app.post('/a-dl', ...)` of the server. -/
def aDl {σ : Type} (s : Services σ) (body : JsVal) (env : σ) : Run σ :=
  aDlWith (providerEndpoints s) body env

/-! ## The quality × provider matrix, as a list of slots in the order of the nested loop -/

/-- A slot of the matrix: the tier, the position of the resolver in the provider list, and
the resolver. -/
structure Pair (σ : Type) where
  q : JsVal
  idx : Nat
  resolver : Resolver σ

/-- The slots of one tier, resolvers in list order, numbered from `j`. -/
def rowOf {σ : Type} (q : JsVal) (j : Nat) (providers : List (Resolver σ)) : List (Pair σ) :=
  (providers.enumFrom j).map (fun jp => ⟨q, jp.1, jp.2⟩)

/-- All slots in tier-major order: tiers in search order, within a tier resolvers in list
order. -/
def pairsOf {σ : Type} (tiers : List JsVal) (providers : List (Resolver σ)) : List (Pair σ) :=
  tiers.flatMap (fun q => rowOf q 0 providers)

/-- The retry-wrapped call of a slot, `withRetries(() => providerFn(url, q), 2, 400)`. -/
def attempt {σ : Type} (url : JsVal) (pr : Pair σ) (w : World σ) : Outcome × World σ :=
  withRetries (callProvider pr.resolver pr.idx url pr.q) 2 400 w

/-- The retry-wrapped call of the slot, made in world `w`, returns a payload that passes
validation. -/
def yieldsValid {σ : Type} (url : JsVal) (pr : Pair σ) (w : World σ) : Bool :=
  match (attempt url pr w).1 with
  | Outcome.returns r => validPayload r
  | Outcome.throws _ => false

/-- The retry-wrapped call of the slot, made in world `w`, throws `null` or `undefined`. -/
def throwsNullish {σ : Type} (url : JsVal) (pr : Pair σ) (w : World σ) : Bool :=
  match (attempt url pr w).1 with
  | Outcome.returns _ => false
  | Outcome.throws e => e.isNullish

/-- The retry-wrapped call of the slot, made in world `w`, throws a value that is neither
`null` nor `undefined`. -/
def throwsError {σ : Type} (url : JsVal) (pr : Pair σ) (w : World σ) : Bool :=
  match (attempt url pr w).1 with
  | Outcome.returns _ => false
  | Outcome.throws e => !e.isNullish

/-- The slot fails and the search goes on: no valid payload, and nothing thrown that the
`catch` block cannot read. -/
def goesOn {σ : Type} (url : JsVal) (pr : Pair σ) (w : World σ) : Bool :=
  !(yieldsValid url pr w) && !(throwsNullish url pr w)

/-- The world after the retry-wrapped calls of the slots `prs`, made one after the other from
`w`. -/
def worldAfter {σ : Type} (url : JsVal) : List (Pair σ) → World σ → World σ
  | [], w => w
  | pr :: rest, w => worldAfter url rest (attempt url pr w).2

/-- Every slot of `prs`, attempted in turn from `w`, fails and lets the search go on. -/
def allGoOn {σ : Type} (url : JsVal) : List (Pair σ) → World σ → Bool
  | [], _ => true
  | pr :: rest, w => goesOn url pr w && allGoOn url rest (attempt url pr w).2

/-- Every slot of `prs`, attempted in turn from `w`, throws a value that is neither `null` nor
`undefined`. -/
def allThrow {σ : Type} (url : JsVal) : List (Pair σ) → World σ → Bool
  | [], _ => true
  | pr :: rest, w => throwsError url pr w && allThrow url rest (attempt url pr w).2

/-- The failure entry of one slot attempted in `w`: one entry when its retry-wrapped call
throws, none when it returns. -/
def entryOf {σ : Type} (url : JsVal) (pr : Pair σ) (w : World σ) : List JsVal :=
  match (attempt url pr w).1 with
  | Outcome.returns _ => []
  | Outcome.throws e => (failureEntry e pr.resolver.name).toList

/-- The failure entries of the slots `prs` attempted in turn from `w`, in that order. -/
def entriesAfter {σ : Type} (url : JsVal) : List (Pair σ) → World σ → List JsVal
  | [], _ => []
  | pr :: rest, w => entryOf url pr w ++ entriesAfter url rest (attempt url pr w).2

/-- The nested loop seen as one loop over the list of slots. -/
def pairLoop {σ : Type} (url : JsVal) : List (Pair σ) → Locals → World σ → Flow σ
  | [], loc, w => Flow.next loc w
  | pr :: rest, loc, w =>
    match tryPair url pr.q pr.idx pr.resolver loc w with
    | Flow.finished r loc1 w1 => Flow.finished r loc1 w1
    | Flow.next loc1 w1 => pairLoop url rest loc1 w1

/-- The `(position, tier)` of the resolver invocations recorded in a trace. -/
def invocations : List Event → List (Nat × JsVal)
  | [] => []
  | Event.invoke j q :: rest => (j, q) :: invocations rest
  | Event.wait _ :: rest => invocations rest

/-- The back-off waits recorded in a trace. -/
def waits : List Event → List Nat
  | [] => []
  | Event.invoke _ _ :: rest => waits rest
  | Event.wait ms :: rest => ms :: waits rest

/-- The slots of a request, in the order the handler visits them. -/
def requestPairs {σ : Type} (providers : List (Resolver σ)) (body : JsVal) : List (Pair σ) :=
  pairsOf (tryQualities (reqQuality body)) providers

/-- The `(position, tier)` key of a slot, as recorded in the trace. -/
def Pair.key {σ : Type} (pr : Pair σ) : Nat × JsVal := (pr.idx, pr.q)

/-- No slot of `prs`, attempted in turn from `w`, yields a valid payload. -/
def noneValid {σ : Type} (url : JsVal) : List (Pair σ) → World σ → Bool
  | [], _ => true
  | pr :: rest, w => !(yieldsValid url pr w) && noneValid url rest (attempt url pr w).2

/-- No slot of `prs`, attempted in turn from `w`, throws `null` or `undefined`. -/
def noneNullish {σ : Type} (url : JsVal) : List (Pair σ) → World σ → Bool
  | [], _ => true
  | pr :: rest, w => !(throwsNullish url pr w) && noneNullish url rest (attempt url pr w).2

/-! ## Sample requests, payloads and worlds

The sample worlds count the calls made so far. -/

/-- A video url. -/
def sampleUrl : JsVal := str "https://www.youtube.com/watch?v=abc"

/-- A request for `sampleUrl` with preferred quality 256. -/
def sampleBody : JsVal := obj [("url", sampleUrl), ("quality", num 256)]

/-- A request for `sampleUrl` with quality `0`. -/
def zeroQualityBody : JsVal := obj [("url", sampleUrl), ("quality", num 0)]

/-- A payload of the documented shape `{status: true, download: {url, filename}, metadata}`. -/
def samplePayload : JsVal :=
  obj [("status", bool true),
       ("download", obj [("url", str "https://cdn.example/a.mp3"), ("filename", str "a.mp3")]),
       ("metadata", obj [("title", str "a")])]

/-- A payload whose `status` is the number `1`. -/
def statusOnePayload : JsVal :=
  obj [("status", num 1), ("download", obj [("url", str "https://cdn.example/a.mp3")])]

/-- A resolver named `A` that throws an `Error` on every invocation. -/
def alwaysThrows : Resolver Nat :=
  ⟨"A", fun _ _ n => (Outcome.throws (newError "boom"), n + 1)⟩

/-- A resolver named `B` that returns `samplePayload` at tier 256 and throws elsewhere. -/
def succeedsAt256 : Resolver Nat :=
  ⟨"B", fun _ q n =>
    (if q = num 256 then Outcome.returns samplePayload
      else Outcome.throws (newError "no such quality"), n + 1)⟩

/-- A resolver named `C` that returns `samplePayload` at tier 320 and throws elsewhere. -/
def succeedsAt320 : Resolver Nat :=
  ⟨"C", fun _ q n =>
    (if q = num 320 then Outcome.returns samplePayload
      else Outcome.throws (newError "no such quality"), n + 1)⟩

/-- A resolver that returns `null` on every invocation, as the two library-backed resolvers
do when the library is not installed. -/
def returnsNull : Resolver Nat :=
  ⟨"", fun _ _ n => (Outcome.returns null, n + 1)⟩

/-- A resolver that throws on the first call made in the world and returns `samplePayload`
on every later call. -/
def failsOnce : Resolver Nat :=
  ⟨"flaky", fun _ _ n =>
    (if n = 0 then Outcome.throws (newError "ETIMEDOUT") else Outcome.returns samplePayload,
      n + 1)⟩

/-- The library is not installed and every HTTP call fails with a network error. -/
def offline : Services Nat :=
  ⟨none, none,
    fun _ _ n => (Outcome.throws (newError "connect ECONNREFUSED"), n + 1),
    fun _ _ _ n => (Outcome.throws (newError "connect ECONNREFUSED"), n + 1)⟩

/-- The library is installed, `ytmp3` rejects with `null`, all other calls fail with an
`Error`. -/
def rejectsWithNull : Services Nat :=
  ⟨some (fun _ _ n => (Outcome.throws null, n + 1)),
    some (fun _ _ n => (Outcome.throws (newError "not found"), n + 1)),
    fun _ _ n => (Outcome.throws (newError "connect ECONNREFUSED"), n + 1),
    fun _ _ _ n => (Outcome.throws (newError "connect ECONNREFUSED"), n + 1)⟩

/-- The library is installed and `ytmp3` returns `statusOnePayload`. -/
def returnsStatusOne : Services Nat :=
  ⟨some (fun _ _ n => (Outcome.returns statusOnePayload, n + 1)),
    some (fun _ _ n => (Outcome.throws (newError "not found"), n + 1)),
    fun _ _ n => (Outcome.throws (newError "connect ECONNREFUSED"), n + 1),
    fun _ _ _ n => (Outcome.throws (newError "connect ECONNREFUSED"), n + 1)⟩

/-- The library is installed and `ytmp3` returns `samplePayload`, which carries no `provider`
field. -/
def ytmp3Answers : Services Nat :=
  ⟨some (fun _ _ n => (Outcome.returns samplePayload, n + 1)),
    some (fun _ _ n => (Outcome.throws (newError "not found"), n + 1)),
    fun _ _ n => (Outcome.throws (newError "connect ECONNREFUSED"), n + 1),
    fun _ _ _ n => (Outcome.throws (newError "connect ECONNREFUSED"), n + 1)⟩

/-- The library is not installed and api.vreden.my.id answers with a response whose `data` is
`samplePayload`. -/
def vredenAnswers : Services Nat :=
  ⟨none, none,
    fun _ _ n => (Outcome.returns (obj [("status", num 200), ("data", samplePayload)]), n + 1),
    fun _ _ _ n => (Outcome.throws (newError "connect ECONNREFUSED"), n + 1)⟩

/-- The library is installed, `ytmp3` returns `null` and `apimp3` rejects with `undefined`;
the HTTP calls fail with an `Error`. -/
def rejectsWithUndefined : Services Nat :=
  ⟨some (fun _ _ n => (Outcome.returns null, n + 1)),
    some (fun _ _ n => (Outcome.throws undefined, n + 1)),
    fun _ _ n => (Outcome.throws (newError "connect ECONNREFUSED"), n + 1),
    fun _ _ _ n => (Outcome.throws (newError "connect ECONNREFUSED"), n + 1)⟩

/-- The events of `c` consecutive invocations of the resolver at position `j` for tier `q`,
the first with attempt index `i`: after each invocation but the last comes a wait of
`baseDelay * 2^index`. -/
def retryTrace (j : Nat) (q : JsVal) (baseDelay : Nat) : Nat → Nat → List Event
  | 0, _ => []
  | 1, _ => [Event.invoke j q]
  | c + 2, i =>
    Event.invoke j q :: Event.wait (baseDelay * 2 ^ i) :: retryTrace j q baseDelay (c + 1) (i + 1)

/-- The property names of an object, in order; no names for any other value. -/
def keysOf : JsVal → List String
  | obj fs => fs.map Prod.fst
  | _ => []

/-- A probe for the HTTP client: the library is not installed, every HTTP call fails, and the
outside world is the list of the requests issued so far, each recorded with its method, url,
data (for a POST) and config. -/
def logged : Services (List JsVal) :=
  ⟨none, none,
    fun u c log =>
      (Outcome.throws (newError "connect ECONNREFUSED"),
        log ++ [obj [("method", str "GET"), ("url", str u), ("config", c)]]),
    fun u d c log =>
      (Outcome.throws (newError "connect ECONNREFUSED"),
        log ++ [obj [("method", str "POST"), ("url", str u), ("data", d), ("config", c)]])⟩

/-- The body the client posts to `/a-dl` (`src/utils/youtube.js`, line 127):
`{ url, quality: 320 }`. -/
def audioRequestBody (url : JsVal) : JsVal := obj [("url", url), ("quality", num 320)]

/-- A resolver whose error says which call of the world it comes from: `'first'` on the calls
with an even count, `'second'` on the others. -/
def numberedThrower : Resolver Nat :=
  ⟨"numbered", fun _ _ n =>
    (Outcome.throws (newError (if n % 2 = 0 then "first" else "second")), n + 1)⟩

/-! ## The client function `getAudioDownload` (`src/utils/youtube.js`, lines 123-148)

`SCRAPER_BASE` comes from `src/constants`, which is not part of the sources at hand, and
`String(err)` is a built-in: both are parameters, as is the awaited `axios.post`. -/

/-- The test `typeof v === 'string'`. -/
def isString : JsVal → Bool
  | str _ => true
  | _ => false

/-- The url of the request, the template literal `${SCRAPER_BASE}/a-dl`. -/
def audioEndpoint (stringOf : JsVal → String) (scraperBase : JsVal) : String :=
  (match scraperBase with
    | str b => b
    | v => stringOf v) ++ "/a-dl"

/-- The `catch (err)` block of `getAudioDownload` (lines 133-147).  `console.warn` is given
`err.message || err`, a read that raises a TypeError when `err` is `null` or `undefined`; the
inner `try` only evaluates a `typeof` and property reads on truthy receivers. -/
def audioDownloadCatch (stringOf : JsVal → String) (err : JsVal) : Outcome :=
  if err.isNullish then Outcome.throws typeErrorValue
  else if (err.prop "response").truthy && ((err.prop "response").prop "data").truthy then
    if isString ((err.prop "response").prop "data") then
      Outcome.returns
        (obj [("status", bool false),
              ("error", ((err.prop "response").prop "statusText").or (str "error")),
              ("details", (err.prop "response").prop "data")])
    else Outcome.returns ((err.prop "response").prop "data")
  else
    Outcome.returns
      (obj [("status", bool false),
            ("error", (err.prop "message").or (str (stringOf err))),
            ("details", null)])

/-- The function `getAudioDownload(url)`. -/
def getAudioDownload {σ : Type} (stringOf : JsVal → String) (scraperBase : JsVal)
    (post : String → JsVal → σ → Outcome × σ) (url : JsVal) (env : σ) : Outcome × σ :=
  if !url.truthy then (Outcome.throws (newError "url is required"), env)
  else if !scraperBase.truthy then
    (Outcome.throws (newError "No SCRAPER_SERVER configured"), env)
  else
    match post (audioEndpoint stringOf scraperBase) (obj [("url", url), ("quality", num 320)])
        env with
    | (Outcome.returns resp, env1) =>
      if resp.isNullish then (audioDownloadCatch stringOf typeErrorValue, env1)
      else (Outcome.returns (resp.prop "data"), env1)
    | (Outcome.throws err, env1) => (audioDownloadCatch stringOf err, env1)

/-- An error of the HTTP client for a response with status 502 and a plain-text body. -/
def badGatewayError : JsVal :=
  obj [("message", str "Request failed with status code 502"),
       ("response", obj [("status", num 502), ("statusText", str "Bad Gateway"),
                         ("data", str "upstream unreachable")])]

/-- An HTTP client whose every POST fails with `badGatewayError`. -/
def badGatewayPost : String → JsVal → Nat → Outcome × Nat :=
  fun _ _ n => (Outcome.throws badGatewayError, n + 1)

/-- A stand-in for the built-in `String(v)` on objects. -/
def objectString : JsVal → String := fun _ => "[object Object]"

/-! ## The player wrapper (`src/utils/trackPlayerWrapper.js`)

The module variable `available` is a parameter of every function; the module
`react-native-track-player` is a collaborator given by its awaited method calls and its
constants. -/

/-- The module `react-native-track-player`: `call m args` is the awaited call
`TrackPlayer.m(...args)`, `const c` the constant `TrackPlayer.c`. -/
structure PlayerLib (π : Type) where
  call : String → List JsVal → π → Outcome × π
  const : String → JsVal

/-- The state of the wrapper: the native player, the module variable `initialized`, and the
names of the player methods called so far. -/
structure PlayerState (π : Type) where
  player : π
  initialized : Bool
  calls : List String

/-- An awaited call of a method of the player, recorded in `calls`. -/
def callPlayer {π : Type} (lib : PlayerLib π) (method : String) (args : List JsVal)
    (st : PlayerState π) : Outcome × PlayerState π :=
  ((lib.call method args st.player).1,
    ⟨(lib.call method args st.player).2, st.initialized, st.calls ++ [method]⟩)

/-- `isAvailable: () => available`. -/
def tpIsAvailable (available : Bool) : JsVal := bool available

/-- The argument of `updateOptions` in `init` (lines 22-26). -/
def initOptions {π : Type} (lib : PlayerLib π) : JsVal :=
  obj [("stopWithApp", bool false),
       ("capabilities", arr [lib.const "CAPABILITY_PLAY", lib.const "CAPABILITY_PAUSE",
          lib.const "CAPABILITY_SKIP_TO_NEXT", lib.const "CAPABILITY_SKIP_TO_PREVIOUS",
          lib.const "CAPABILITY_STOP"]),
       ("compactCapabilities", arr [lib.const "CAPABILITY_PLAY", lib.const "CAPABILITY_PAUSE"])]

/-- The function `init()` (lines 17-33). -/
def tpInit {π : Type} (available : Bool) (lib : PlayerLib π) (st : PlayerState π) :
    Outcome × PlayerState π :=
  if !available then (Outcome.returns (bool false), st)
  else if st.initialized then (Outcome.returns (bool true), st)
  else
    match callPlayer lib "setupPlayer" [] st with
    | (Outcome.throws _, st1) => (Outcome.returns (bool false), st1)
    | (Outcome.returns _, st1) =>
      match callPlayer lib "updateOptions" [initOptions lib] st1 with
      | (Outcome.throws _, st2) => (Outcome.returns (bool false), st2)
      | (Outcome.returns _, st2) => (Outcome.returns (bool true), ⟨st2.player, true, st2.calls⟩)

/-- The object passed to `TrackPlayer.add` (lines 39-46); `now` is `Date.now()` as text. -/
def trackToAdd (now : String) (track : JsVal) : JsVal :=
  obj [("id", (track.prop "id").or (str now)),
       ("url", track.prop "url"),
       ("title", (track.prop "title").or (str "Unknown")),
       ("artist", (track.prop "artist").or (str "")),
       ("artwork", (track.prop "artwork").or undefined),
       ("duration", (track.prop "duration").or undefined)]

/-- The function `addAndPlay(track)` (lines 35-53): it throws when the player is not
available, and rethrows what the player throws. -/
def tpAddAndPlay {π : Type} (available : Bool) (lib : PlayerLib π) (now : String)
    (track : JsVal) (st : PlayerState π) : Outcome × PlayerState π :=
  if !available then (Outcome.throws (newError "TrackPlayer not available"), st)
  else
    match callPlayer lib "reset" [] (tpInit available lib st).2 with
    | (Outcome.throws e, st1) => (Outcome.throws e, st1)
    | (Outcome.returns _, st1) =>
      if track.isNullish then (Outcome.throws typeErrorValue, st1)
      else
        match callPlayer lib "add" [trackToAdd now track] st1 with
        | (Outcome.throws e, st2) => (Outcome.throws e, st2)
        | (Outcome.returns _, st2) =>
          match callPlayer lib "play" [] st2 with
          | (Outcome.throws e, st3) => (Outcome.throws e, st3)
          | (Outcome.returns _, st3) => (Outcome.returns undefined, st3)

/-- The function `updateMetadata(meta)` (lines 55-69). -/
def tpUpdateMetadata {π : Type} (available : Bool) (lib : PlayerLib π) (meta : JsVal)
    (st : PlayerState π) : Outcome × PlayerState π :=
  if !available then (Outcome.returns undefined, st)
  else if meta.isNullish then
    (Outcome.returns undefined, (callPlayer lib "updateOptions" [obj []] st).2)
  else
    match callPlayer lib "updateMetadataForTrack"
        [(meta.prop "id").or (str "current"),
          obj [("title", meta.prop "title"), ("artist", meta.prop "artist"),
               ("artwork", meta.prop "artwork"), ("duration", meta.prop "duration")]] st with
    | (Outcome.returns _, st1) => (Outcome.returns undefined, st1)
    | (Outcome.throws _, st1) =>
      (Outcome.returns undefined, (callPlayer lib "updateOptions" [obj []] st1).2)

/-- The function `setNotificationProgress(position, duration)` (lines 71-79). -/
def tpSetNotificationProgress {π : Type} (_available : Bool) (_position _duration : JsVal)
    (st : PlayerState π) : Outcome × PlayerState π :=
  (Outcome.returns undefined, st)

/-- The function `destroyPlayer()` (lines 81-84). -/
def tpDestroyPlayer {π : Type} (available : Bool) (lib : PlayerLib π) (st : PlayerState π) :
    Outcome × PlayerState π :=
  if !available then (Outcome.returns undefined, st)
  else
    match callPlayer lib "destroy" [] st with
    | (Outcome.returns _, st1) => (Outcome.returns undefined, ⟨st1.player, false, st1.calls⟩)
    | (Outcome.throws _, st1) => (Outcome.returns undefined, st1)

/-- The functions `play`, `pause`, `stop`, `skipToNext` and `skipToPrevious` (lines 86-90),
each for its own `method`. -/
def tpSimple {π : Type} (available : Bool) (lib : PlayerLib π) (method : String)
    (st : PlayerState π) : Outcome × PlayerState π :=
  if !available then (Outcome.returns undefined, st)
  else (Outcome.returns undefined, (callPlayer lib method [] st).2)

/-- The status returned when the player is not available or fails. -/
def idleStatus : JsVal :=
  obj [("position", num 0), ("duration", num 0), ("isPlaying", bool false)]

/-- The function `getStatus()` (lines 92-103). -/
def tpGetStatus {π : Type} (available : Bool) (lib : PlayerLib π) (st : PlayerState π) :
    Outcome × PlayerState π :=
  if !available then (Outcome.returns idleStatus, st)
  else
    match callPlayer lib "getPosition" [] st with
    | (Outcome.throws _, st1) => (Outcome.returns idleStatus, st1)
    | (Outcome.returns position, st1) =>
      match callPlayer lib "getDuration" [] st1 with
      | (Outcome.throws _, st2) => (Outcome.returns idleStatus, st2)
      | (Outcome.returns duration, st2) =>
        match callPlayer lib "getState" [] st2 with
        | (Outcome.throws _, st3) => (Outcome.returns idleStatus, st3)
        | (Outcome.returns state, st3) =>
          (Outcome.returns
            (obj [("position", position), ("duration", duration),
                  ("isPlaying", bool (state.strictEq (lib.const "STATE_PLAYING")))]), st3)

/-! ## Search history and playlists (`src/App.js`) -/

/-- The list stored by `onSearch` (line 121):
`[cleaned, ...list.filter((x) => x !== cleaned)].slice(0, 50)`. -/
def nextHistory (cleaned : String) (list : List JsVal) : List JsVal :=
  (str cleaned :: list.filter (fun x => !(x.strictEq (str cleaned)))).take 50

/-- The history update of `onSearch` (lines 109-125) for the typed text `q` and the stored list
`list`: `cleaned` is `q.trim()`, the built-in `trim` being a parameter; for a blank query the
function returns before touching the history (`none`). -/
def onSearchHistory (trim : String → String) (q : String) (list : List JsVal) :
    Option (List JsVal) :=
  if trim q = "" then none else some (nextHistory (trim q) list)

/-- A track as the app stores it: its `id` (absent for a search result without one) and its
other properties. -/
structure Track where
  id : Option String
  fields : List (String × JsVal)
  deriving DecidableEq

/-- A playlist as the app stores it, `{ id, name, tracks }`; `tracks` may be absent. -/
structure Playlist where
  id : String
  name : String
  tracks : Option (List Track)
  deriving DecidableEq

/-- The expression `p.tracks || []`. -/
def Playlist.trackList (p : Playlist) : List Track := p.tracks.getD []

/-- The callback of `playlists.map` in `addTrackToPlaylist` (lines 350-356). -/
def addTrackTo (playlistId : String) (track : Track) (p : Playlist) : Playlist :=
  if p.id ≠ playlistId then p
  else
    match p.trackList.find? (fun t => decide (t.id = track.id)) with
    | some _ => p
    | none => ⟨p.id, p.name, some (p.trackList ++ [track])⟩

/-- The list `next` that `addTrackToPlaylist(playlistId, track)` saves (lines 349-359). -/
def addTrackToPlaylist (playlists : List Playlist) (playlistId : String) (track : Track) :
    List Playlist :=
  playlists.map (addTrackTo playlistId track)

/-- A stand-in for `String.prototype.trim` that removes nothing. -/
def noTrim : String → String := fun t => t

/-! ## Built-ins on strings: `parseInt(x, 10)`, `split('.')`, `slice(0, end)` -/

/-- The characters `parseInt` skips at the start: JavaScript white space and line
terminators. -/
def isJsSpace (c : Char) : Bool :=
  c.toNat = 9 || c.toNat = 10 || c.toNat = 11 || c.toNat = 12 || c.toNat = 13 ||
    c.toNat = 32 || c.toNat = 160 || c.toNat = 5760 || (8192 ≤ c.toNat && c.toNat ≤ 8202) ||
    c.toNat = 8232 || c.toNat = 8233 || c.toNat = 8239 || c.toNat = 8287 ||
    c.toNat = 12288 || c.toNat = 65279

/-- A decimal digit. -/
def isDigit10 (c : Char) : Bool := 48 ≤ c.toNat && c.toNat ≤ 57

/-- The integer a list of decimal digits writes. -/
def digitsValue (ds : List Char) : Nat :=
  ds.foldl (fun acc c => 10 * acc + (c.toNat - 48)) 0

/-- The number of low bits the natural number `n` loses when it is written with a significand
of 53 bits: the least `e` with `n / 2 ^ e < 2 ^ 53`, found by halving `n` at most `fuel`
times (`fuel = n` is always enough). -/
def shiftOf : Nat → Nat → Nat
  | 0, _ => 0
  | fuel + 1, n => if n < 2 ^ 53 then 0 else shiftOf fuel (n / 2) + 1

/-- The place of `Infinity` among the natural numbers: `2 ^ 1024`, above every finite
double. -/
def infinityRank : Nat := 2 ^ 256 * 2 ^ 256 * (2 ^ 256 * 2 ^ 256)

/-- The Number value of the natural number `n`: `n` rounded to the nearest number with a
significand of 53 bits, ties to the even significand, and `Infinity` when that is `2 ^ 1024`
or more.  A finite Number that large is itself a natural number; `Infinity`, which is above
every finite Number and equal to itself, is `infinityRank`, so that `<`, `>` and `Math.min`
on Numbers are those of the integers. -/
def toDouble (n : Nat) : Nat :=
  min
    ((if 2 ^ shiftOf n n < 2 * (n % 2 ^ shiftOf n n) ∨
          (2 * (n % 2 ^ shiftOf n n) = 2 ^ shiftOf n n ∧ n / 2 ^ shiftOf n n % 2 = 1)
        then n / 2 ^ shiftOf n n + 1 else n / 2 ^ shiftOf n n) *
      2 ^ shiftOf n n)
    infinityRank

/-- The Number read from the longest prefix of decimal digits, `none` (NaN) when there is no
digit. -/
def parseDigits (cs : List Char) : Option Nat :=
  if cs.takeWhile isDigit10 = [] then none
  else some (toDouble (digitsValue (cs.takeWhile isDigit10)))

/-- `parseInt(x, 10)` on the characters of `x`: leading white space is skipped, then an
optional sign, then the longest prefix of digits; `none` is NaN.  The value is the Number
the digits round to (`toDouble`), `-0` being `0`. -/
def parseIntChars (cs : List Char) : Option Int :=
  match cs.dropWhile isJsSpace with
  | '-' :: rest => (parseDigits rest).map (fun n => -(n : Int))
  | '+' :: rest => (parseDigits rest).map (fun n => (n : Int))
  | rest => (parseDigits rest).map (fun n => (n : Int))

/-- `parseInt(x, 10)` on a string. -/
def parseInt10 (x : String) : Option Int := parseIntChars x.toList

/-- `x.split('.')` on the characters of `x`. -/
def splitOnDot : List Char → List (List Char)
  | [] => [[]]
  | c :: cs =>
    if c = '.' then [] :: splitOnDot cs
    else
      match splitOnDot cs with
      | [] => [[c]]
      | h :: t => (c :: h) :: t

/-- `xs.slice(0, end)` for a number `end`, `none` being NaN: NaN counts as 0, a negative
`end` counts from the end of the array. -/
def sliceFromZero {α : Type} (xs : List α) (stop : Option Int) : List α :=
  match stop with
  | none => []
  | some e => if e < 0 then xs.take (xs.length - (-e).toNat) else xs.take e.toNat

/-! ## The handler of `GET /search` (`src/server.js`, lines 24-44) -/

/-- `Math.min(parseInt(req.query.max || '50', 10), 50)` for the query parameter `max`, absent
or a string; `none` is NaN. -/
def searchMax (maxParam : Option String) : Option Int :=
  (parseInt10
    (match maxParam with
      | none => "50"
      | some m => if m = "" then "50" else m)).map (fun n => min n 50)

/-- The callback of `map` (lines 32-39); reading a property of a `null` or `undefined` video
raises a TypeError (`none`). -/
def searchItem (v : JsVal) : Option JsVal :=
  if v.isNullish then none
  else some (obj
    [("id", (v.prop "videoId").or (v.prop "video_id")),
     ("title", v.prop "title"),
     ("thumbnail", v.prop "thumbnail"),
     ("channel", ((((v.prop "author").and ((v.prop "author").prop "name")).or
        (v.prop "author")).or (v.prop "channel")).or (str "")),
     ("duration", ((v.prop "timestamp").or (v.prop "duration")).or (str "")),
     ("views", (v.prop "views").or (num 0))])

/-- `videos.map(callback)`, `none` when the callback raises. -/
def searchItems : List JsVal → Option (List JsVal)
  | [] => some []
  | v :: rest =>
    match searchItem v, searchItems rest with
    | some x, some xs => some (x :: xs)
    | _, _ => none

/-- The `catch (err)` block (lines 40-43). -/
def searchFailure (stringOf : JsVal → String) (err : JsVal) : Reply :=
  if err.isNullish then Reply.typeError
  else Reply.json 500
    (obj [("error", str "yt-search failed"),
          ("details", (err.prop "message").or (str (stringOf err)))])

/-- The handler of `GET /search` for the query parameters `q` and `max` (absent or strings)
and the awaited search `yts`. -/
def searchHandler (stringOf : JsVal → String) (yts : String → Outcome)
    (q maxParam : Option String) : Reply :=
  if q.getD "" = "" then Reply.json 200 (arr [])
  else
    match yts (q.getD "") with
    | Outcome.throws err => searchFailure stringOf err
    | Outcome.returns r =>
      match (if r.truthy && (r.prop "videos").truthy then r.prop "videos" else arr []) with
      | arr items =>
        match searchItems (sliceFromZero items (searchMax maxParam)) with
        | some out => Reply.json 200 (arr out)
        | none => searchFailure stringOf typeErrorValue
      | _ => searchFailure stringOf typeErrorValue

/-- The array of a 200 reply, if the reply is one. -/
def replyItems : Reply → Option (List JsVal)
  | Reply.json 200 (arr out) => some out
  | _ => none

/-- Sixty videos, numbered from 0. -/
def sixtyVideos : List JsVal :=
  (List.range 60).map (fun i => obj [("videoId", num (i : Int)), ("title", str "video")])

/-- A search library that returns `sixtyVideos` for every query. -/
def sixtyResults : String → Outcome :=
  fun _ => Outcome.returns (obj [("videos", arr sixtyVideos)])

/-! ## `compareSemver` and `sanitizeFilename` (`src/App.js`, lines 479-488 and 512) -/

/-- `(a || '').split('.').map((x) => parseInt(x, 10) || 0)` for a string `a`. -/
def semverParts (a : String) : List Int :=
  (splitOnDot a.toList).map (fun x => (parseIntChars x).getD 0)

/-- The `for` loop of `compareSemver` at index `i`, with `n` iterations left; `pa[i] || 0` is
the component at `i`, or 0 beyond the end. -/
def semverLoop (pa pb : List Int) : Nat → Nat → Int
  | 0, _ => 0
  | n + 1, i =>
    if pa.getD i 0 > pb.getD i 0 then 1
    else if pa.getD i 0 < pb.getD i 0 then -1
    else semverLoop pa pb n (i + 1)

/-- The function `compareSemver(a, b)` on strings. -/
def compareSemver (a b : String) : Int :=
  semverLoop (semverParts a) (semverParts b)
    (max (semverParts a).length (semverParts b).length) 0

/-- The characters kept by the pattern `/[^a-z0-9\-_. ]/gi`, as UTF-16 code units: ASCII
letters, digits, `-`, `_`, `.` and space.  Without the `u` flag the pattern works on single code
units, and ignoring case maps no other code unit to an ASCII letter. -/
def allowedUnit (u : Nat) : Bool :=
  (97 ≤ u && u ≤ 122) || (65 ≤ u && u ≤ 90) || (48 ≤ u && u ≤ 57) ||
    u = 45 || u = 95 || u = 46 || u = 32

/-- The function `sanitizeFilename(s)` on the UTF-16 code units of `s`:
`s.replace(/[^a-z0-9\-_. ]/gi, '_').slice(0, 120)`. -/
def sanitizeFilename (s : List Nat) : List Nat :=
  (s.map (fun u => if allowedUnit u then u else 95)).take 120

/-! ## The nested loop is the loop over the slots -/

theorem providerLoop_eq_pairLoop {σ : Type} (url q : JsVal) (ps : List (Resolver σ)) :
    ∀ (j : Nat) (loc : Locals) (w : World σ),
      providerLoop url q ps j loc w = pairLoop url (rowOf q j ps) loc w := by
  induction ps with
  | nil => intro j loc w; rfl
  | cons p ps ih =>
    intro j loc w
    simp only [providerLoop, rowOf, List.enumFrom_cons, List.map_cons, pairLoop]
    cases tryPair url q j p loc w with
    | finished r l w1 => rfl
    | next l w1 => exact ih (j + 1) l w1

theorem pairLoop_append {σ : Type} (url : JsVal) (xs ys : List (Pair σ)) :
    ∀ (loc : Locals) (w : World σ),
      pairLoop url (xs ++ ys) loc w =
        match pairLoop url xs loc w with
        | Flow.finished r l w1 => Flow.finished r l w1
        | Flow.next l w1 => pairLoop url ys l w1 := by
  induction xs with
  | nil => intro loc w; rfl
  | cons x xs ih =>
    intro loc w
    simp only [List.cons_append, pairLoop]
    cases tryPair url x.q x.idx x.resolver loc w with
    | finished r l w1 => rfl
    | next l w1 => exact ih l w1

theorem qualityLoop_eq_pairLoop {σ : Type} (url : JsVal) (providers : List (Resolver σ))
    (tiers : List JsVal) :
    ∀ (loc : Locals) (w : World σ),
      qualityLoop url providers tiers loc w = pairLoop url (pairsOf tiers providers) loc w := by
  induction tiers with
  | nil => intro loc w; rfl
  | cons q qs ih =>
    intro loc w
    have hp : pairsOf (q :: qs) providers = rowOf q 0 providers ++ pairsOf qs providers := by
      simp [pairsOf]
    rw [hp, pairLoop_append, ← providerLoop_eq_pairLoop]
    simp only [qualityLoop]
    cases providerLoop url q providers 0 loc w with
    | finished r l w1 => rfl
    | next l w1 => exact ih l w1

/-! ## One pass through the loop body, by the outcome of the retry-wrapped call -/

theorem tryPair_valid {σ : Type} (url : JsVal) (pr : Pair σ) (loc : Locals) (w w1 : World σ)
    (r : JsVal) (ha : attempt url pr w = (Outcome.returns r, w1))
    (hv : validPayload r = true) :
    tryPair url pr.q pr.idx pr.resolver loc w =
      Flow.finished (Reply.json 200 (successBody r pr.q pr.resolver.name)) loc w1 := by
  unfold attempt at ha
  simp only [tryPair, ha, hv, if_true]

theorem tryPair_invalid {σ : Type} (url : JsVal) (pr : Pair σ) (loc : Locals) (w w1 : World σ)
    (r : JsVal) (ha : attempt url pr w = (Outcome.returns r, w1))
    (hv : validPayload r = false) :
    tryPair url pr.q pr.idx pr.resolver loc w = Flow.next loc w1 := by
  unfold attempt at ha
  simp [tryPair, ha, hv]

theorem tryPair_nullish {σ : Type} (url : JsVal) (pr : Pair σ) (loc : Locals) (w w1 : World σ)
    (e : JsVal) (ha : attempt url pr w = (Outcome.throws e, w1))
    (he : e.isNullish = true) :
    tryPair url pr.q pr.idx pr.resolver loc w =
      Flow.finished Reply.typeError ⟨e, loc.errorDetails⟩ w1 := by
  unfold attempt at ha
  simp [tryPair, ha, failureEntry, he]

theorem tryPair_error {σ : Type} (url : JsVal) (pr : Pair σ) (loc : Locals) (w w1 : World σ)
    (e : JsVal) (ha : attempt url pr w = (Outcome.throws e, w1))
    (he : e.isNullish = false) :
    ∃ entry, failureEntry e pr.resolver.name = some entry ∧
      tryPair url pr.q pr.idx pr.resolver loc w =
        Flow.next ⟨e, loc.errorDetails ++ [entry]⟩ w1 := by
  unfold attempt at ha
  simp [tryPair, ha, failureEntry, he]

theorem tryPair_goesOn {σ : Type} (url : JsVal) (pr : Pair σ) (loc : Locals) (w : World σ)
    (h : goesOn url pr w = true) :
    ∃ le, tryPair url pr.q pr.idx pr.resolver loc w =
        Flow.next ⟨le, loc.errorDetails ++ entryOf url pr w⟩ (attempt url pr w).2 ∧
      (entryOf url pr w = [] → le = loc.lastError) := by
  cases ha : attempt url pr w with
  | mk o w1 =>
    cases o with
    | returns r =>
      have hv : validPayload r = false := by
        simpa [goesOn, yieldsValid, throwsNullish, ha] using h
      refine ⟨loc.lastError, ?_, fun _ => rfl⟩
      rw [tryPair_invalid url pr loc w w1 r ha hv]
      simp [entryOf, ha]
    | throws e =>
      have he : e.isNullish = false := by
        simpa [goesOn, yieldsValid, throwsNullish, ha] using h
      obtain ⟨entry, hen, ht⟩ := tryPair_error url pr loc w w1 e ha he
      refine ⟨e, ?_, ?_⟩
      · rw [ht]; simp [entryOf, ha, hen]
      · intro h0; simp [entryOf, ha, hen] at h0

/-! ## The loop over the slots, up to the first slot that does not go on -/

theorem pairLoop_allGoOn {σ : Type} (url : JsVal) (prs : List (Pair σ)) :
    ∀ (loc : Locals) (w : World σ), allGoOn url prs w = true →
      ∃ le, pairLoop url prs loc w =
          Flow.next ⟨le, loc.errorDetails ++ entriesAfter url prs w⟩ (worldAfter url prs w) ∧
        (entriesAfter url prs w = [] → le = loc.lastError) := by
  induction prs with
  | nil =>
    intro loc w _
    exact ⟨loc.lastError, by simp [pairLoop, entriesAfter, worldAfter], fun _ => rfl⟩
  | cons x rest ih =>
    intro loc w h
    simp only [allGoOn, Bool.and_eq_true] at h
    obtain ⟨le1, h1, hl1⟩ := tryPair_goesOn url x loc w h.1
    obtain ⟨le, h2, hl2⟩ := ih ⟨le1, loc.errorDetails ++ entryOf url x w⟩ (attempt url x w).2 h.2
    refine ⟨le, ?_, ?_⟩
    · simp only [pairLoop, h1, h2, entriesAfter, worldAfter, List.append_assoc]
    · intro h0
      simp only [entriesAfter, List.append_eq_nil] at h0
      rw [hl2 h0.2]
      exact hl1 h0.1

theorem pairLoop_at {σ : Type} (url : JsVal) (prs : List (Pair σ)) :
    ∀ (k : Nat) (pr : Pair σ) (loc : Locals) (w : World σ), prs[k]? = some pr →
      allGoOn url (prs.take k) w = true →
      ∃ le, pairLoop url prs loc w =
        match tryPair url pr.q pr.idx pr.resolver
            ⟨le, loc.errorDetails ++ entriesAfter url (prs.take k) w⟩
            (worldAfter url (prs.take k) w) with
        | Flow.finished r l w1 => Flow.finished r l w1
        | Flow.next l w1 => pairLoop url (prs.drop (k + 1)) l w1 := by
  induction prs with
  | nil => intro k pr loc w hk; simp at hk
  | cons x rest ih =>
    intro k pr loc w hk h
    cases k with
    | zero =>
      simp only [List.getElem?_cons_zero, Option.some.injEq] at hk
      subst hk
      exact ⟨loc.lastError, by simp [pairLoop, entriesAfter, worldAfter]⟩
    | succ k =>
      simp only [List.getElem?_cons_succ] at hk
      simp only [List.take_succ_cons, allGoOn, Bool.and_eq_true] at h
      obtain ⟨le1, h1, -⟩ := tryPair_goesOn url x loc w h.1
      obtain ⟨le, h2⟩ := ih k pr ⟨le1, loc.errorDetails ++ entryOf url x w⟩
        (attempt url x w).2 hk h.2
      refine ⟨le, ?_⟩
      simp only [pairLoop, h1, h2, List.take_succ_cons, entriesAfter, worldAfter,
        List.append_assoc, List.drop_succ_cons]

theorem allGoOn_or_first {σ : Type} (url : JsVal) (prs : List (Pair σ)) :
    ∀ (w : World σ), allGoOn url prs w = true ∨
      ∃ k pr, prs[k]? = some pr ∧ allGoOn url (prs.take k) w = true ∧
        goesOn url pr (worldAfter url (prs.take k) w) = false := by
  induction prs with
  | nil => intro w; exact Or.inl rfl
  | cons x rest ih =>
    intro w
    cases hx : goesOn url x w with
    | false => exact Or.inr ⟨0, x, by simp, by simp [allGoOn], by simpa [worldAfter] using hx⟩
    | true =>
      rcases ih (attempt url x w).2 with h | ⟨k, pr, hk, hpre, hgo⟩
      · exact Or.inl (by simp [allGoOn, hx, h])
      · refine Or.inr ⟨k + 1, pr, by simpa using hk, ?_, ?_⟩
        · simp [allGoOn, hx, hpre]
        · simpa [worldAfter] using hgo

/-! ## The whole request, by what happens at the slots -/

theorem run_exhausted {σ : Type} (providers : List (Resolver σ)) (body : JsVal) (env : σ)
    (hurl : (reqUrl body).truthy = true)
    (hall : allGoOn (reqUrl body) (requestPairs providers body) ⟨env, []⟩ = true) :
    ∃ le, aDlWith providers body env =
        ⟨Reply.json 500
            (exhaustionBody ⟨le, entriesAfter (reqUrl body) (requestPairs providers body) ⟨env, []⟩⟩),
          ⟨le, entriesAfter (reqUrl body) (requestPairs providers body) ⟨env, []⟩⟩,
          worldAfter (reqUrl body) (requestPairs providers body) ⟨env, []⟩⟩ ∧
      (entriesAfter (reqUrl body) (requestPairs providers body) ⟨env, []⟩ = [] → le = null) := by
  obtain ⟨le, h, hl⟩ := pairLoop_allGoOn (reqUrl body) (requestPairs providers body)
    ⟨null, []⟩ ⟨env, []⟩ hall
  refine ⟨le, ?_, hl⟩
  unfold requestPairs at h
  simp only [aDlWith, hurl, Bool.not_true, Bool.false_eq_true, if_false,
    qualityLoop_eq_pairLoop, h, List.nil_append]
  rfl

theorem run_at {σ : Type} (providers : List (Resolver σ)) (body : JsVal) (env : σ)
    (k : Nat) (pr : Pair σ) (hurl : (reqUrl body).truthy = true)
    (hk : (requestPairs providers body)[k]? = some pr)
    (hpre : allGoOn (reqUrl body) ((requestPairs providers body).take k) ⟨env, []⟩ = true) :
    ∃ le, ∀ (r : Reply) (l : Locals) (w1 : World σ),
      tryPair (reqUrl body) pr.q pr.idx pr.resolver
        ⟨le, entriesAfter (reqUrl body) ((requestPairs providers body).take k) ⟨env, []⟩⟩
        (worldAfter (reqUrl body) ((requestPairs providers body).take k) ⟨env, []⟩) =
          Flow.finished r l w1 →
      aDlWith providers body env = ⟨r, l, w1⟩ := by
  obtain ⟨le, h⟩ := pairLoop_at (reqUrl body) (requestPairs providers body) k pr
    ⟨null, []⟩ ⟨env, []⟩ hk hpre
  refine ⟨le, fun r l w1 hf => ?_⟩
  simp only [List.nil_append] at h
  rw [hf] at h
  unfold requestPairs at h
  simp only [aDlWith, hurl, Bool.not_true, Bool.false_eq_true, if_false,
    qualityLoop_eq_pairLoop, h]

theorem run_first_valid {σ : Type} (providers : List (Resolver σ)) (body : JsVal) (env : σ)
    (k : Nat) (pr : Pair σ) (r : JsVal) (w1 : World σ)
    (hurl : (reqUrl body).truthy = true)
    (hk : (requestPairs providers body)[k]? = some pr)
    (hpre : allGoOn (reqUrl body) ((requestPairs providers body).take k) ⟨env, []⟩ = true)
    (ha : attempt (reqUrl body) pr
      (worldAfter (reqUrl body) ((requestPairs providers body).take k) ⟨env, []⟩) =
        (Outcome.returns r, w1))
    (hv : validPayload r = true) :
    (aDlWith providers body env).reply =
        Reply.json 200 (successBody r pr.q pr.resolver.name) ∧
      (aDlWith providers body env).world = w1 ∧
      (aDlWith providers body env).locals.errorDetails =
        entriesAfter (reqUrl body) ((requestPairs providers body).take k) ⟨env, []⟩ := by
  obtain ⟨le, h⟩ := run_at providers body env k pr hurl hk hpre
  rw [h _ _ _ (tryPair_valid _ pr _ _ w1 r ha hv)]
  exact ⟨rfl, rfl, rfl⟩

theorem run_first_nullish {σ : Type} (providers : List (Resolver σ)) (body : JsVal) (env : σ)
    (k : Nat) (pr : Pair σ) (e : JsVal) (w1 : World σ)
    (hurl : (reqUrl body).truthy = true)
    (hk : (requestPairs providers body)[k]? = some pr)
    (hpre : allGoOn (reqUrl body) ((requestPairs providers body).take k) ⟨env, []⟩ = true)
    (ha : attempt (reqUrl body) pr
      (worldAfter (reqUrl body) ((requestPairs providers body).take k) ⟨env, []⟩) =
        (Outcome.throws e, w1))
    (he : e.isNullish = true) :
    (aDlWith providers body env).reply = Reply.typeError ∧
      (aDlWith providers body env).world = w1 := by
  obtain ⟨le, h⟩ := run_at providers body env k pr hurl hk hpre
  rw [h _ _ _ (tryPair_nullish _ pr _ _ w1 e ha he)]
  exact ⟨rfl, rfl⟩

/-- A slot that does not go on either yields a valid payload or throws `null`/`undefined`. -/
theorem not_goesOn_cases {σ : Type} (url : JsVal) (pr : Pair σ) (w : World σ)
    (h : goesOn url pr w = false) :
    (∃ r, attempt url pr w = (Outcome.returns r, (attempt url pr w).2) ∧
        validPayload r = true) ∨
      (∃ e, attempt url pr w = (Outcome.throws e, (attempt url pr w).2) ∧
        e.isNullish = true) := by
  cases ha : attempt url pr w with
  | mk o w1 =>
    cases o with
    | returns r =>
      left
      refine ⟨r, rfl, ?_⟩
      simpa [goesOn, yieldsValid, throwsNullish, ha] using h
    | throws e =>
      right
      refine ⟨e, rfl, ?_⟩
      simpa [goesOn, yieldsValid, throwsNullish, ha] using h

/-- The three ways a request with a url ends. -/
theorem run_cases {σ : Type} (providers : List (Resolver σ)) (body : JsVal) (env : σ)
    (hurl : (reqUrl body).truthy = true) :
    (allGoOn (reqUrl body) (requestPairs providers body) ⟨env, []⟩ = true ∧
      ∃ le, (aDlWith providers body env).reply = Reply.json 500 (exhaustionBody
        ⟨le, entriesAfter (reqUrl body) (requestPairs providers body) ⟨env, []⟩⟩)) ∨
    (∃ k pr r, (requestPairs providers body)[k]? = some pr ∧
      allGoOn (reqUrl body) ((requestPairs providers body).take k) ⟨env, []⟩ = true ∧
      attempt (reqUrl body) pr
        (worldAfter (reqUrl body) ((requestPairs providers body).take k) ⟨env, []⟩) =
          (Outcome.returns r, (aDlWith providers body env).world) ∧
      validPayload r = true ∧
      (aDlWith providers body env).reply =
        Reply.json 200 (successBody r pr.q pr.resolver.name)) ∨
    (∃ k pr e, (requestPairs providers body)[k]? = some pr ∧
      allGoOn (reqUrl body) ((requestPairs providers body).take k) ⟨env, []⟩ = true ∧
      attempt (reqUrl body) pr
        (worldAfter (reqUrl body) ((requestPairs providers body).take k) ⟨env, []⟩) =
          (Outcome.throws e, (aDlWith providers body env).world) ∧
      e.isNullish = true ∧
      (aDlWith providers body env).reply = Reply.typeError) := by
  rcases allGoOn_or_first (reqUrl body) (requestPairs providers body) ⟨env, []⟩ with
    hall | ⟨k, pr, hk, hpre, hgo⟩
  · left
    obtain ⟨le, h, -⟩ := run_exhausted providers body env hurl hall
    exact ⟨hall, le, by rw [h]⟩
  · right
    rcases not_goesOn_cases _ pr _ hgo with ⟨r, ha, hv⟩ | ⟨e, ha, he⟩
    · left
      obtain ⟨h1, h2, -⟩ := run_first_valid providers body env k pr r _ hurl hk hpre ha hv
      exact ⟨k, pr, r, hk, hpre, by rw [h2]; exact ha, hv, h1⟩
    · right
      obtain ⟨h1, h2⟩ := run_first_nullish providers body env k pr e _ hurl hk hpre ha he
      exact ⟨k, pr, e, hk, hpre, by rw [h2]; exact ha, he, h1⟩

/-! ## The retry-wrapped call with the handler's parameters `(2, 400)`, and the trace -/

theorem attempt_eq {σ : Type} (url : JsVal) (pr : Pair σ) (w : World σ) :
    attempt url pr w =
      match pr.resolver.call url pr.q w.env with
      | (Outcome.returns v, env1) =>
        (Outcome.returns v, ⟨env1, w.trace ++ [Event.invoke pr.idx pr.q]⟩)
      | (Outcome.throws _, env1) =>
        match pr.resolver.call url pr.q env1 with
        | (Outcome.returns v, env2) =>
          (Outcome.returns v, ⟨env2, w.trace ++
            [Event.invoke pr.idx pr.q, Event.wait 400, Event.invoke pr.idx pr.q]⟩)
        | (Outcome.throws e, env2) =>
          (Outcome.throws e, ⟨env2, w.trace ++
            [Event.invoke pr.idx pr.q, Event.wait 400, Event.invoke pr.idx pr.q]⟩) := by
  unfold attempt withRetries
  simp only [retryLoop, callProvider]
  cases h1 : pr.resolver.call url pr.q w.env with
  | mk o1 env1 =>
    cases o1 with
    | returns v => rfl
    | throws e1 =>
      simp only [wait, Nat.lt_irrefl, if_false]
      cases h2 : pr.resolver.call url pr.q env1 with
      | mk o2 env2 =>
        cases o2 with
        | returns v => simp [h2]
        | throws e2 => simp [h2]

theorem invocations_append (a b : List Event) :
    invocations (a ++ b) = invocations a ++ invocations b := by
  induction a with
  | nil => rfl
  | cons x xs ih =>
    cases x with
    | invoke j q => simp [invocations, ih]
    | wait ms => simp [invocations, ih]

/-- The retry-wrapped call of a slot adds to the trace one or two invocations of that slot,
and invocations of no other slot. -/
theorem trace_attempt {σ : Type} (url : JsVal) (pr : Pair σ) (w : World σ) :
    ∃ evs, (attempt url pr w).2.trace = w.trace ++ evs ∧
      (invocations evs = [pr.key] ∨ invocations evs = [pr.key, pr.key]) := by
  rw [attempt_eq]
  cases h1 : pr.resolver.call url pr.q w.env with
  | mk o1 env1 =>
    cases o1 with
    | returns v => exact ⟨_, rfl, Or.inl rfl⟩
    | throws e1 =>
      cases h2 : pr.resolver.call url pr.q env1 with
      | mk o2 env2 =>
        cases o2 with
        | returns v =>
          exact ⟨[Event.invoke pr.idx pr.q, Event.wait 400, Event.invoke pr.idx pr.q],
            by simp only [h2], Or.inr rfl⟩
        | throws e2 =>
          exact ⟨[Event.invoke pr.idx pr.q, Event.wait 400, Event.invoke pr.idx pr.q],
            by simp only [h2], Or.inr rfl⟩

/-- The retry-wrapped calls of the slots `prs` add to the trace invocations of every slot of
`prs` and of no other slot. -/
theorem trace_worldAfter {σ : Type} (url : JsVal) (prs : List (Pair σ)) :
    ∀ (w : World σ), ∃ evs, (worldAfter url prs w).trace = w.trace ++ evs ∧
      (∀ pr ∈ prs, pr.key ∈ invocations evs) ∧
      (∀ x ∈ invocations evs, ∃ pr ∈ prs, x = pr.key) := by
  induction prs with
  | nil => intro w; exact ⟨[], by simp [worldAfter], by simp, by simp [invocations]⟩
  | cons x rest ih =>
    intro w
    obtain ⟨e1, h1, hx⟩ := trace_attempt url x w
    obtain ⟨e2, h2, hin, hout⟩ := ih (attempt url x w).2
    refine ⟨e1 ++ e2, ?_, ?_, ?_⟩
    · simp only [worldAfter, h2, h1, List.append_assoc]
    · intro pr hpr
      rw [invocations_append]
      rcases List.mem_cons.1 hpr with rfl | hmem
      · rcases hx with hx | hx <;> simp [hx]
      · exact List.mem_append_right _ (hin pr hmem)
    · intro y hy
      rw [invocations_append] at hy
      rcases List.mem_append.1 hy with hy | hy
      · refine ⟨x, List.mem_cons_self _ _, ?_⟩
        rcases hx with hx | hx <;> simp [hx] at hy <;> exact hy
      · obtain ⟨pr, hpr, rfl⟩ := hout y hy
        exact ⟨pr, List.mem_cons_of_mem _ hpr, rfl⟩

theorem allGoOn_take_get {σ : Type} (url : JsVal) (prs : List (Pair σ)) :
    ∀ (k : Nat) (w : World σ), allGoOn url (prs.take k) w = true →
      ∀ (i : Nat) (p : Pair σ), i < k → prs[i]? = some p →
        goesOn url p (worldAfter url (prs.take i) w) = true := by
  induction prs with
  | nil => intro k w _ i p _ hp; simp at hp
  | cons x rest ih =>
    intro k w h i p hik hp
    cases k with
    | zero => omega
    | succ k =>
      simp only [List.take_succ_cons, allGoOn, Bool.and_eq_true] at h
      cases i with
      | zero =>
        simp only [List.getElem?_cons_zero, Option.some.injEq] at hp
        subst hp
        simpa [worldAfter] using h.1
      | succ i =>
        simp only [List.getElem?_cons_succ] at hp
        simpa [worldAfter] using ih k _ h.2 i p (by omega) hp

theorem goesOn_not_valid {σ : Type} (url : JsVal) (pr : Pair σ) (w : World σ)
    (h : goesOn url pr w = true) : yieldsValid url pr w = false := by
  simp only [goesOn, Bool.and_eq_true, Bool.not_eq_true'] at h
  exact h.1

/-! ## No slot of the matrix occurs twice -/

theorem strictEq_num (n : Int) (v : JsVal) : (num n).strictEq v = decide (num n = v) := by
  by_cases h : num n = v
  · subst h
    rw [decide_eq_true rfl]
    simp only [strictEq, beq_self_eq_true]
  · rw [decide_eq_false h]
    cases v with
    | num m =>
      have hne : n ≠ m := fun e => h (by rw [e])
      simp only [strictEq]
      exact beq_false_of_ne hne
    | _ => rfl

theorem tryQualities_truthy (quality : JsVal) (h : quality.truthy = true) :
    tryQualities quality = quality :: qualities.filter (fun t => decide (t ≠ quality)) := by
  simp only [tryQualities, h, if_true, qualities, List.filter_cons, List.filter_nil,
    strictEq_num, ne_eq, decide_not]

theorem tryQualities_falsy (quality : JsVal) (h : quality.truthy = false) :
    tryQualities quality = qualities := by
  simp [tryQualities, h]

theorem tryQualities_nodup (quality : JsVal) : (tryQualities quality).Nodup := by
  have hq : qualities.Nodup := by decide
  cases h : quality.truthy with
  | false => rw [tryQualities_falsy quality h]; exact hq
  | true =>
    rw [tryQualities_truthy quality h]
    refine List.nodup_cons.2 ⟨?_, hq.filter _⟩
    simp [List.mem_filter]

theorem pairsOf_keys_nodup {σ : Type} (providers : List (Resolver σ)) (tiers : List JsVal)
    (h : tiers.Nodup) : ((pairsOf tiers providers).map Pair.key).Nodup := by
  induction tiers with
  | nil => simp [pairsOf]
  | cons q qs ih =>
    have hp : pairsOf (q :: qs) providers = rowOf q 0 providers ++ pairsOf qs providers := by
      simp [pairsOf]
    rw [hp, List.map_append, List.nodup_append]
    obtain ⟨hq, hqs⟩ := List.nodup_cons.1 h
    refine ⟨?_, ih hqs, ?_⟩
    · have : ((rowOf q 0 providers).map Pair.key).map Prod.fst
          = List.range' 0 providers.length := by
        simp [rowOf, Pair.key, List.map_map, Function.comp_def]
      exact List.Nodup.of_map Prod.fst (this ▸ List.nodup_range' 0 _)
    · intro x hx1 hx2
      simp only [rowOf, List.mem_map, Pair.key] at hx1
      obtain ⟨p1, ⟨jp, -, rfl⟩, rfl⟩ := hx1
      simp only [pairsOf, List.mem_map, List.mem_flatMap, rowOf, Pair.key] at hx2
      obtain ⟨p2, ⟨t, ht, jp2, -, rfl⟩, h2⟩ := hx2
      simp only [Prod.mk.injEq] at h2
      exact hq (h2.2 ▸ ht)

theorem requestPairs_keys_nodup {σ : Type} (providers : List (Resolver σ)) (body : JsVal) :
    ((requestPairs providers body).map Pair.key).Nodup :=
  pairsOf_keys_nodup providers _ (tryQualities_nodup _)

theorem mem_take_of_getElem? {α : Type} (l : List α) (i k : Nat) (a : α) (hik : i < k)
    (h : l[i]? = some a) : a ∈ l.take k := by
  rw [List.mem_iff_getElem?]
  exact ⟨i, by rw [List.getElem?_take_of_lt hik]; exact h⟩

theorem getElem?_of_mem_take {α : Type} (l : List α) (k : Nat) (a : α) (h : a ∈ l.take k) :
    ∃ i, i < k ∧ l[i]? = some a := by
  rw [List.mem_iff_getElem?] at h
  obtain ⟨i, hi⟩ := h
  rw [List.getElem?_take] at hi
  by_cases hik : i < k
  · exact ⟨i, hik, by simpa [hik] using hi⟩
  · simp [hik] at hi

/-! ## The claims -/

/-- C1: a `POST /a-dl` request whose body has no `url` or an empty `url` (whatever its
`quality`, whatever the provider list and the outside world) is answered with HTTP 400 and the
body `{status: false, error: 'YouTube URL is required'}`; the trace of the request is empty, so
no resolver is invoked and no wait is made, and the outside world is left as it was. -/
theorem aDl_missing_url_rejected {σ : Type} (providers : List (Resolver σ)) (body : JsVal)
    (env : σ) (h : reqUrl body = undefined ∨ reqUrl body = str "") :
    (aDlWith providers body env).reply =
        Reply.json 400 (obj [("status", bool false), ("error", str "YouTube URL is required")]) ∧
      (aDlWith providers body env).world.trace = [] ∧
      (aDlWith providers body env).world.env = env := by
  have hf : (reqUrl body).truthy = false := by
    rcases h with h | h <;> rw [h] <;> rfl
  simp [aDlWith, hf, missingUrlBody]

theorem aDl_missing_url_rejected_witness :
    (reqUrl (obj [("quality", num 320)]) = undefined ∨
        reqUrl (obj [("quality", num 320)]) = str "") ∧
      ((aDl offline (obj [("quality", num 320)]) 0).reply =
          Reply.json 400
            (obj [("status", bool false), ("error", str "YouTube URL is required")]) ∧
        (aDl offline (obj [("quality", num 320)]) 0).world.trace = [] ∧
        (aDl offline (obj [("quality", num 320)]) 0).world.env = 0) :=
  ⟨Or.inl rfl,
    aDl_missing_url_rejected (providerEndpoints offline) (obj [("quality", num 320)]) 0
      (Or.inl rfl)⟩

/-- C2, as stated, fails: for the request `{url, quality: 0}` a preferred quality is supplied
but the search order is the fixed list, whose first element is 320 and not 0. -/
theorem tryQualities_zero_counterexample :
    reqQuality zeroQualityBody = num 0 ∧
      tryQualities (reqQuality zeroQualityBody) = [num 320, num 256, num 128, num 92] ∧
      tryQualities (reqQuality zeroQualityBody) ≠
        num 0 :: [num 320, num 256, num 128, num 92].filter (fun t => decide (t ≠ num 0)) := by
  decide

/-- C2, amended: when the preferred quality `Q` of the request is truthy (any value other than
`undefined`, `null`, `false`, `0` and `''`), the search order is `Q` followed by the fixed
order `[320, 256, 128, 92]` with every occurrence of `Q` removed, the remaining tiers in their
relative order; when the quality `N` is absent or falsy, it is exactly `[320, 256, 128, 92]`. -/
theorem tryQualities_order (Q N : JsVal) (hQ : Q.truthy = true) (hN : N.truthy = false) :
    tryQualities Q =
        Q :: [num 320, num 256, num 128, num 92].filter (fun t => decide (t ≠ Q)) ∧
      tryQualities N = [num 320, num 256, num 128, num 92] :=
  ⟨tryQualities_truthy Q hQ, tryQualities_falsy N hN⟩

theorem tryQualities_order_witness :
    ((num 256).truthy = true ∧ (reqQuality (obj [("url", sampleUrl)])).truthy = false) ∧
      (tryQualities (num 256) =
          num 256 :: [num 320, num 256, num 128, num 92].filter
            (fun t => decide (t ≠ num 256)) ∧
        tryQualities (reqQuality (obj [("url", sampleUrl)])) =
          [num 320, num 256, num 128, num 92]) :=
  ⟨⟨rfl, rfl⟩,
    tryQualities_order (num 256) (reqQuality (obj [("url", sampleUrl)])) rfl rfl⟩

theorem truthy_of_not_rejected {σ : Type} (providers : List (Resolver σ)) (body : JsVal)
    (env : σ) (h : (aDlWith providers body env).reply ≠ Reply.json 400 missingUrlBody) :
    (reqUrl body).truthy = true := by
  cases hu : (reqUrl body).truthy with
  | true => rfl
  | false => exact absurd (by simp [aDlWith, hu]) h

/-- C3: whenever `/a-dl` answers with success (status 200, body `b`), there is a slot `k` of
the matrix in tier-major order (tiers in search order, within a tier resolvers in list order)
whose retry-wrapped call, made after those of the slots before it, returned a payload `r` that
passes validation and ended the request; the reported quality is the tier of that slot and the
returned url is `r.download.url`; and every slot strictly before `k` was tried (its resolver
was invoked) and did not yield a valid payload. -/
theorem success_from_first_valid_pair {σ : Type} (providers : List (Resolver σ))
    (body : JsVal) (env : σ) (b : JsVal)
    (h : (aDlWith providers body env).reply = Reply.json 200 b) :
    ∃ k pr r,
      (requestPairs providers body)[k]? = some pr ∧
      attempt (reqUrl body) pr
        (worldAfter (reqUrl body) ((requestPairs providers body).take k) ⟨env, []⟩) =
          (Outcome.returns r, (aDlWith providers body env).world) ∧
      validPayload r = true ∧
      b.prop "quality" = pr.q ∧
      b.prop "url" = (r.prop "download").prop "url" ∧
      ∀ i p, i < k → (requestPairs providers body)[i]? = some p →
        yieldsValid (reqUrl body) p
            (worldAfter (reqUrl body) ((requestPairs providers body).take i) ⟨env, []⟩) = false ∧
          p.key ∈ invocations (aDlWith providers body env).world.trace := by
  have hurl : (reqUrl body).truthy = true :=
    truthy_of_not_rejected providers body env (by rw [h]; simp)
  rcases run_cases providers body env hurl with
    ⟨-, le, h5⟩ | ⟨k, pr, r, hk, hpre, ha, hv, h2⟩ | ⟨k, pr, e, -, -, -, -, ht⟩
  · rw [h] at h5; simp at h5
  · rw [h] at h2
    have hb : b = successBody r pr.q pr.resolver.name := by
      simpa using h2
    refine ⟨k, pr, r, hk, ha, hv, ?_, ?_, ?_⟩
    · rw [hb]; rfl
    · rw [hb]; rfl
    · intro i p hik hp
      refine ⟨goesOn_not_valid _ _ _ (allGoOn_take_get _ _ k _ hpre i p hik hp), ?_⟩
      obtain ⟨e0, h0, hin, -⟩ := trace_worldAfter (reqUrl body)
        ((requestPairs providers body).take k) ⟨env, []⟩
      obtain ⟨e1, h1, -⟩ := trace_attempt (reqUrl body) pr
        (worldAfter (reqUrl body) ((requestPairs providers body).take k) ⟨env, []⟩)
      rw [ha] at h1
      simp only at h1
      rw [h1, h0, invocations_append, invocations_append]
      exact List.mem_append_left _ (List.mem_append_right _
        (hin p (mem_take_of_getElem? _ i k p hik hp)))
  · rw [h] at ht; simp at ht

theorem success_from_first_valid_pair_witness :
    (aDlWith [alwaysThrows, succeedsAt256] sampleBody 0).reply =
        Reply.json 200 (successBody samplePayload (num 256) "B") ∧
      ∃ k pr r,
        (requestPairs [alwaysThrows, succeedsAt256] sampleBody)[k]? = some pr ∧
        attempt (reqUrl sampleBody) pr
          (worldAfter (reqUrl sampleBody)
            ((requestPairs [alwaysThrows, succeedsAt256] sampleBody).take k) ⟨0, []⟩) =
            (Outcome.returns r, (aDlWith [alwaysThrows, succeedsAt256] sampleBody 0).world) ∧
        validPayload r = true ∧
        (successBody samplePayload (num 256) "B").prop "quality" = pr.q ∧
        (successBody samplePayload (num 256) "B").prop "url" = (r.prop "download").prop "url" ∧
        ∀ i p, i < k → (requestPairs [alwaysThrows, succeedsAt256] sampleBody)[i]? = some p →
          yieldsValid (reqUrl sampleBody) p
              (worldAfter (reqUrl sampleBody)
                ((requestPairs [alwaysThrows, succeedsAt256] sampleBody).take i) ⟨0, []⟩) =
              false ∧
            p.key ∈ invocations (aDlWith [alwaysThrows, succeedsAt256] sampleBody 0).world.trace :=
  ⟨by decide,
    success_from_first_valid_pair [alwaysThrows, succeedsAt256] sampleBody 0
      (successBody samplePayload (num 256) "B") (by decide)⟩

/-- C4 (short-circuit): if the handler reaches slot `k` (resolver `P` at tier `T`) and the
retry-wrapped call of that slot returns a payload that passes validation, leaving the world
`w1`, then the request ends in `w1`: its trace is the trace at that return, which ends with the
returning invocation of `P`, so `P` is not invoked again, and no resolver is invoked for any
slot that comes after `(T, P)` in the iteration order. -/
theorem short_circuit_after_valid_payload {σ : Type} (providers : List (Resolver σ))
    (body : JsVal) (env : σ) (k : Nat) (pr : Pair σ) (r : JsVal) (w1 : World σ)
    (hurl : (reqUrl body).truthy = true)
    (hk : (requestPairs providers body)[k]? = some pr)
    (hpre : allGoOn (reqUrl body) ((requestPairs providers body).take k) ⟨env, []⟩ = true)
    (ha : attempt (reqUrl body) pr
      (worldAfter (reqUrl body) ((requestPairs providers body).take k) ⟨env, []⟩) =
        (Outcome.returns r, w1))
    (hv : validPayload r = true) :
    (aDlWith providers body env).world = w1 ∧
      (∃ t, (aDlWith providers body env).world.trace = t ++ [Event.invoke pr.idx pr.q]) ∧
      ∀ i p, k < i → (requestPairs providers body)[i]? = some p →
        p.key ∉ invocations (aDlWith providers body env).world.trace := by
  obtain ⟨-, hw, -⟩ := run_first_valid providers body env k pr r w1 hurl hk hpre ha hv
  refine ⟨hw, ?_, ?_⟩
  · rw [hw]
    rw [attempt_eq] at ha
    revert ha
    cases pr.resolver.call (reqUrl body) pr.q
      (worldAfter (reqUrl body) ((requestPairs providers body).take k) ⟨env, []⟩).env with
    | mk o1 env1 =>
      cases o1 with
      | returns v =>
        intro ha
        simp only [Prod.mk.injEq] at ha
        exact ⟨_, by rw [← ha.2]⟩
      | throws e1 =>
        simp only
        cases pr.resolver.call (reqUrl body) pr.q env1 with
        | mk o2 env2 =>
          cases o2 with
          | returns v =>
            intro ha
            simp only [Prod.mk.injEq] at ha
            refine ⟨(worldAfter (reqUrl body) ((requestPairs providers body).take k)
              ⟨env, []⟩).trace ++ [Event.invoke pr.idx pr.q, Event.wait 400], ?_⟩
            rw [← ha.2]
            simp
          | throws e2 =>
            intro ha
            simp at ha
  · intro i p hki hp hmem
    obtain ⟨e0, h0, -, hout⟩ := trace_worldAfter (reqUrl body)
      ((requestPairs providers body).take k) ⟨env, []⟩
    obtain ⟨e1, h1, h1k⟩ := trace_attempt (reqUrl body) pr
      (worldAfter (reqUrl body) ((requestPairs providers body).take k) ⟨env, []⟩)
    rw [ha] at h1
    simp only at h1
    rw [hw, h1, h0, invocations_append, invocations_append] at hmem
    have hnd := List.nodup_iff_getElem?_ne_getElem?.1
      (requestPairs_keys_nodup providers body)
    have hi : i < ((requestPairs providers body).map Pair.key).length := by
      rw [List.length_map]
      by_contra hcon
      rw [List.getElem?_eq_none (by omega)] at hp
      exact Option.noConfusion hp
    have key : ∃ j q, j ≤ k ∧ (requestPairs providers body)[j]? = some q ∧ p.key = q.key := by
      rcases List.mem_append.1 hmem with hm | hm
      · rcases List.mem_append.1 hm with hm | hm
        · simp [invocations] at hm
        · obtain ⟨q, hq, hqk⟩ := hout _ hm
          obtain ⟨j, hj, hjq⟩ := getElem?_of_mem_take _ k q hq
          exact ⟨j, q, by omega, hjq, hqk⟩
      · refine ⟨k, pr, le_refl k, hk, ?_⟩
        rcases h1k with h1k | h1k <;> rw [h1k] at hm <;> simpa using hm
    obtain ⟨j, q, hjk, hjq, hkey⟩ := key
    apply hnd j i (by omega) hi
    rw [List.getElem?_map, List.getElem?_map, hjq, hp]
    simp [hkey]

theorem short_circuit_after_valid_payload_witness :
    ((reqUrl sampleBody).truthy = true ∧
      (requestPairs [alwaysThrows, succeedsAt256] sampleBody)[1]? =
        some ⟨num 256, 1, succeedsAt256⟩ ∧
      allGoOn (reqUrl sampleBody)
        ((requestPairs [alwaysThrows, succeedsAt256] sampleBody).take 1) ⟨0, []⟩ = true ∧
      validPayload samplePayload = true) ∧
    ((aDlWith [alwaysThrows, succeedsAt256] sampleBody 0).world =
        ⟨3, [Event.invoke 0 (num 256), Event.wait 400, Event.invoke 0 (num 256),
          Event.invoke 1 (num 256)]⟩ ∧
      (∃ t, (aDlWith [alwaysThrows, succeedsAt256] sampleBody 0).world.trace =
        t ++ [Event.invoke 1 (num 256)]) ∧
      ∀ i p, 1 < i → (requestPairs [alwaysThrows, succeedsAt256] sampleBody)[i]? = some p →
        p.key ∉ invocations (aDlWith [alwaysThrows, succeedsAt256] sampleBody 0).world.trace) :=
  ⟨⟨rfl, rfl, by decide, rfl⟩,
    short_circuit_after_valid_payload [alwaysThrows, succeedsAt256] sampleBody 0 1
      ⟨num 256, 1, succeedsAt256⟩ samplePayload
      ⟨3, [Event.invoke 0 (num 256), Event.wait 400, Event.invoke 0 (num 256),
          Event.invoke 1 (num 256)]⟩ rfl rfl (by decide) rfl rfl⟩

/-! ### Exhaustion -/

theorem throwsError_goesOn {σ : Type} (url : JsVal) (pr : Pair σ) (w : World σ)
    (h : throwsError url pr w = true) : goesOn url pr w = true := by
  unfold throwsError at h
  unfold goesOn yieldsValid throwsNullish
  cases ha : (attempt url pr w).1 with
  | returns r => rw [ha] at h; simp at h
  | throws e => rw [ha] at h; simpa using h

theorem allThrow_allGoOn {σ : Type} (url : JsVal) (prs : List (Pair σ)) :
    ∀ (w : World σ), allThrow url prs w = true → allGoOn url prs w = true := by
  induction prs with
  | nil => intro w _; rfl
  | cons x rest ih =>
    intro w h
    simp only [allThrow, Bool.and_eq_true] at h
    simp only [allGoOn, Bool.and_eq_true]
    exact ⟨throwsError_goesOn url x w h.1, ih _ h.2⟩

/-- When every slot throws, the entries are one per slot, in the order of the slots. -/
theorem entriesAfter_allThrow {σ : Type} (url : JsVal) (prs : List (Pair σ)) :
    ∀ (w : World σ), allThrow url prs w = true →
      (entriesAfter url prs w).length = prs.length ∧
      ∀ i pr, prs[i]? = some pr →
        ∃ e, (attempt url pr (worldAfter url (prs.take i) w)).1 = Outcome.throws e ∧
          (entriesAfter url prs w)[i]? = failureEntry e pr.resolver.name := by
  induction prs with
  | nil => intro w _; exact ⟨rfl, fun i pr hp => by simp at hp⟩
  | cons x rest ih =>
    intro w h
    simp only [allThrow, Bool.and_eq_true] at h
    obtain ⟨hlen, hget⟩ := ih _ h.2
    have hx := h.1
    unfold throwsError at hx
    cases ha : (attempt url x w).1 with
    | returns r => rw [ha] at hx; simp at hx
    | throws e =>
      rw [ha] at hx
      have hne : e.isNullish = false := by simpa using hx
      have hentry : entryOf url x w =
          [obj [("provider", ((e.prop "provider").or (str x.resolver.name)).or (str "unknown")),
                ("status", (e.prop "response").optProp "status"),
                ("data", ((e.prop "response").optProp "data").or (e.prop "message"))]] := by
        simp [entryOf, ha, failureEntry, hne]
      refine ⟨by simp [entriesAfter, hentry, hlen], ?_⟩
      intro i pr hp
      cases i with
      | zero =>
        simp only [List.getElem?_cons_zero, Option.some.injEq] at hp
        subst hp
        refine ⟨e, by simpa [worldAfter] using ha, ?_⟩
        simp [entriesAfter, hentry, failureEntry, hne]
      | succ i =>
        simp only [List.getElem?_cons_succ] at hp
        obtain ⟨e2, h1, h2⟩ := hget i pr hp
        refine ⟨e2, by simpa [worldAfter] using h1, ?_⟩
        simpa [entriesAfter, hentry] using h2

theorem rowOf_length {σ : Type} (q : JsVal) (j : Nat) (providers : List (Resolver σ)) :
    (rowOf q j providers).length = providers.length := by
  simp [rowOf]

theorem pairsOf_length {σ : Type} (tiers : List JsVal) (providers : List (Resolver σ)) :
    (pairsOf tiers providers).length = tiers.length * providers.length := by
  induction tiers with
  | nil => simp [pairsOf]
  | cons q qs ih =>
    have hp : pairsOf (q :: qs) providers = rowOf q 0 providers ++ pairsOf qs providers := by
      simp [pairsOf]
    rw [hp, List.length_append, ih, rowOf_length, List.length_cons]
    ring

theorem tryQualities_ne_nil (quality : JsVal) : tryQualities quality ≠ [] := by
  unfold tryQualities
  split
  · simp
  · simp [qualities]

theorem exhaustionDetails_of_ne_nil (le : JsVal) (entries : List JsVal) (h : entries ≠ []) :
    exhaustionDetails ⟨le, entries⟩ = arr entries := by
  have : entries.length ≠ 0 := fun h0 => h (List.length_eq_zero.1 h0)
  simp [exhaustionDetails, this]

/-- C5, as stated, fails: with the library not installed and every HTTP call failing, every
resolver fails at every tier (no slot yields a valid payload and the matrix is exhausted), the
search order has 4 tiers and the provider list 4 resolvers, but `details` has 8 entries, not
16: the two resolvers that return `null` leave no entry. -/
theorem details_length_counterexample :
    allGoOn (reqUrl sampleBody) (requestPairs (providerEndpoints offline) sampleBody) ⟨0, []⟩ =
        true ∧
      (tryQualities (reqQuality sampleBody)).length = 4 ∧
      (providerEndpoints offline).length = 4 ∧
      ∃ entries, (aDl offline sampleBody 0).reply =
          Reply.json 500
            (obj [("status", bool false),
                  ("error", str "Audio download failed for all providers/qualities."),
                  ("details", arr entries)]) ∧
        entries.length = 8 :=
  ⟨by decide, by decide, by decide, (aDl offline sampleBody 0).locals.errorDetails,
    by decide, by decide⟩

/-- C5, amended: if at every tier the retry-wrapped call of every resolver of a non-empty
provider list throws (a value other than `null` and `undefined`), the reply is the HTTP 500
failure whose `details` is a list of exactly (number of tiers in the search order) × (number of
resolvers) entries, and entry `i` is the failure entry of the error thrown at slot `i` of the
matrix, in the order the slots were attempted. -/
theorem details_one_entry_per_throwing_pair {σ : Type} (providers : List (Resolver σ))
    (body : JsVal) (env : σ) (hurl : (reqUrl body).truthy = true) (hne : providers ≠ [])
    (hall : allThrow (reqUrl body) (requestPairs providers body) ⟨env, []⟩ = true) :
    ∃ entries,
      (aDlWith providers body env).reply =
        Reply.json 500
          (obj [("status", bool false),
                ("error", str "Audio download failed for all providers/qualities."),
                ("details", arr entries)]) ∧
      entries.length = (tryQualities (reqQuality body)).length * providers.length ∧
      ∀ i pr, (requestPairs providers body)[i]? = some pr →
        ∃ e, (attempt (reqUrl body) pr
            (worldAfter (reqUrl body) ((requestPairs providers body).take i) ⟨env, []⟩)).1 =
              Outcome.throws e ∧
          entries[i]? = failureEntry e pr.resolver.name := by
  obtain ⟨le, hrun, -⟩ := run_exhausted providers body env hurl
    (allThrow_allGoOn _ _ _ hall)
  obtain ⟨hlen, hget⟩ := entriesAfter_allThrow _ _ _ hall
  have hlen2 : (entriesAfter (reqUrl body) (requestPairs providers body) ⟨env, []⟩).length =
      (tryQualities (reqQuality body)).length * providers.length := by
    rw [hlen]; exact pairsOf_length _ _
  have hpos : entriesAfter (reqUrl body) (requestPairs providers body) ⟨env, []⟩ ≠ [] := by
    intro h0
    rw [h0] at hlen2
    have h1 : (tryQualities (reqQuality body)).length ≠ 0 :=
      fun h => tryQualities_ne_nil _ (List.length_eq_zero.1 h)
    have h2 : providers.length ≠ 0 := fun h => hne (List.length_eq_zero.1 h)
    rcases Nat.mul_eq_zero.1 hlen2.symm with h | h
    · exact h1 h
    · exact h2 h
  refine ⟨_, ?_, hlen2, hget⟩
  rw [hrun]
  simp only [exhaustionBody, exhaustionDetails_of_ne_nil _ _ hpos]

theorem details_one_entry_per_throwing_pair_witness :
    ((reqUrl sampleBody).truthy = true ∧ [alwaysThrows, alwaysThrows] ≠ [] ∧
      allThrow (reqUrl sampleBody) (requestPairs [alwaysThrows, alwaysThrows] sampleBody)
        ⟨0, []⟩ = true) ∧
    ∃ entries,
      (aDlWith [alwaysThrows, alwaysThrows] sampleBody 0).reply =
        Reply.json 500
          (obj [("status", bool false),
                ("error", str "Audio download failed for all providers/qualities."),
                ("details", arr entries)]) ∧
      entries.length =
        (tryQualities (reqQuality sampleBody)).length * [alwaysThrows, alwaysThrows].length ∧
      ∀ i pr, (requestPairs [alwaysThrows, alwaysThrows] sampleBody)[i]? = some pr →
        ∃ e, (attempt (reqUrl sampleBody) pr
            (worldAfter (reqUrl sampleBody)
              ((requestPairs [alwaysThrows, alwaysThrows] sampleBody).take i) ⟨0, []⟩)).1 =
              Outcome.throws e ∧
          entries[i]? = failureEntry e pr.resolver.name :=
  ⟨⟨rfl, by simp, by decide⟩,
    details_one_entry_per_throwing_pair [alwaysThrows, alwaysThrows] sampleBody 0 rfl
      (by simp) (by decide)⟩

theorem allGoOn_noneValid {σ : Type} (url : JsVal) (prs : List (Pair σ)) :
    ∀ (w : World σ), allGoOn url prs w = true → noneValid url prs w = true := by
  induction prs with
  | nil => intro w _; rfl
  | cons x rest ih =>
    intro w h
    simp only [allGoOn, Bool.and_eq_true] at h
    simp only [noneValid, Bool.and_eq_true, Bool.not_eq_true']
    exact ⟨goesOn_not_valid url x w h.1, ih _ h.2⟩

theorem noneValid_get {σ : Type} (url : JsVal) (prs : List (Pair σ)) :
    ∀ (w : World σ), noneValid url prs w = true → ∀ k pr, prs[k]? = some pr →
      yieldsValid url pr (worldAfter url (prs.take k) w) = false := by
  induction prs with
  | nil => intro w _ k pr hp; simp at hp
  | cons x rest ih =>
    intro w h k pr hp
    simp only [noneValid, Bool.and_eq_true, Bool.not_eq_true'] at h
    cases k with
    | zero =>
      simp only [List.getElem?_cons_zero, Option.some.injEq] at hp
      subst hp
      simpa [worldAfter] using h.1
    | succ k =>
      simp only [List.getElem?_cons_succ] at hp
      simpa [worldAfter] using ih _ h.2 k pr hp

theorem noneNullish_get {σ : Type} (url : JsVal) (prs : List (Pair σ)) :
    ∀ (w : World σ), noneNullish url prs w = true → ∀ k pr, prs[k]? = some pr →
      throwsNullish url pr (worldAfter url (prs.take k) w) = false := by
  induction prs with
  | nil => intro w _ k pr hp; simp at hp
  | cons x rest ih =>
    intro w h k pr hp
    simp only [noneNullish, Bool.and_eq_true, Bool.not_eq_true'] at h
    cases k with
    | zero =>
      simp only [List.getElem?_cons_zero, Option.some.injEq] at hp
      subst hp
      simpa [worldAfter] using h.1
    | succ k =>
      simp only [List.getElem?_cons_succ] at hp
      simpa [worldAfter] using ih _ h.2 k pr hp

/-- On every run in which no retry-wrapped call throws `null` or `undefined`, the reply is the
HTTP 500 failure exactly when no slot of the matrix, attempted in turn, yields a valid
payload. -/
theorem failure_iff_none_valid {σ : Type} (providers : List (Resolver σ)) (body : JsVal)
    (env : σ) (hurl : (reqUrl body).truthy = true)
    (hsafe : noneNullish (reqUrl body) (requestPairs providers body) ⟨env, []⟩ = true) :
    (∃ b, (aDlWith providers body env).reply = Reply.json 500 b) ↔
      noneValid (reqUrl body) (requestPairs providers body) ⟨env, []⟩ = true := by
  rcases run_cases providers body env hurl with
    ⟨hall, le, h5⟩ | ⟨k, pr, r, hk, -, ha, hv, h2⟩ | ⟨k, pr, e, hk, -, ha, he, -⟩
  · exact ⟨fun _ => allGoOn_noneValid _ _ _ hall, fun _ => ⟨_, h5⟩⟩
  · constructor
    · rintro ⟨b, hb⟩
      rw [h2] at hb
      simp at hb
    · intro hnone
      have := noneValid_get _ _ _ hnone k pr hk
      simp [yieldsValid, ha, hv] at this
  · have := noneNullish_get _ _ _ hsafe k pr hk
    simp [throwsNullish, ha, he] at this

/-- C6, at the failing input: the library is installed and `ytmp3` rejects with `null`, every
other call fails with an `Error`.  No slot of the matrix yields a valid payload, yet the reply
is not the HTTP 500 failure: reading `err.provider` in the `catch` block raises a TypeError
that leaves the handler at the first slot, after the two invocations of `ytmp3`. -/
theorem null_rejection_escapes_handler :
    noneValid (reqUrl sampleBody) (requestPairs (providerEndpoints rejectsWithNull) sampleBody)
        ⟨0, []⟩ = true ∧
      (aDl rejectsWithNull sampleBody 0).reply = Reply.typeError ∧
      (aDl rejectsWithNull sampleBody 0).world.trace =
        [Event.invoke 0 (num 256), Event.wait 400, Event.invoke 0 (num 256)] := by
  decide

/-! ### Retry and the success body -/

theorem key_not_invoked_before {σ : Type} (providers : List (Resolver σ)) (body : JsVal)
    (env : σ) (k : Nat) (pr : Pair σ) (hk : (requestPairs providers body)[k]? = some pr) :
    pr.key ∉ invocations
      (worldAfter (reqUrl body) ((requestPairs providers body).take k) ⟨env, []⟩).trace := by
  intro hmem
  obtain ⟨e0, h0, -, hout⟩ := trace_worldAfter (reqUrl body)
    ((requestPairs providers body).take k) ⟨env, []⟩
  rw [h0, invocations_append] at hmem
  rcases List.mem_append.1 hmem with hm | hm
  · simp [invocations] at hm
  · obtain ⟨q, hq, hqk⟩ := hout _ hm
    obtain ⟨j, hj, hjq⟩ := getElem?_of_mem_take _ k q hq
    have hnd := List.nodup_iff_getElem?_ne_getElem?.1
      (requestPairs_keys_nodup providers body)
    have hi : k < ((requestPairs providers body).map Pair.key).length := by
      rw [List.length_map]
      by_contra hcon
      rw [List.getElem?_eq_none (by omega)] at hk
      exact Option.noConfusion hk
    apply hnd j k hj hi
    rw [List.getElem?_map, List.getElem?_map, hjq, hk]
    simp [hqk]

/-- C7 (retry): if the handler reaches slot `k` and the resolver of that slot throws on its
first invocation and returns a payload that passes validation on its second, then the slot
succeeds: the reply is the success response for the tier of the slot, the slot adds to the
trace exactly an invocation, a wait of 400 ms and a second invocation, so the resolver is
invoked exactly 2 times for the slot in the whole request, and `errorDetails` holds only the
entries of the slots before `k`, none for this slot. -/
theorem retry_second_attempt_succeeds {σ : Type} (providers : List (Resolver σ))
    (body : JsVal) (env : σ) (k : Nat) (pr : Pair σ) (e r : JsVal) (env1 env2 : σ)
    (hurl : (reqUrl body).truthy = true)
    (hk : (requestPairs providers body)[k]? = some pr)
    (hpre : allGoOn (reqUrl body) ((requestPairs providers body).take k) ⟨env, []⟩ = true)
    (h1 : pr.resolver.call (reqUrl body) pr.q
      (worldAfter (reqUrl body) ((requestPairs providers body).take k) ⟨env, []⟩).env =
        (Outcome.throws e, env1))
    (h2 : pr.resolver.call (reqUrl body) pr.q env1 = (Outcome.returns r, env2))
    (hv : validPayload r = true) :
    (aDlWith providers body env).reply =
        Reply.json 200 (successBody r pr.q pr.resolver.name) ∧
      (aDlWith providers body env).world =
        ⟨env2, (worldAfter (reqUrl body) ((requestPairs providers body).take k)
            ⟨env, []⟩).trace ++
          [Event.invoke pr.idx pr.q, Event.wait 400, Event.invoke pr.idx pr.q]⟩ ∧
      (invocations (aDlWith providers body env).world.trace).count pr.key = 2 ∧
      (aDlWith providers body env).locals.errorDetails =
        entriesAfter (reqUrl body) ((requestPairs providers body).take k) ⟨env, []⟩ := by
  have ha : attempt (reqUrl body) pr
      (worldAfter (reqUrl body) ((requestPairs providers body).take k) ⟨env, []⟩) =
        (Outcome.returns r, ⟨env2, (worldAfter (reqUrl body)
          ((requestPairs providers body).take k) ⟨env, []⟩).trace ++
          [Event.invoke pr.idx pr.q, Event.wait 400, Event.invoke pr.idx pr.q]⟩) := by
    rw [attempt_eq]
    simp only [h1, h2]
  obtain ⟨hr, hw, hd⟩ := run_first_valid providers body env k pr r _ hurl hk hpre ha hv
  refine ⟨hr, hw, ?_, hd⟩
  rw [hw]
  simp only [invocations_append, List.count_append]
  rw [List.count_eq_zero_of_not_mem (key_not_invoked_before providers body env k pr hk)]
  simp [invocations, Pair.key]

theorem retry_second_attempt_succeeds_witness :
    ((reqUrl sampleBody).truthy = true ∧
      (requestPairs [failsOnce] sampleBody)[0]? = some ⟨num 256, 0, failsOnce⟩ ∧
      allGoOn (reqUrl sampleBody) ((requestPairs [failsOnce] sampleBody).take 0) ⟨0, []⟩ =
        true ∧
      failsOnce.call (reqUrl sampleBody) (num 256) 0 =
        (Outcome.throws (newError "ETIMEDOUT"), 1) ∧
      failsOnce.call (reqUrl sampleBody) (num 256) 1 = (Outcome.returns samplePayload, 2) ∧
      validPayload samplePayload = true) ∧
    ((aDlWith [failsOnce] sampleBody 0).reply =
        Reply.json 200 (successBody samplePayload (num 256) "flaky") ∧
      (aDlWith [failsOnce] sampleBody 0).world =
        ⟨2, (worldAfter (reqUrl sampleBody) ((requestPairs [failsOnce] sampleBody).take 0)
            ⟨0, []⟩).trace ++
          [Event.invoke 0 (num 256), Event.wait 400, Event.invoke 0 (num 256)]⟩ ∧
      (invocations (aDlWith [failsOnce] sampleBody 0).world.trace).count
        (0, num 256) = 2 ∧
      (aDlWith [failsOnce] sampleBody 0).locals.errorDetails =
        entriesAfter (reqUrl sampleBody) ((requestPairs [failsOnce] sampleBody).take 0)
          ⟨0, []⟩) :=
  ⟨⟨rfl, rfl, rfl, rfl, rfl, rfl⟩,
    retry_second_attempt_succeeds [failsOnce] sampleBody 0 0 ⟨num 256, 0, failsOnce⟩
      (newError "ETIMEDOUT") samplePayload 1 2 rfl rfl rfl rfl rfl rfl⟩

/-- C8: when the handler reaches a slot of tier `q` and the payload `r` returned by its
retry-wrapped call is accepted, the reply has status 200 and its body is exactly
`{status: true, url: r.download.url, filename: r.download.filename, metadata: r.metadata,
quality: q, provider}` where `provider` is `r.provider || providerFn.name || 'unknown'`: url,
filename and metadata are copied from the payload and quality is the tier being tried. -/
theorem success_body_fields {σ : Type} (providers : List (Resolver σ))
    (body : JsVal) (env : σ) (k : Nat) (pr : Pair σ) (r : JsVal) (w1 : World σ)
    (hurl : (reqUrl body).truthy = true)
    (hk : (requestPairs providers body)[k]? = some pr)
    (hpre : allGoOn (reqUrl body) ((requestPairs providers body).take k) ⟨env, []⟩ = true)
    (ha : attempt (reqUrl body) pr
      (worldAfter (reqUrl body) ((requestPairs providers body).take k) ⟨env, []⟩) =
        (Outcome.returns r, w1))
    (hv : validPayload r = true) :
    (aDlWith providers body env).reply =
      Reply.json 200
        (obj [("status", bool true),
              ("url", (r.prop "download").prop "url"),
              ("filename", (r.prop "download").prop "filename"),
              ("metadata", r.prop "metadata"),
              ("quality", pr.q),
              ("provider", ((r.prop "provider").or (str pr.resolver.name)).or
                (str "unknown"))]) :=
  (run_first_valid providers body env k pr r w1 hurl hk hpre ha hv).1

theorem success_body_fields_witness :
    ((reqUrl sampleBody).truthy = true ∧
      (requestPairs [succeedsAt320] sampleBody)[1]? = some ⟨num 320, 0, succeedsAt320⟩ ∧
      allGoOn (reqUrl sampleBody) ((requestPairs [succeedsAt320] sampleBody).take 1)
        ⟨0, []⟩ = true ∧
      validPayload samplePayload = true) ∧
    (aDlWith [succeedsAt320] sampleBody 0).reply =
      Reply.json 200
        (obj [("status", bool true),
              ("url", (samplePayload.prop "download").prop "url"),
              ("filename", (samplePayload.prop "download").prop "filename"),
              ("metadata", samplePayload.prop "metadata"),
              ("quality", num 320),
              ("provider", ((samplePayload.prop "provider").or (str "C")).or
                (str "unknown"))]) :=
  ⟨⟨rfl, rfl, by decide, rfl⟩,
    success_body_fields [succeedsAt320] sampleBody 0 1 ⟨num 320, 0, succeedsAt320⟩
      samplePayload ⟨3, [Event.invoke 0 (num 256), Event.wait 400, Event.invoke 0 (num 256),
        Event.invoke 0 (num 320)]⟩ rfl rfl (by decide) rfl rfl⟩

/-! ### The exhaustion reply of the server -/

/-- A resolver that never returns a payload failing validation: it returns a valid one or
throws. -/
theorem httpResolve_returns_valid {σ : Type} (name : String) (x : Outcome × σ) (v : JsVal)
    (env1 : σ) (h : httpResolve name x = (Outcome.returns v, env1)) :
    validPayload v = true := by
  obtain ⟨o, env0⟩ := x
  cases o with
  | throws e => simp [httpResolve] at h
  | returns resp =>
    simp only [httpResolve] at h
    split at h
    · simp at h
    · split at h
      · rename_i hvalid
        simp only [Prod.mk.injEq, Outcome.returns.injEq] at h
        rw [← h.1]
        exact hvalid
      · simp at h

theorem attempt_returns_valid {σ : Type} (url : JsVal) (pr : Pair σ) (w w1 : World σ)
    (r : JsVal)
    (hres : ∀ u q env v env1, pr.resolver.call u q env = (Outcome.returns v, env1) →
      validPayload v = true)
    (ha : attempt url pr w = (Outcome.returns r, w1)) : validPayload r = true := by
  rw [attempt_eq] at ha
  cases h1 : pr.resolver.call url pr.q w.env with
  | mk o1 env1 =>
    rw [h1] at ha
    cases o1 with
    | returns v =>
      simp only [Prod.mk.injEq, Outcome.returns.injEq] at ha
      rw [← ha.1]
      exact hres _ _ _ _ _ h1
    | throws e1 =>
      simp only at ha
      cases h2 : pr.resolver.call url pr.q env1 with
      | mk o2 env2 =>
        rw [h2] at ha
        cases o2 with
        | returns v =>
          simp only [Prod.mk.injEq, Outcome.returns.injEq] at ha
          rw [← ha.1]
          exact hres _ _ _ _ _ h2
        | throws e2 => simp at ha

theorem entryOf_ne_nil {σ : Type} (url : JsVal) (pr : Pair σ) (w : World σ)
    (hres : ∀ u q env v env1, pr.resolver.call u q env = (Outcome.returns v, env1) →
      validPayload v = true)
    (hgo : goesOn url pr w = true) : entryOf url pr w ≠ [] := by
  cases ha : attempt url pr w with
  | mk o w1 =>
    cases o with
    | returns r =>
      have hv := attempt_returns_valid url pr w w1 r hres ha
      simp [goesOn, yieldsValid, ha, hv] at hgo
    | throws e =>
      have he : e.isNullish = false := by
        simpa [goesOn, yieldsValid, throwsNullish, ha] using hgo
      simp [entryOf, ha, failureEntry, he]

theorem entriesAfter_ne_nil {σ : Type} (url : JsVal) (prs : List (Pair σ)) :
    ∀ (w : World σ) (k : Nat) (pr : Pair σ), prs[k]? = some pr →
      (∀ u q env v env1, pr.resolver.call u q env = (Outcome.returns v, env1) →
        validPayload v = true) →
      allGoOn url prs w = true → entriesAfter url prs w ≠ [] := by
  induction prs with
  | nil => intro w k pr hp; simp at hp
  | cons x rest ih =>
    intro w k pr hp hres hall
    simp only [allGoOn, Bool.and_eq_true] at hall
    simp only [entriesAfter, ne_eq, List.append_eq_nil, not_and]
    cases k with
    | zero =>
      simp only [List.getElem?_cons_zero, Option.some.injEq] at hp
      subst hp
      intro h0
      exact absurd h0 (entryOf_ne_nil url x w hres hall.1)
    | succ k =>
      simp only [List.getElem?_cons_succ] at hp
      intro _
      exact ih _ k pr hp hres hall.2

theorem entriesAfter_shape {σ : Type} (url : JsVal) (prs : List (Pair σ)) :
    ∀ (w : World σ), ∀ x ∈ entriesAfter url prs w,
      ∃ p st d, x = obj [("provider", p), ("status", st), ("data", d)] := by
  induction prs with
  | nil => intro w x hx; simp [entriesAfter] at hx
  | cons y rest ih =>
    intro w x hx
    simp only [entriesAfter, List.mem_append] at hx
    rcases hx with hx | hx
    · unfold entryOf at hx
      cases ha : (attempt url y w).1 with
      | returns r => rw [ha] at hx; simp at hx
      | throws e =>
        rw [ha] at hx
        by_cases he : e.isNullish = true
        · simp [failureEntry, he] at hx
        · simp [failureEntry, he] at hx
          exact ⟨_, _, _, hx⟩
    · exact ih _ x hx

theorem vreden_slot {σ : Type} (s : Services σ) (body : JsVal) :
    ∃ q, (requestPairs (providerEndpoints s) body)[2]? = some ⟨q, 2, vredenResolver s⟩ := by
  unfold requestPairs
  cases ht : tryQualities (reqQuality body) with
  | nil => exact absurd ht (tryQualities_ne_nil _)
  | cons q qs => exact ⟨q, by simp [pairsOf, rowOf, providerEndpoints]⟩

/-- The string fallback of line 210 is reached only with a provider list other than the
server's, all of whose resolvers return without throwing: then `details` is
`'unknown error'`. -/
theorem unknown_error_needs_other_providers :
    (aDlWith [returnsNull] sampleBody 0).reply =
      Reply.json 500
        (obj [("status", bool false),
              ("error", str "Audio download failed for all providers/qualities."),
              ("details", str "unknown error")]) := by
  decide

/-! ### Payload validation -/

theorem validPayload_iff (r : JsVal) :
    validPayload r = true ↔
      (r.prop "status").truthy = true ∧ ((r.prop "download").prop "url").truthy = true := by
  unfold validPayload
  cases r with
  | obj fs =>
    cases hd : lookup fs "download" <;>
      simp [JsVal.prop, truthy, hd, lookup]
  | _ => simp [JsVal.prop, truthy]

/-- C10, as stated, fails: the payload `{status: 1, download: {url}}`, whose `status` is not
the boolean `true`, passes the test of line 183; the server, whose `ytmp3` returns it, answers
with the success response built from it. -/
theorem status_one_accepted_counterexample :
    statusOnePayload.prop "status" ≠ bool true ∧
      validPayload statusOnePayload = true ∧
      (aDl returnsStatusOne sampleBody 0).reply =
        Reply.json 200
          (obj [("status", bool true),
                ("url", str "https://cdn.example/a.mp3"),
                ("filename", undefined),
                ("metadata", undefined),
                ("quality", num 256),
                ("provider", str "unknown")]) := by
  decide

/-- C10, amended: a payload `r` returned by the retry-wrapped call of a resolver is accepted
as a success (the loop body returns the success response built from `r`) if and only if
`r.status` is truthy and `r.download.url` is truthy, where truthy is any value other than
`undefined`, `null`, `false`, `0` and `''`; otherwise the loop goes on to the next slot with
`errorDetails` unchanged.  The two direct HTTP resolvers apply the same test to `resp.data`:
they return it exactly when it is truthy in `status` and `download.url`. -/
theorem payload_accepted_iff_truthy {σ : Type} (url q : JsVal) (j : Nat) (p : Resolver σ)
    (loc : Locals) (w w1 : World σ) (r : JsVal)
    (ha : withRetries (callProvider p j url q) 2 400 w = (Outcome.returns r, w1)) :
    (tryPair url q j p loc w = Flow.finished (Reply.json 200 (successBody r q p.name)) loc w1 ↔
        (r.prop "status").truthy = true ∧ ((r.prop "download").prop "url").truthy = true) ∧
      (tryPair url q j p loc w = Flow.next loc w1 ↔
        ¬ ((r.prop "status").truthy = true ∧ ((r.prop "download").prop "url").truthy = true)) ∧
      ∀ (name : String) (resp : JsVal) (env1 : σ), resp.isNullish = false →
        (httpResolve name (Outcome.returns resp, env1) =
            (Outcome.returns (resp.prop "data"), env1) ↔
          ((resp.prop "data").prop "status").truthy = true ∧
            (((resp.prop "data").prop "download").prop "url").truthy = true) := by
  refine ⟨?_, ?_, ?_⟩
  · rw [← validPayload_iff]
    cases hv : validPayload r with
    | true => simp [tryPair, ha, hv]
    | false => simp [tryPair, ha, hv]
  · rw [← validPayload_iff]
    cases hv : validPayload r with
    | true => simp [tryPair, ha, hv]
    | false => simp [tryPair, ha, hv]
  · intro name resp env1 hresp
    rw [← validPayload_iff]
    cases hv : validPayload (resp.prop "data") with
    | true => simp [httpResolve, hresp, hv]
    | false => simp [httpResolve, hresp, hv]

theorem payload_accepted_iff_truthy_witness :
    withRetries (callProvider (ytmp3Resolver returnsStatusOne) 0 sampleUrl (num 256)) 2 400
        ⟨0, []⟩ = (Outcome.returns statusOnePayload, ⟨1, [Event.invoke 0 (num 256)]⟩) ∧
    ((tryPair sampleUrl (num 256) 0 (ytmp3Resolver returnsStatusOne) ⟨null, []⟩ ⟨0, []⟩ =
          Flow.finished
            (Reply.json 200
              (successBody statusOnePayload (num 256) (ytmp3Resolver returnsStatusOne).name))
            ⟨null, []⟩ ⟨1, [Event.invoke 0 (num 256)]⟩ ↔
        (statusOnePayload.prop "status").truthy = true ∧
          ((statusOnePayload.prop "download").prop "url").truthy = true) ∧
      (tryPair sampleUrl (num 256) 0 (ytmp3Resolver returnsStatusOne) ⟨null, []⟩ ⟨0, []⟩ =
          Flow.next ⟨null, []⟩ ⟨1, [Event.invoke 0 (num 256)]⟩ ↔
        ¬ ((statusOnePayload.prop "status").truthy = true ∧
          ((statusOnePayload.prop "download").prop "url").truthy = true)) ∧
      ∀ (name : String) (resp : JsVal) (env1 : Nat), resp.isNullish = false →
        (httpResolve name (Outcome.returns resp, env1) =
            (Outcome.returns (resp.prop "data"), env1) ↔
          ((resp.prop "data").prop "status").truthy = true ∧
            (((resp.prop "data").prop "download").prop "url").truthy = true)) :=
  ⟨rfl,
    payload_accepted_iff_truthy sampleUrl (num 256) 0 (ytmp3Resolver returnsStatusOne)
      ⟨null, []⟩ ⟨0, []⟩ ⟨1, [Event.invoke 0 (num 256)]⟩ statusOnePayload rfl⟩

/-! ### The two-provider scenario -/

/-- C11: for the url `https://www.youtube.com/watch?v=abc` with preferred quality 256 and the
provider list `[A, B]`, where `A` throws an error on every invocation and `B` returns a valid
payload at tier 256, the handler invokes `A` exactly twice at tier 256 (with one wait of 400 ms
between), then `B` exactly once at tier 256, and answers with the success response of quality
256; no resolver is invoked at the tiers 320, 128 and 92. -/
theorem scenario_second_provider_wins {σ : Type} (A B : Resolver σ) (env : σ)
    (hA : ∀ u q e0, ∃ e e1, A.call u q e0 = (Outcome.throws e, e1) ∧ e.isNullish = false)
    (hB : ∀ u e0, ∃ r e1, B.call u (num 256) e0 = (Outcome.returns r, e1) ∧
      validPayload r = true) :
    (aDlWith [A, B] sampleBody env).world.trace =
        [Event.invoke 0 (num 256), Event.wait 400, Event.invoke 0 (num 256),
          Event.invoke 1 (num 256)] ∧
      (∃ r, validPayload r = true ∧
        (aDlWith [A, B] sampleBody env).reply =
          Reply.json 200 (successBody r (num 256) B.name)) ∧
      (∀ b, (aDlWith [A, B] sampleBody env).reply = Reply.json 200 b →
        b.prop "status" = bool true ∧ b.prop "quality" = num 256) ∧
      (invocations (aDlWith [A, B] sampleBody env).world.trace).count (0, num 256) = 2 ∧
      (invocations (aDlWith [A, B] sampleBody env).world.trace).count (1, num 256) = 1 ∧
      ∀ j q, q = num 320 ∨ q = num 128 ∨ q = num 92 →
        (j, q) ∉ invocations (aDlWith [A, B] sampleBody env).world.trace := by
  obtain ⟨e, e1, h1, he⟩ := hA sampleUrl (num 256) env
  obtain ⟨e', e2, h2, he'⟩ := hA sampleUrl (num 256) e1
  obtain ⟨r, e3, h3, hv⟩ := hB sampleUrl e2
  have hk : (requestPairs [A, B] sampleBody)[1]? = some ⟨num 256, 1, B⟩ := rfl
  have ha0 : attempt (reqUrl sampleBody) ⟨num 256, 0, A⟩ ⟨env, []⟩ =
      (Outcome.throws e', ⟨e2, [Event.invoke 0 (num 256), Event.wait 400,
        Event.invoke 0 (num 256)]⟩) := by
    rw [attempt_eq]
    show (match A.call sampleUrl (num 256) env with
      | (Outcome.returns v, env1) => _
      | (Outcome.throws _, env1) => _) = _
    rw [h1]
    show (match A.call sampleUrl (num 256) e1 with
      | (Outcome.returns v, env2) => _
      | (Outcome.throws e, env2) => _) = _
    rw [h2]
    rfl
  have hpre : allGoOn (reqUrl sampleBody) ((requestPairs [A, B] sampleBody).take 1)
      ⟨env, []⟩ = true := by
    show allGoOn (reqUrl sampleBody) [⟨num 256, 0, A⟩] ⟨env, []⟩ = true
    simp [allGoOn, goesOn, yieldsValid, throwsNullish, ha0, he']
  have hw : worldAfter (reqUrl sampleBody) ((requestPairs [A, B] sampleBody).take 1)
      ⟨env, []⟩ = ⟨e2, [Event.invoke 0 (num 256), Event.wait 400,
        Event.invoke 0 (num 256)]⟩ := by
    show worldAfter (reqUrl sampleBody) [⟨num 256, 0, A⟩] ⟨env, []⟩ = _
    simp [worldAfter, ha0]
  have ha1 : attempt (reqUrl sampleBody) ⟨num 256, 1, B⟩
      (worldAfter (reqUrl sampleBody) ((requestPairs [A, B] sampleBody).take 1) ⟨env, []⟩) =
      (Outcome.returns r, ⟨e3, [Event.invoke 0 (num 256), Event.wait 400,
        Event.invoke 0 (num 256), Event.invoke 1 (num 256)]⟩) := by
    rw [hw, attempt_eq]
    show (match B.call sampleUrl (num 256) e2 with
      | (Outcome.returns v, env1) => _
      | (Outcome.throws _, env1) => _) = _
    rw [h3]
    rfl
  obtain ⟨hr, hwf, -⟩ := run_first_valid [A, B] sampleBody env 1 ⟨num 256, 1, B⟩ r _ rfl hk
    hpre ha1 hv
  have ht : (aDlWith [A, B] sampleBody env).world.trace =
      [Event.invoke 0 (num 256), Event.wait 400, Event.invoke 0 (num 256),
        Event.invoke 1 (num 256)] := by rw [hwf]
  refine ⟨ht, ⟨r, hv, hr⟩, ?_, ?_, ?_, ?_⟩
  · intro b hb
    rw [hr] at hb
    simp only [Reply.json.injEq, true_and] at hb
    rw [← hb]
    exact ⟨rfl, rfl⟩
  · rw [ht]; decide
  · rw [ht]; decide
  · intro j q hq
    rw [ht]
    rcases hq with rfl | rfl | rfl <;> simp [invocations]

theorem scenario_second_provider_wins_witness :
    (aDlWith [alwaysThrows, succeedsAt256] sampleBody 0).world.trace =
        [Event.invoke 0 (num 256), Event.wait 400, Event.invoke 0 (num 256),
          Event.invoke 1 (num 256)] ∧
      (∃ r, validPayload r = true ∧
        (aDlWith [alwaysThrows, succeedsAt256] sampleBody 0).reply =
          Reply.json 200 (successBody r (num 256) succeedsAt256.name)) ∧
      (∀ b, (aDlWith [alwaysThrows, succeedsAt256] sampleBody 0).reply = Reply.json 200 b →
        b.prop "status" = bool true ∧ b.prop "quality" = num 256) ∧
      (invocations (aDlWith [alwaysThrows, succeedsAt256] sampleBody 0).world.trace).count
        (0, num 256) = 2 ∧
      (invocations (aDlWith [alwaysThrows, succeedsAt256] sampleBody 0).world.trace).count
        (1, num 256) = 1 ∧
      ∀ j q, q = num 320 ∨ q = num 128 ∨ q = num 92 →
        (j, q) ∉ invocations (aDlWith [alwaysThrows, succeedsAt256] sampleBody 0).world.trace :=
  scenario_second_provider_wins alwaysThrows succeedsAt256 0
    (fun _ _ e0 => ⟨newError "boom", e0 + 1, rfl, rfl⟩)
    (fun _ e0 => ⟨samplePayload, e0 + 1, rfl, rfl⟩)

/-! ### The provider field -/

/-- With a provider list whose resolvers carry a non-empty `name`, a payload without a truthy
`provider` field is reported under the name of the resolver that returned it. -/
theorem successBody_provider_named (r q : JsVal) (name : String)
    (hr : (r.prop "provider").truthy = false) (hn : name ≠ "") :
    (successBody r q name).prop "provider" = str name := by
  show ((r.prop "provider").or (str name)).or (str "unknown") = str name
  have h1 : (r.prop "provider").or (str name) = str name := by simp [JsVal.or, hr]
  have h2 : (str name).truthy = true := by simp [truthy, hn]
  rw [h1]
  simp [JsVal.or, h2]

/-- C12, at the failing input: on the server a valid payload without a `provider` field is
reported with provider `'unknown'` whichever resolver returned it.  When `ytmp3` (position 0)
wins and when the resolver of api.vreden.my.id (position 2) wins, the two success responses
are the same and neither names its resolver: the elements of `providerEndpoints` are anonymous
functions, whose `name` is the empty string. -/
theorem provider_field_unknown_on_server :
    (aDl ytmp3Answers sampleBody 0).world.trace = [Event.invoke 0 (num 256)] ∧
      (aDl vredenAnswers sampleBody 0).world.trace =
        [Event.invoke 0 (num 256), Event.invoke 1 (num 256), Event.invoke 2 (num 256)] ∧
      samplePayload.prop "provider" = undefined ∧
      (aDl ytmp3Answers sampleBody 0).reply =
        Reply.json 200
          (obj [("status", bool true),
                ("url", str "https://cdn.example/a.mp3"),
                ("filename", str "a.mp3"),
                ("metadata", obj [("title", str "a")]),
                ("quality", num 256),
                ("provider", str "unknown")]) ∧
      (aDl vredenAnswers sampleBody 0).reply = (aDl ytmp3Answers sampleBody 0).reply := by
  decide

/-! ### Payloads that fail validation, and the absent library -/

theorem worldAfter_append {σ : Type} (url : JsVal) (xs ys : List (Pair σ)) :
    ∀ (w : World σ), worldAfter url (xs ++ ys) w = worldAfter url ys (worldAfter url xs w) := by
  induction xs with
  | nil => intro w; rfl
  | cons x rest ih => intro w; simp only [List.cons_append, worldAfter]; exact ih _

theorem allGoOn_append {σ : Type} (url : JsVal) (xs ys : List (Pair σ)) :
    ∀ (w : World σ), allGoOn url (xs ++ ys) w =
      (allGoOn url xs w && allGoOn url ys (worldAfter url xs w)) := by
  induction xs with
  | nil => intro w; simp [allGoOn, worldAfter]
  | cons x rest ih =>
    intro w
    show (goesOn url x w && allGoOn url (rest ++ ys) (attempt url x w).2) = _
    rw [ih]
    simp only [allGoOn, worldAfter, Bool.and_assoc]

theorem entriesAfter_append {σ : Type} (url : JsVal) (xs ys : List (Pair σ)) :
    ∀ (w : World σ), entriesAfter url (xs ++ ys) w =
      entriesAfter url xs w ++ entriesAfter url ys (worldAfter url xs w) := by
  induction xs with
  | nil => intro w; simp [entriesAfter, worldAfter]
  | cons x rest ih =>
    intro w
    show entryOf url x w ++ entriesAfter url (rest ++ ys) (attempt url x w).2 = _
    rw [ih]
    simp only [entriesAfter, worldAfter, List.append_assoc]

theorem take_succ_of_getElem? {α : Type} (l : List α) (k : Nat) (a : α) (h : l[k]? = some a) :
    l.take (k + 1) = l.take k ++ [a] := by
  rw [List.take_succ, h]
  rfl

/-- C13, as stated, fails: on the server with the library not installed, the resolver of the
first slot returns `null`, which fails validation, without throwing; the loop body goes on
with `errorDetails` still empty, and the 8 entries of the final list all come from the two
direct HTTP resolvers although 16 slots failed. -/
theorem invalid_payload_counterexample :
    (ytmp3Resolver offline).call sampleUrl (num 256) 0 = (Outcome.returns null, 0) ∧
      validPayload null = false ∧
      tryPair sampleUrl (num 256) 0 (ytmp3Resolver offline) ⟨null, []⟩ ⟨0, []⟩ =
        Flow.next ⟨null, []⟩ ⟨0, [Event.invoke 0 (num 256)]⟩ ∧
      (aDl offline sampleBody 0).locals.errorDetails.length = 8 ∧
      (requestPairs (providerEndpoints offline) sampleBody).length = 16 :=
  ⟨rfl, rfl, rfl, by decide, by decide⟩

/-- C13, amended: when the handler reaches a slot whose retry-wrapped call returns, without
throwing, a payload that fails validation, no failure entry is appended for that slot and the
search continues with the next slot: the loop goes on over the slots after it, from the world
of that return, with `errorDetails` holding exactly the entries of the slots before it. -/
theorem invalid_payload_adds_no_entry {σ : Type} (providers : List (Resolver σ))
    (body : JsVal) (env : σ) (k : Nat) (pr : Pair σ) (r : JsVal) (w1 : World σ)
    (hk : (requestPairs providers body)[k]? = some pr)
    (hpre : allGoOn (reqUrl body) ((requestPairs providers body).take k) ⟨env, []⟩ = true)
    (ha : attempt (reqUrl body) pr
      (worldAfter (reqUrl body) ((requestPairs providers body).take k) ⟨env, []⟩) =
        (Outcome.returns r, w1))
    (hv : validPayload r = false) :
    entriesAfter (reqUrl body) ((requestPairs providers body).take (k + 1)) ⟨env, []⟩ =
        entriesAfter (reqUrl body) ((requestPairs providers body).take k) ⟨env, []⟩ ∧
      allGoOn (reqUrl body) ((requestPairs providers body).take (k + 1)) ⟨env, []⟩ = true ∧
      worldAfter (reqUrl body) ((requestPairs providers body).take (k + 1)) ⟨env, []⟩ = w1 ∧
      ∃ le, qualityLoop (reqUrl body) providers (tryQualities (reqQuality body)) ⟨null, []⟩
          ⟨env, []⟩ =
        pairLoop (reqUrl body) ((requestPairs providers body).drop (k + 1))
          ⟨le, entriesAfter (reqUrl body) ((requestPairs providers body).take k) ⟨env, []⟩⟩
          w1 := by
  rw [take_succ_of_getElem? _ k pr hk, entriesAfter_append, allGoOn_append, worldAfter_append]
  refine ⟨?_, ?_, ?_, ?_⟩
  · simp [entriesAfter, entryOf, ha]
  · simp [hpre, allGoOn, goesOn, yieldsValid, throwsNullish, ha, hv]
  · simp [worldAfter, ha]
  · obtain ⟨le, h⟩ := pairLoop_at (reqUrl body) (requestPairs providers body) k pr
      ⟨null, []⟩ ⟨env, []⟩ hk hpre
    refine ⟨le, ?_⟩
    rw [qualityLoop_eq_pairLoop]
    unfold requestPairs at h ⊢
    rw [h]
    simp only [List.nil_append]
    have := tryPair_invalid (reqUrl body) pr
      ⟨le, entriesAfter (reqUrl body)
        ((pairsOf (tryQualities (reqQuality body)) providers).take k) ⟨env, []⟩⟩ _ w1 r ha hv
    unfold requestPairs at this
    rw [this]

theorem invalid_payload_adds_no_entry_witness :
    ((requestPairs (providerEndpoints offline) sampleBody)[0]? =
        some ⟨num 256, 0, ytmp3Resolver offline⟩ ∧
      allGoOn (reqUrl sampleBody)
        ((requestPairs (providerEndpoints offline) sampleBody).take 0) ⟨0, []⟩ = true ∧
      validPayload null = false) ∧
    (entriesAfter (reqUrl sampleBody)
          ((requestPairs (providerEndpoints offline) sampleBody).take (0 + 1)) ⟨0, []⟩ =
        entriesAfter (reqUrl sampleBody)
          ((requestPairs (providerEndpoints offline) sampleBody).take 0) ⟨0, []⟩ ∧
      allGoOn (reqUrl sampleBody)
        ((requestPairs (providerEndpoints offline) sampleBody).take (0 + 1)) ⟨0, []⟩ = true ∧
      worldAfter (reqUrl sampleBody)
        ((requestPairs (providerEndpoints offline) sampleBody).take (0 + 1)) ⟨0, []⟩ =
          ⟨0, [Event.invoke 0 (num 256)]⟩ ∧
      ∃ le, qualityLoop (reqUrl sampleBody) (providerEndpoints offline)
          (tryQualities (reqQuality sampleBody)) ⟨null, []⟩ ⟨0, []⟩ =
        pairLoop (reqUrl sampleBody)
          ((requestPairs (providerEndpoints offline) sampleBody).drop (0 + 1))
          ⟨le, entriesAfter (reqUrl sampleBody)
            ((requestPairs (providerEndpoints offline) sampleBody).take 0) ⟨0, []⟩⟩
          ⟨0, [Event.invoke 0 (num 256)]⟩) :=
  ⟨⟨rfl, rfl, rfl⟩,
    invalid_payload_adds_no_entry (providerEndpoints offline) sampleBody 0 0
      ⟨num 256, 0, ytmp3Resolver offline⟩ null ⟨0, [Event.invoke 0 (num 256)]⟩ rfl rfl rfl rfl⟩

/-- C14, as stated, fails: with the library not installed and every HTTP call failing, the two
library-backed resolvers (positions 0 and 1) are invoked once at tier 256, yet on total failure
the `details` list holds only entries of the two direct HTTP resolvers: the slots of the
library-backed resolvers leave no diagnostic, with an 'unavailable' reason or any other. -/
theorem absent_library_counterexample :
    offline.ytmp3.isNone = true ∧ offline.apimp3.isNone = true ∧
      (invocations (aDl offline sampleBody 0).world.trace).count (0, num 256) = 1 ∧
      (invocations (aDl offline sampleBody 0).world.trace).count (1, num 256) = 1 ∧
      (aDl offline sampleBody 0).reply =
        Reply.json 500 (exhaustionBody (aDl offline sampleBody 0).locals) ∧
      (aDl offline sampleBody 0).locals.errorDetails.map (fun x => x.prop "provider") =
        [str "api.vreden.my.id", str "cdn403.savetube.vip",
         str "api.vreden.my.id", str "cdn403.savetube.vip",
         str "api.vreden.my.id", str "cdn403.savetube.vip",
         str "api.vreden.my.id", str "cdn403.savetube.vip"] := by
  decide

/-- C14, amended: when the optional scraping library is absent (`yscraper` is `null`, or lacks
`ytmp3`, respectively `apimp3`), each of the two library-backed resolvers returns `null` at
once without throwing: at every tier and in every state of the handler, the pass through the
loop body for its slot invokes it exactly once, makes no wait, appends no failure diagnostic
and goes on to the next slot, so on total failure those slots do not appear in `details`. -/
theorem absent_library_returns_null {σ : Type} (s : Services σ) (url q : JsVal) (j : Nat)
    (loc : Locals) (w : World σ) (h0 : s.ytmp3 = none) (h1 : s.apimp3 = none) :
    (ytmp3Resolver s).call url q w.env = (Outcome.returns null, w.env) ∧
      (apimp3Resolver s).call url q w.env = (Outcome.returns null, w.env) ∧
      tryPair url q j (ytmp3Resolver s) loc w =
        Flow.next loc ⟨w.env, w.trace ++ [Event.invoke j q]⟩ ∧
      tryPair url q j (apimp3Resolver s) loc w =
        Flow.next loc ⟨w.env, w.trace ++ [Event.invoke j q]⟩ := by
  have c0 : (ytmp3Resolver s).call url q w.env = (Outcome.returns null, w.env) := by
    simp [ytmp3Resolver, h0]
  have c1 : (apimp3Resolver s).call url q w.env = (Outcome.returns null, w.env) := by
    simp [apimp3Resolver, h1]
  have hv : validPayload null = false := rfl
  refine ⟨c0, c1, ?_, ?_⟩
  · have ha : attempt url ⟨q, j, ytmp3Resolver s⟩ w =
        (Outcome.returns null, ⟨w.env, w.trace ++ [Event.invoke j q]⟩) := by
      rw [attempt_eq]
      simp only [c0]
    exact tryPair_invalid url ⟨q, j, ytmp3Resolver s⟩ loc w _ null ha hv
  · have ha : attempt url ⟨q, j, apimp3Resolver s⟩ w =
        (Outcome.returns null, ⟨w.env, w.trace ++ [Event.invoke j q]⟩) := by
      rw [attempt_eq]
      simp only [c1]
    exact tryPair_invalid url ⟨q, j, apimp3Resolver s⟩ loc w _ null ha hv

theorem absent_library_returns_null_witness :
    (offline.ytmp3 = none ∧ offline.apimp3 = none) ∧
    ((ytmp3Resolver offline).call sampleUrl (num 320) 5 = (Outcome.returns null, 5) ∧
      (apimp3Resolver offline).call sampleUrl (num 320) 5 = (Outcome.returns null, 5) ∧
      tryPair sampleUrl (num 320) 0 (ytmp3Resolver offline) ⟨null, []⟩ ⟨5, []⟩ =
        Flow.next ⟨null, []⟩ ⟨5, [] ++ [Event.invoke 0 (num 320)]⟩ ∧
      tryPair sampleUrl (num 320) 0 (apimp3Resolver offline) ⟨null, []⟩ ⟨5, []⟩ =
        Flow.next ⟨null, []⟩ ⟨5, [] ++ [Event.invoke 0 (num 320)]⟩) :=
  ⟨⟨rfl, rfl⟩,
    absent_library_returns_null offline sampleUrl (num 320) 0 ⟨null, []⟩ ⟨5, []⟩ rfl rfl⟩

/-! ### Errors that the `catch` block cannot read -/

/-- On every run in which no retry-wrapped call throws `null` or `undefined`, the handler
completes with the success response or the HTTP 500 exhaustion response. -/
theorem completes_without_nullish {σ : Type} (providers : List (Resolver σ)) (body : JsVal)
    (env : σ) (hurl : (reqUrl body).truthy = true)
    (hsafe : noneNullish (reqUrl body) (requestPairs providers body) ⟨env, []⟩ = true) :
    (∃ b, (aDlWith providers body env).reply = Reply.json 200 b) ∨
      (∃ b, (aDlWith providers body env).reply = Reply.json 500 b) := by
  rcases run_cases providers body env hurl with
    ⟨-, le, h5⟩ | ⟨k, pr, r, -, -, -, -, h2⟩ | ⟨k, pr, e, hk, -, ha, he, -⟩
  · exact Or.inr ⟨_, h5⟩
  · exact Or.inl ⟨_, h2⟩
  · have := noneNullish_get _ _ _ hsafe k pr hk
    simp [throwsNullish, ha, he] at this

/-- C15, at the failing input: the library is installed, `ytmp3` returns `null` and `apimp3`
rejects with `undefined`.  The url is not empty, yet the handler completes with neither the
success response nor the HTTP 500 exhaustion response: after the two invocations of `apimp3`
at the first tier, reading `err.provider` in the `catch` block raises a TypeError that escapes
the handler, and no diagnostic is recorded. -/
theorem undefined_rejection_escapes_handler :
    (reqUrl sampleBody).truthy = true ∧
      (aDl rejectsWithUndefined sampleBody 0).reply = Reply.typeError ∧
      (aDl rejectsWithUndefined sampleBody 0).locals.errorDetails = [] ∧
      (aDl rejectsWithUndefined sampleBody 0).world.trace =
        [Event.invoke 0 (num 256), Event.invoke 1 (num 256), Event.wait 400,
          Event.invoke 1 (num 256)] := by
  decide

/-! ### The retry wrapper: number of invocations and back-off schedule -/

theorem waits_append (a b : List Event) : waits (a ++ b) = waits a ++ waits b := by
  induction a with
  | nil => rfl
  | cons x xs ih =>
    cases x with
    | invoke j q => simp [waits, ih]
    | wait ms => simp [waits, ih]

/-- C16: the retry-wrapped call of a slot, `withRetries(() => providerFn(url, q), 2, 400)`,
adds to the trace at most 2 invocations, all of the resolver of that slot; when the resolver
throws on every invocation it is invoked exactly 2 times, and when it returns on its first
invocation it is invoked exactly once. -/
theorem retry_invocation_count {σ : Type} (p : Resolver σ) (j : Nat) (url q : JsVal)
    (w : World σ) :
    ∃ evs, (withRetries (callProvider p j url q) 2 400 w).2.trace = w.trace ++ evs ∧
      (invocations evs).length ≤ 2 ∧
      (∀ x ∈ invocations evs, x = (j, q)) ∧
      ((∀ env, ∃ e env1, p.call url q env = (Outcome.throws e, env1)) →
        invocations evs = [(j, q), (j, q)]) ∧
      ((∃ v env1, p.call url q w.env = (Outcome.returns v, env1)) →
        invocations evs = [(j, q)]) := by
  have hat := attempt_eq url ⟨q, j, p⟩ w
  unfold attempt at hat
  simp only at hat
  rw [hat]
  cases h1 : p.call url q w.env with
  | mk o1 env1 =>
    cases o1 with
    | returns v =>
      refine ⟨[Event.invoke j q], rfl, by simp [invocations], by simp [invocations], ?_, ?_⟩
      · intro hall
        obtain ⟨e, e1, he⟩ := hall w.env
        rw [h1] at he
        simp at he
      · intro _; rfl
    | throws e1 =>
      have key : ∃ o2 env2, p.call url q env1 = (o2, env2) := ⟨_, _, rfl⟩
      obtain ⟨o2, env2, h2⟩ := key
      refine ⟨[Event.invoke j q, Event.wait 400, Event.invoke j q], ?_,
        by simp [invocations], by simp [invocations], fun _ => rfl, ?_⟩
      · simp only [h2]
        cases o2 <;> rfl
      · rintro ⟨v, e0, hv⟩
        simp at hv

theorem retry_invocation_count_witness :
    ∃ evs, (withRetries (callProvider alwaysThrows 0 sampleUrl (num 256)) 2 400 ⟨0, []⟩).2.trace =
        [] ++ evs ∧
      (invocations evs).length ≤ 2 ∧
      (∀ x ∈ invocations evs, x = (0, num 256)) ∧
      ((∀ env, ∃ e env1, alwaysThrows.call sampleUrl (num 256) env = (Outcome.throws e, env1)) →
        invocations evs = [(0, num 256), (0, num 256)]) ∧
      ((∃ v env1, alwaysThrows.call sampleUrl (num 256) 0 = (Outcome.returns v, env1)) →
        invocations evs = [(0, num 256)]) :=
  retry_invocation_count alwaysThrows 0 sampleUrl (num 256) ⟨0, []⟩

theorem retryLoop_trace {σ : Type} (p : Resolver σ) (j : Nat) (url q : JsVal)
    (attempts baseDelay : Nat) :
    ∀ (n i : Nat) (le : JsVal) (w : World σ), i + (n + 1) = attempts →
      ∃ c, 1 ≤ c ∧ c ≤ n + 1 ∧
        (retryLoop (callProvider p j url q) attempts baseDelay (n + 1) i le w).2.trace =
          w.trace ++ retryTrace j q baseDelay c i ∧
        ((∃ e, (retryLoop (callProvider p j url q) attempts baseDelay (n + 1) i le w).1 =
          Outcome.throws e) → c = n + 1) := by
  intro n
  induction n with
  | zero =>
    intro i le w hi
    refine ⟨1, le_refl _, le_refl _, ?_, fun _ => rfl⟩
    have hlt : ¬ i < attempts - 1 := by omega
    simp only [retryLoop, callProvider]
    cases h1 : p.call url q w.env with
    | mk o1 env1 =>
      cases o1 with
      | returns v => rfl
      | throws e1 => simp [hlt, retryTrace]
  | succ n ih =>
    intro i le w hi
    have hlt : i < attempts - 1 := by omega
    cases h1 : p.call url q w.env with
    | mk o1 env1 =>
      cases o1 with
      | returns v =>
        refine ⟨1, le_refl _, by omega, ?_, ?_⟩
        · simp [retryLoop, callProvider, h1, retryTrace]
        · rintro ⟨e, he⟩
          simp [retryLoop, callProvider, h1] at he
      | throws e1 =>
        obtain ⟨c, hc1, hc2, htr, hthrow⟩ := ih (i + 1) e1
          (wait (baseDelay * 2 ^ i) ⟨env1, w.trace ++ [Event.invoke j q]⟩) (by omega)
        have hstep : retryLoop (callProvider p j url q) attempts baseDelay (n + 1 + 1) i le w =
            retryLoop (callProvider p j url q) attempts baseDelay (n + 1) (i + 1) e1
              (wait (baseDelay * 2 ^ i) ⟨env1, w.trace ++ [Event.invoke j q]⟩) := by
          rw [retryLoop]
          simp only [callProvider, h1, hlt, if_true]
        refine ⟨c + 1, by omega, by omega, ?_, ?_⟩
        · rw [hstep, htr]
          obtain ⟨c', rfl⟩ : ∃ c', c = c' + 1 := ⟨c - 1, by omega⟩
          simp [wait, retryTrace]
        · intro hex
          rw [hstep] at hex
          rw [hthrow hex]

theorem waits_retryTrace (j : Nat) (q : JsVal) (baseDelay : Nat) :
    ∀ (c i : Nat), waits (retryTrace j q baseDelay (c + 1) i) =
      (List.range c).map (fun t => baseDelay * 2 ^ (i + t)) := by
  intro c
  induction c with
  | zero => intro i; rfl
  | succ c ih =>
    intro i
    rw [retryTrace]
    simp only [waits, ih, List.range_succ_eq_map, List.map_cons, List.map_map, Nat.add_zero]
    congr 1
    apply List.map_congr_left
    intro t _
    simp only [Function.comp]
    congr 2
    omega

theorem sum_waits_retryTrace (j : Nat) (q : JsVal) (baseDelay : Nat) :
    ∀ (c i : Nat), (waits (retryTrace j q baseDelay (c + 1) i)).sum =
      baseDelay * 2 ^ i * (2 ^ c - 1) := by
  intro c
  induction c with
  | zero => intro i; simp [retryTrace, waits]
  | succ c ih =>
    intro i
    rw [retryTrace]
    simp only [waits, List.sum_cons, ih]
    have h2 : 1 ≤ 2 ^ c := Nat.one_le_two_pow
    obtain ⟨m, hm⟩ : ∃ m, 2 ^ c = m + 1 := ⟨2 ^ c - 1, by omega⟩
    rw [pow_succ, pow_succ, hm]
    simp only [Nat.add_sub_cancel]
    have : (m + 1) * 2 - 1 = 2 * m + 1 := by omega
    rw [this]
    ring

/-- C17: for `attempts ≥ 1`, the call `withRetries(fn, attempts, baseDelay)` of a resolver
thunk makes some number `c` of invocations, `1 ≤ c ≤ attempts`, and its trace is those `c`
invocations with a wait of exactly `baseDelay * 2^i` after the invocation of index `i` for
every `i < c - 1` and no wait after the last one; when the call throws, all `attempts`
invocations were made and failed, there is no wait after the final one, and the waits add up
to `baseDelay * (2^(attempts-1) - 1)`; with the parameters `(2, 400)` of the handler that is
exactly one wait of 400 ms. -/
theorem backoff_schedule {σ : Type} (p : Resolver σ) (j : Nat) (url q : JsVal)
    (attempts baseDelay : Nat) (w : World σ) (h1 : 1 ≤ attempts) :
    ∃ c, 1 ≤ c ∧ c ≤ attempts ∧
      (withRetries (callProvider p j url q) attempts baseDelay w).2.trace =
        w.trace ++ retryTrace j q baseDelay c 0 ∧
      waits (retryTrace j q baseDelay c 0) =
        (List.range (c - 1)).map (fun i => baseDelay * 2 ^ i) ∧
      ((∃ e, (withRetries (callProvider p j url q) attempts baseDelay w).1 =
          Outcome.throws e) →
        c = attempts ∧
        (waits (retryTrace j q baseDelay c 0)).sum = baseDelay * (2 ^ (attempts - 1) - 1) ∧
        (attempts = 2 → baseDelay = 400 → waits (retryTrace j q baseDelay c 0) = [400])) := by
  obtain ⟨n, rfl⟩ : ∃ n, attempts = n + 1 := ⟨attempts - 1, by omega⟩
  obtain ⟨c, hc1, hc2, htr, hthrow⟩ :=
    retryLoop_trace p j url q (n + 1) baseDelay n 0 null w (by omega)
  obtain ⟨c', rfl⟩ : ∃ c', c = c' + 1 := ⟨c - 1, by omega⟩
  refine ⟨c' + 1, hc1, hc2, htr, ?_, ?_⟩
  · rw [waits_retryTrace]
    simp
  · intro hex
    have hc : c' + 1 = n + 1 := hthrow hex
    have hcn : c' = n := by omega
    subst hcn
    refine ⟨rfl, ?_, ?_⟩
    · rw [sum_waits_retryTrace]
      simp
    · intro h2 h400
      have hn : c' = 1 := by omega
      subst hn
      subst h400
      rfl

theorem backoff_schedule_witness :
    1 ≤ 3 ∧
    ∃ c, 1 ≤ c ∧ c ≤ 3 ∧
      (withRetries (callProvider alwaysThrows 0 sampleUrl (num 256)) 3 300 ⟨0, []⟩).2.trace =
        [] ++ retryTrace 0 (num 256) 300 c 0 ∧
      waits (retryTrace 0 (num 256) 300 c 0) =
        (List.range (c - 1)).map (fun i => 300 * 2 ^ i) ∧
      ((∃ e, (withRetries (callProvider alwaysThrows 0 sampleUrl (num 256)) 3 300 ⟨0, []⟩).1 =
          Outcome.throws e) →
        c = 3 ∧
        (waits (retryTrace 0 (num 256) 300 c 0)).sum = 300 * (2 ^ (3 - 1) - 1) ∧
        (3 = 2 → 300 = 400 → waits (retryTrace 0 (num 256) 300 c 0) = [400])) :=
  ⟨by decide, backoff_schedule alwaysThrows 0 sampleUrl (num 256) 3 300 ⟨0, []⟩ (by decide)⟩

/-! ### The success response carries no diagnostics -/

theorem success_reply_shape {σ : Type} (providers : List (Resolver σ)) (body : JsVal)
    (env : σ) (b : JsVal) (h : (aDlWith providers body env).reply = Reply.json 200 b) :
    ∃ r q name, b = successBody r q name := by
  have hurl : (reqUrl body).truthy = true :=
    truthy_of_not_rejected providers body env (by rw [h]; simp)
  rcases run_cases providers body env hurl with
    ⟨-, le, h5⟩ | ⟨k, pr, r, -, -, -, -, h2⟩ | ⟨k, pr, e, -, -, -, -, ht⟩
  · rw [h] at h5; simp at h5
  · rw [h] at h2
    exact ⟨r, pr.q, pr.resolver.name, by simpa using h2⟩
  · rw [h] at ht; simp at ht

/-- C18: on every run that ends with the success response, however many failure diagnostics
`errorDetails` holds at that moment, the object passed to `res.json` has exactly the fields
`status`, `url`, `filename`, `metadata`, `quality` and `provider`, in that order, and no
`details` field. -/
theorem success_body_has_no_details {σ : Type} (providers : List (Resolver σ)) (body : JsVal)
    (env : σ) (b : JsVal) (h : (aDlWith providers body env).reply = Reply.json 200 b) :
    keysOf b = ["status", "url", "filename", "metadata", "quality", "provider"] ∧
      "details" ∉ keysOf b ∧ b.prop "details" = undefined := by
  obtain ⟨r, q, name, rfl⟩ := success_reply_shape providers body env b h
  refine ⟨rfl, ?_, rfl⟩
  show "details" ∉ ["status", "url", "filename", "metadata", "quality", "provider"]
  decide

theorem success_body_has_no_details_witness :
    ((aDlWith [alwaysThrows, succeedsAt256] sampleBody 0).reply =
        Reply.json 200 (successBody samplePayload (num 256) "B") ∧
      (aDlWith [alwaysThrows, succeedsAt256] sampleBody 0).locals.errorDetails.length = 1) ∧
    (keysOf (successBody samplePayload (num 256) "B") =
        ["status", "url", "filename", "metadata", "quality", "provider"] ∧
      "details" ∉ keysOf (successBody samplePayload (num 256) "B") ∧
      (successBody samplePayload (num 256) "B").prop "details" = undefined) :=
  ⟨⟨by decide, by decide⟩,
    success_body_has_no_details [alwaysThrows, succeedsAt256] sampleBody 0
      (successBody samplePayload (num 256) "B") (by decide)⟩

/-! ### The fields of a failure entry -/

theorem lookup_setField (fs : List (String × JsVal)) (key : String) (v : JsVal) :
    lookup (setField fs key v) key = v := by
  induction fs with
  | nil => simp [setField, lookup]
  | cons kv rest ih =>
    obtain ⟨k, x⟩ := kv
    by_cases hk : k = key
    · simp [setField, lookup, hk]
    · simp [setField, lookup, hk, ih]

theorem assignProvider_tagged (e : JsVal) (name : String) (he : e.isNullish = false) :
    (assignProvider e name).prop "provider" = str name ∧
      (assignProvider e name).isNullish = false := by
  cases e with
  | undefined => simp [isNullish] at he
  | null => simp [isNullish] at he
  | obj fs => exact ⟨lookup_setField fs "provider" (str name), rfl⟩
  | bool b => exact ⟨rfl, rfl⟩
  | num n => exact ⟨rfl, rfl⟩
  | str t => exact ⟨rfl, rfl⟩
  | arr xs => exact ⟨rfl, rfl⟩

theorem httpResolve_throws_tagged {σ : Type} (name : String) (x0 : Outcome × σ) (x : JsVal)
    (env1 : σ)
    (hx0 : ∀ e env0, x0 = (Outcome.throws e, env0) → e.isNullish = false)
    (h : httpResolve name x0 = (Outcome.throws x, env1)) :
    x.prop "provider" = str name ∧ x.isNullish = false := by
  obtain ⟨o, env0⟩ := x0
  cases o with
  | throws e =>
    simp only [httpResolve, Prod.mk.injEq, Outcome.throws.injEq] at h
    rw [← h.1]
    exact assignProvider_tagged e name (hx0 e env0 rfl)
  | returns resp =>
    simp only [httpResolve] at h
    split at h
    · simp only [Prod.mk.injEq, Outcome.throws.injEq] at h
      rw [← h.1]
      exact assignProvider_tagged _ name rfl
    · split at h
      · simp at h
      · simp only [Prod.mk.injEq, Outcome.throws.injEq] at h
        rw [← h.1]
        exact assignProvider_tagged _ name rfl

theorem failureEntry_tagged (x : JsVal) (fname name : String) (hname : name ≠ "")
    (hp : x.prop "provider" = str name) (hx : x.isNullish = false) :
    ∃ entry, failureEntry x fname = some entry ∧ entry.prop "provider" = str name := by
  have ht : (str name).truthy = true := by simp [truthy, hname]
  refine ⟨_, by simp only [failureEntry, hx]; rfl, ?_⟩
  show ((x.prop "provider").or (str fname)).or (str "unknown") = str name
  rw [hp]
  simp [JsVal.or, ht]

/-- C19: each failure entry recorded for an error `e` thrown by the retry-wrapped call of a
resolver is `{provider, status, data}` with `provider` equal to `e.provider` when that is set
(truthy), else to the `name` of the resolver function when that is not empty, else to
`'unknown'`; `status` equal to `e.response.status` when the error carries a response, else
`undefined`; `data` equal to `e.response.data` when that is present and truthy, else
`e.message`.  With an HTTP client that rejects with error objects (never with `null` or
`undefined`), every error thrown by the two direct HTTP resolvers carries the provider tag
`'api.vreden.my.id'`, respectively `'cdn403.savetube.vip'`, and so does its entry. -/
theorem failure_entry_fields {σ : Type} (s : Services σ)
    (hget : ∀ u c env e env1, s.axiosGet u c env = (Outcome.throws e, env1) →
      e.isNullish = false)
    (hpost : ∀ u d c env e env1, s.axiosPost u d c env = (Outcome.throws e, env1) →
      e.isNullish = false) :
    (∀ e name entry, failureEntry e name = some entry →
      entry = obj
        [("provider",
            if (e.prop "provider").truthy = true then e.prop "provider"
            else if name ≠ "" then str name else str "unknown"),
         ("status",
            if (e.prop "response").isNullish = true then undefined
            else (e.prop "response").prop "status"),
         ("data",
            if (e.prop "response").isNullish = false ∧
                ((e.prop "response").prop "data").truthy = true
            then (e.prop "response").prop "data" else e.prop "message")]) ∧
      (∀ url q env x env1, (vredenResolver s).call url q env = (Outcome.throws x, env1) →
        x.prop "provider" = str "api.vreden.my.id" ∧
          ∃ entry, failureEntry x (vredenResolver s).name = some entry ∧
            entry.prop "provider" = str "api.vreden.my.id") ∧
      (∀ url q env x env1, (savetubeResolver s).call url q env = (Outcome.throws x, env1) →
        x.prop "provider" = str "cdn403.savetube.vip" ∧
          ∃ entry, failureEntry x (savetubeResolver s).name = some entry ∧
            entry.prop "provider" = str "cdn403.savetube.vip") := by
  refine ⟨?_, ?_, ?_⟩
  · intro e name entry h
    unfold failureEntry at h
    split at h
    · simp at h
    · simp only [Option.some.injEq] at h
      rw [← h]
      have e1 : ((e.prop "provider").or (str name)).or (str "unknown") =
          (if (e.prop "provider").truthy = true then e.prop "provider"
            else if name ≠ "" then str name else str "unknown") := by
        by_cases hp : (e.prop "provider").truthy = true
        · simp [JsVal.or, hp]
        · by_cases hn : name = ""
          · subst hn
            have h0 : (str "").truthy = false := rfl
            simp [JsVal.or, hp, h0]
          · have h1 : (str name).truthy = true := by simp [truthy, hn]
            simp [JsVal.or, hp, h1, hn]
      have e2 : (e.prop "response").optProp "status" =
          (if (e.prop "response").isNullish = true then undefined
            else (e.prop "response").prop "status") := rfl
      have e3 : ((e.prop "response").optProp "data").or (e.prop "message") =
          (if (e.prop "response").isNullish = false ∧
              ((e.prop "response").prop "data").truthy = true
            then (e.prop "response").prop "data" else e.prop "message") := by
        by_cases hr : (e.prop "response").isNullish = true
        · have h0 : undefined.truthy = false := rfl
          simp [optProp, hr, JsVal.or, h0]
        · by_cases hd : ((e.prop "response").prop "data").truthy = true
          · simp [optProp, hr, JsVal.or, hd]
          · simp [optProp, hr, JsVal.or, hd]
      rw [e1, e2, e3]
  · intro url q env x env1 h
    obtain ⟨hp, hx⟩ := httpResolve_throws_tagged "api.vreden.my.id" _ x env1
      (fun e env0 he => hget _ _ _ e env0 he) h
    exact ⟨hp, failureEntry_tagged x _ "api.vreden.my.id" (by decide) hp hx⟩
  · intro url q env x env1 h
    obtain ⟨hp, hx⟩ := httpResolve_throws_tagged "cdn403.savetube.vip" _ x env1
      (fun e env0 he => hpost _ _ _ _ e env0 he) h
    exact ⟨hp, failureEntry_tagged x _ "cdn403.savetube.vip" (by decide) hp hx⟩

theorem failure_entry_fields_witness :
    ((∀ u c env e env1, offline.axiosGet u c env = (Outcome.throws e, env1) →
        e.isNullish = false) ∧
      (∀ u d c env e env1, offline.axiosPost u d c env = (Outcome.throws e, env1) →
        e.isNullish = false)) ∧
    ((∀ e name entry, failureEntry e name = some entry →
      entry = obj
        [("provider",
            if (e.prop "provider").truthy = true then e.prop "provider"
            else if name ≠ "" then str name else str "unknown"),
         ("status",
            if (e.prop "response").isNullish = true then undefined
            else (e.prop "response").prop "status"),
         ("data",
            if (e.prop "response").isNullish = false ∧
                ((e.prop "response").prop "data").truthy = true
            then (e.prop "response").prop "data" else e.prop "message")]) ∧
      (∀ url q env x env1, (vredenResolver offline).call url q env = (Outcome.throws x, env1) →
        x.prop "provider" = str "api.vreden.my.id" ∧
          ∃ entry, failureEntry x (vredenResolver offline).name = some entry ∧
            entry.prop "provider" = str "api.vreden.my.id") ∧
      (∀ url q env x env1, (savetubeResolver offline).call url q env = (Outcome.throws x, env1) →
        x.prop "provider" = str "cdn403.savetube.vip" ∧
          ∃ entry, failureEntry x (savetubeResolver offline).name = some entry ∧
            entry.prop "provider" = str "cdn403.savetube.vip")) :=
  ⟨⟨fun _ _ _ e _ h => by
      simp only [offline, Prod.mk.injEq, Outcome.throws.injEq] at h
      rw [← h.1]; rfl,
    fun _ _ _ _ e _ h => by
      simp only [offline, Prod.mk.injEq, Outcome.throws.injEq] at h
      rw [← h.1]; rfl⟩,
    failure_entry_fields offline
      (fun _ _ _ e _ h => by
        simp only [offline, Prod.mk.injEq, Outcome.throws.injEq] at h
        rw [← h.1]; rfl)
      (fun _ _ _ _ e _ h => by
        simp only [offline, Prod.mk.injEq, Outcome.throws.injEq] at h
        rw [← h.1]; rfl)⟩

/-! ### Retries are bounded and local -/

theorem worldAfter_take_succ {σ : Type} (url : JsVal) (prs : List (Pair σ)) (k : Nat)
    (pr : Pair σ) (w : World σ) (hk : prs[k]? = some pr) :
    worldAfter url (prs.take (k + 1)) w = (attempt url pr (worldAfter url (prs.take k) w)).2 := by
  rw [take_succ_of_getElem? _ k pr hk, worldAfter_append]
  rfl

theorem lt_length_of_getElem? {α : Type} (l : List α) (k : Nat) (a : α) (h : l[k]? = some a) :
    k < l.length := by
  by_contra hcon
  rw [List.getElem?_eq_none (by omega)] at h
  exact Option.noConfusion h

/-- The request ends after the retry-wrapped calls of the first `m` slots, each made once. -/
theorem run_world {σ : Type} (providers : List (Resolver σ)) (body : JsVal) (env : σ) :
    ∃ m, m ≤ (requestPairs providers body).length ∧
      (aDlWith providers body env).world =
        worldAfter (reqUrl body) ((requestPairs providers body).take m) ⟨env, []⟩ := by
  cases hu : (reqUrl body).truthy with
  | false => exact ⟨0, Nat.zero_le _, by simp [aDlWith, hu, worldAfter]⟩
  | true =>
    rcases run_cases providers body env hu with
      ⟨hall, -⟩ | ⟨k, pr, r, hk, -, ha, -, -⟩ | ⟨k, pr, e, hk, -, ha, -, -⟩
    · obtain ⟨le, h, -⟩ := run_exhausted providers body env hu hall
      exact ⟨_, le_refl _, by rw [h, List.take_length]⟩
    · refine ⟨k + 1, lt_length_of_getElem? _ k pr hk, ?_⟩
      rw [worldAfter_take_succ _ _ k pr _ hk, ha]
    · refine ⟨k + 1, lt_length_of_getElem? _ k pr hk, ?_⟩
      rw [worldAfter_take_succ _ _ k pr _ hk, ha]

/-- The retry-wrapped calls of distinct slots invoke each slot at most twice. -/
theorem invocations_worldAfter {σ : Type} (url : JsVal) (prs : List (Pair σ)) :
    ∀ (w : World σ), ∃ evs, (worldAfter url prs w).trace = w.trace ++ evs ∧
      (invocations evs).length ≤ 2 * prs.length ∧
      (∀ x ∈ invocations evs, ∃ pr ∈ prs, x = pr.key) ∧
      ((prs.map Pair.key).Nodup → ∀ key, (invocations evs).count key ≤ 2) := by
  induction prs with
  | nil =>
    intro w
    exact ⟨[], by simp [worldAfter], by simp [invocations], by simp [invocations],
      by simp [invocations]⟩
  | cons x rest ih =>
    intro w
    obtain ⟨e1, h1, hx⟩ := trace_attempt url x w
    obtain ⟨e2, h2, hlen, hout, hcount⟩ := ih (attempt url x w).2
    have hlen1 : (invocations e1).length ≤ 2 := by
      rcases hx with hx | hx <;> simp [hx]
    have hmem1 : ∀ y ∈ invocations e1, y = x.key := by
      intro y hy
      rcases hx with hx | hx <;> rw [hx] at hy <;> simpa using hy
    refine ⟨e1 ++ e2, ?_, ?_, ?_, ?_⟩
    · simp only [worldAfter, h2, h1, List.append_assoc]
    · rw [invocations_append, List.length_append, List.length_cons]
      omega
    · intro y hy
      rw [invocations_append] at hy
      rcases List.mem_append.1 hy with hy | hy
      · exact ⟨x, List.mem_cons_self _ _, hmem1 y hy⟩
      · obtain ⟨pr, hpr, rfl⟩ := hout y hy
        exact ⟨pr, List.mem_cons_of_mem _ hpr, rfl⟩
    · intro hnd key
      rw [List.map_cons, List.nodup_cons] at hnd
      rw [invocations_append, List.count_append]
      by_cases hkey : key = x.key
      · have h0 : (invocations e2).count key = 0 := by
          apply List.count_eq_zero_of_not_mem
          intro hm
          obtain ⟨pr, hpr, hk⟩ := hout key hm
          apply hnd.1
          rw [← hkey, hk]
          exact List.mem_map_of_mem _ hpr
        rw [h0]
        exact le_trans (List.count_le_length _ _) hlen1
      · have h0 : (invocations e1).count key = 0 := by
          apply List.count_eq_zero_of_not_mem
          intro hm
          exact hkey (hmem1 key hm)
        rw [h0, Nat.zero_add]
        exact hcount hnd.2 key

theorem tryQualities_length_le (quality : JsVal) : (tryQualities quality).length ≤ 5 := by
  unfold tryQualities
  split
  · have := List.length_filter_le (fun q => !(q.strictEq quality)) qualities
    have h4 : qualities.length = 4 := rfl
    simp only [List.length_cons]
    omega
  · decide

theorem invocations_bound {σ : Type} (providers : List (Resolver σ)) (body : JsVal) (env : σ) :
    (invocations (aDlWith providers body env).world.trace).length ≤
        2 * (tryQualities (reqQuality body)).length * providers.length ∧
      ∀ key, (invocations (aDlWith providers body env).world.trace).count key ≤ 2 := by
  obtain ⟨m, hm, hw⟩ := run_world providers body env
  obtain ⟨evs, htr, hlen, -, hcount⟩ := invocations_worldAfter (reqUrl body)
    ((requestPairs providers body).take m) ⟨env, []⟩
  have hnd : (((requestPairs providers body).take m).map Pair.key).Nodup := by
    rw [List.map_take]
    exact (requestPairs_keys_nodup providers body).sublist (List.take_sublist _ _)
  rw [hw, htr]
  simp only [List.nil_append]
  refine ⟨?_, hcount hnd⟩
  have hl : (requestPairs providers body).length =
      (tryQualities (reqQuality body)).length * providers.length := pairsOf_length _ _
  have htake : ((requestPairs providers body).take m).length ≤
      (tryQualities (reqQuality body)).length * providers.length := by
    rw [List.length_take]
    omega
  calc (invocations evs).length ≤ 2 * ((requestPairs providers body).take m).length := hlen
    _ ≤ 2 * ((tryQualities (reqQuality body)).length * providers.length) :=
        Nat.mul_le_mul_left 2 htake
    _ = 2 * (tryQualities (reqQuality body)).length * providers.length := by ring

/-- C20: retries are bounded and local.  In one `/a-dl` request the retry-wrapped calls made
are those of the first `m` slots of the matrix, one call per slot and no slot twice (the slots
are pairwise distinct); every slot is invoked at most 2 times, so the total number of resolver
invocations is at most 2 × (number of tiers in the search order) × (number of resolvers); the
search order has at most 5 tiers, hence at most 2 × 5 × 4 = 40 invocations with the four
resolvers of the server.  The handler is a total function of the outcomes of the resolver
invocations: it ends whenever each of them ends. -/
theorem retries_bounded_and_local {σ : Type} (providers : List (Resolver σ)) (body : JsVal)
    (env : σ) (s : Services σ) :
    (∃ m, m ≤ (requestPairs providers body).length ∧
      (aDlWith providers body env).world =
        worldAfter (reqUrl body) ((requestPairs providers body).take m) ⟨env, []⟩) ∧
      ((requestPairs providers body).map Pair.key).Nodup ∧
      (∀ key, (invocations (aDlWith providers body env).world.trace).count key ≤ 2) ∧
      (invocations (aDlWith providers body env).world.trace).length ≤
        2 * (tryQualities (reqQuality body)).length * providers.length ∧
      (tryQualities (reqQuality body)).length ≤ 5 ∧
      (invocations (aDl s body env).world.trace).length ≤ 40 := by
  refine ⟨run_world providers body env, requestPairs_keys_nodup providers body,
    (invocations_bound providers body env).2, (invocations_bound providers body env).1,
    tryQualities_length_le _, ?_⟩
  have h := (invocations_bound (providerEndpoints s) body env).1
  have h5 := tryQualities_length_le (reqQuality body)
  have h4 : (providerEndpoints s).length = 4 := rfl
  rw [h4] at h
  unfold aDl
  omega

/-! ### The requests of the two direct HTTP resolvers -/

/-- C21, as stated, fails: the resolver of cdn403.savetube.vip does not pass the quality tier.
Invoked for tier 128 it issues one POST whose data is `{url}` alone, with no `quality`
property in the data or in the config, and it issues the very same request for tier 320. -/
theorem savetube_request_counterexample :
    ((savetubeResolver logged).call sampleUrl (num 128) []).2 =
        [obj [("method", str "POST"), ("url", str "https://cdn403.savetube.vip/v2/info"),
              ("data", obj [("url", sampleUrl)]),
              ("config", obj [("timeout", num 8000)])]] ∧
      (obj [("url", sampleUrl)]).prop "quality" = undefined ∧
      (obj [("timeout", num 8000)]).prop "params" = undefined ∧
      (savetubeResolver logged).call sampleUrl (num 320) [] =
        (savetubeResolver logged).call sampleUrl (num 128) [] := by
  decide

/-- C21, amended: each of the two direct HTTP resolvers issues exactly one request per
invocation, with a timeout of 8000 ms.  The resolver of api.vreden.my.id issues a GET with the
parameters `{url, quality}`, the quality being the tier tried; the resolver of
cdn403.savetube.vip issues a POST whose body is `{url}` alone, the same for every tier. -/
theorem http_resolver_requests (url q : JsVal) (log : List JsVal) :
    ((vredenResolver logged).call url q log).2 =
        log ++ [obj [("method", str "GET"),
                     ("url", str "https://api.vreden.my.id/api/v1/download/youtube/audio"),
                     ("config", obj [("params", obj [("url", url), ("quality", q)]),
                                     ("timeout", num 8000)])]] ∧
      ((savetubeResolver logged).call url q log).2 =
        log ++ [obj [("method", str "POST"),
                     ("url", str "https://cdn403.savetube.vip/v2/info"),
                     ("data", obj [("url", url)]),
                     ("config", obj [("timeout", num 8000)])]] ∧
      ∀ q2, (savetubeResolver logged).call url q2 log = (savetubeResolver logged).call url q log :=
  ⟨rfl, rfl, fun _ => rfl⟩

/-! ### The search order for a numeric quality -/

theorem tryQualities_other (n : Int) (h0 : n ≠ 0) (h1 : n ≠ 320) (h2 : n ≠ 256)
    (h3 : n ≠ 128) (h4 : n ≠ 92) :
    tryQualities (num n) = num n :: qualities := by
  have ht : (num n).truthy = true := by simp [truthy, h0]
  rw [tryQualities_truthy _ ht]
  have e1 : num 320 ≠ num n := fun e => h1 (by injection e with e; exact e.symm)
  have e2 : num 256 ≠ num n := fun e => h2 (by injection e with e; exact e.symm)
  have e3 : num 128 ≠ num n := fun e => h3 (by injection e with e; exact e.symm)
  have e4 : num 92 ≠ num n := fun e => h4 (by injection e with e; exact e.symm)
  simp [qualities, List.filter_cons, e1, e2, e3, e4]

/-- C26: for every numeric preferred quality `Q` the search order of `/a-dl` has no duplicate
entries and contains each of 320, 256, 128 and 92 exactly once; for `Q` in the fixed list it is
a permutation of the fixed list, of length 4, and the fixed list itself for `Q = 320`, the
value the client always sends; for a non-zero `Q` outside the list it has length 5; for `Q = 0`
it is the fixed list. -/
theorem tryQualities_numeric (n : Int) (url : JsVal) :
    (tryQualities (num n)).Nodup ∧
      (∀ t ∈ [num 320, num 256, num 128, num 92], (tryQualities (num n)).count t = 1) ∧
      (num n ∈ [num 320, num 256, num 128, num 92] →
        (tryQualities (num n)).Perm [num 320, num 256, num 128, num 92] ∧
          (tryQualities (num n)).length = 4) ∧
      (n = 320 → tryQualities (num n) = [num 320, num 256, num 128, num 92]) ∧
      (n ≠ 0 → num n ∉ [num 320, num 256, num 128, num 92] →
        (tryQualities (num n)).length = 5) ∧
      (n = 0 → tryQualities (num n) = [num 320, num 256, num 128, num 92]) ∧
      tryQualities (reqQuality (audioRequestBody url)) =
        [num 320, num 256, num 128, num 92] := by
  have hclient : tryQualities (reqQuality (audioRequestBody url)) =
      [num 320, num 256, num 128, num 92] := by
    show tryQualities (num 320) = _
    decide
  by_cases h0 : n = 0
  · subst h0
    exact ⟨by decide, by decide, by decide, by decide, by decide, by decide, hclient⟩
  by_cases h1 : n = 320
  · subst h1
    exact ⟨by decide, by decide, by decide, by decide, by decide, by decide, hclient⟩
  by_cases h2 : n = 256
  · subst h2
    exact ⟨by decide, by decide, by decide, by decide, by decide, by decide, hclient⟩
  by_cases h3 : n = 128
  · subst h3
    exact ⟨by decide, by decide, by decide, by decide, by decide, by decide, hclient⟩
  by_cases h4 : n = 92
  · subst h4
    exact ⟨by decide, by decide, by decide, by decide, by decide, by decide, hclient⟩
  have hL := tryQualities_other n h0 h1 h2 h3 h4
  have e1 : num n ≠ num 320 := fun e => h1 (by injection e)
  have e2 : num n ≠ num 256 := fun e => h2 (by injection e)
  have e3 : num n ≠ num 128 := fun e => h3 (by injection e)
  have e4 : num n ≠ num 92 := fun e => h4 (by injection e)
  have hnot : num n ∉ [num 320, num 256, num 128, num 92] := by
    simp [e1, e2, e3, e4]
  have hq : qualities = [num 320, num 256, num 128, num 92] := rfl
  refine ⟨?_, ?_, fun hin => absurd hin hnot, fun h => absurd h h1, fun _ _ => ?_,
    fun h => absurd h h0, hclient⟩
  · rw [hL, hq]
    exact List.nodup_cons.2 ⟨hnot, by decide⟩
  · intro t ht
    rw [hL, hq]
    have htn : t ≠ num n := fun e => hnot (e ▸ ht)
    rw [List.count_cons_of_ne htn]
    simp only [List.mem_cons, List.mem_singleton, List.not_mem_nil, or_false] at ht
    rcases ht with rfl | rfl | rfl | rfl <;> decide
  · rw [hL, hq]
    rfl

/-! ### What the retry wrapper returns and throws -/

theorem retryLoop_last {σ : Type} (fn : World σ → Outcome × World σ)
    (attempts baseDelay : Nat) :
    ∀ (n i : Nat) (le : JsVal) (w : World σ), i + (n + 1) = attempts →
      ∃ w0, retryLoop fn attempts baseDelay (n + 1) i le w = fn w0 := by
  intro n
  induction n with
  | zero =>
    intro i le w hi
    have hlt : ¬ i < attempts - 1 := by omega
    refine ⟨w, ?_⟩
    rw [retryLoop]
    cases h1 : fn w with
    | mk o1 w1 =>
      cases o1 with
      | returns v => rfl
      | throws e1 => simp [hlt, retryLoop]
  | succ n ih =>
    intro i le w hi
    cases h1 : fn w with
    | mk o1 w1 =>
      cases o1 with
      | returns v =>
        refine ⟨w, ?_⟩
        rw [retryLoop, h1]
      | throws e1 =>
        obtain ⟨w0, h0⟩ := ih (i + 1) e1
          (if i < attempts - 1 then wait (baseDelay * 2 ^ i) w1 else w1) (by omega)
        refine ⟨w0, ?_⟩
        rw [retryLoop, h1]
        exact h0

/-- C27: for `attempts ≥ 1`, the outcome of `withRetries(fn, attempts, baseDelay)` on a
resolver thunk is the outcome of the last of the `c ≤ attempts` invocations it makes: what it
returns or throws, and the world it leaves, are those of one invocation, after which nothing
more happens.  So a value returned by an attempt is returned as it is (whatever it is, `null`
or an invalid payload included) with no further invocation, and when the wrapper throws, all
`attempts` invocations were made and the error is that of the last one; the entry the handler
records for the failing slot is built from that error. -/
theorem withRetries_outcome_is_last_attempt {σ : Type} (p : Resolver σ) (j : Nat)
    (url q : JsVal) (attempts baseDelay : Nat) (w : World σ) (h1 : 1 ≤ attempts) :
    (∃ c w0, 1 ≤ c ∧ c ≤ attempts ∧
      (withRetries (callProvider p j url q) attempts baseDelay w).2.trace =
        w.trace ++ retryTrace j q baseDelay c 0 ∧
      withRetries (callProvider p j url q) attempts baseDelay w = callProvider p j url q w0 ∧
      ((∃ e, (withRetries (callProvider p j url q) attempts baseDelay w).1 =
          Outcome.throws e) → c = attempts)) ∧
      (∀ v env1, p.call url q w.env = (Outcome.returns v, env1) →
        withRetries (callProvider p j url q) attempts baseDelay w =
          (Outcome.returns v, ⟨env1, w.trace ++ [Event.invoke j q]⟩)) ∧
      ∀ loc e w1 entry,
        withRetries (callProvider p j url q) 2 400 w = (Outcome.throws e, w1) →
        failureEntry e p.name = some entry →
        tryPair url q j p loc w = Flow.next ⟨e, loc.errorDetails ++ [entry]⟩ w1 := by
  obtain ⟨n, rfl⟩ : ∃ n, attempts = n + 1 := ⟨attempts - 1, by omega⟩
  obtain ⟨c, hc1, hc2, htr, hthrow⟩ :=
    retryLoop_trace p j url q (n + 1) baseDelay n 0 null w (by omega)
  obtain ⟨w0, h0⟩ :=
    retryLoop_last (callProvider p j url q) (n + 1) baseDelay n 0 null w (by omega)
  refine ⟨⟨c, w0, hc1, hc2, htr, h0, hthrow⟩, ?_, ?_⟩
  · intro v env1 hv
    simp [withRetries, retryLoop, callProvider, hv]
  · intro loc e w1 entry he hentry
    simp [tryPair, he, hentry]

theorem withRetries_outcome_is_last_attempt_witness :
    (1 ≤ 2 ∧
      (withRetries (callProvider numberedThrower 0 sampleUrl (num 256)) 2 400 ⟨0, []⟩).1 =
        Outcome.throws (newError "second") ∧
      (aDlWith [numberedThrower] sampleBody 0).locals.errorDetails.map
          (fun x => x.prop "data") =
        [str "second", str "second", str "second", str "second"]) ∧
    ((∃ c w0, 1 ≤ c ∧ c ≤ 2 ∧
      (withRetries (callProvider numberedThrower 0 sampleUrl (num 256)) 2 400 ⟨0, []⟩).2.trace =
        [] ++ retryTrace 0 (num 256) 400 c 0 ∧
      withRetries (callProvider numberedThrower 0 sampleUrl (num 256)) 2 400 ⟨0, []⟩ =
        callProvider numberedThrower 0 sampleUrl (num 256) w0 ∧
      ((∃ e, (withRetries (callProvider numberedThrower 0 sampleUrl (num 256)) 2 400
          ⟨0, []⟩).1 = Outcome.throws e) → c = 2)) ∧
      (∀ v env1, numberedThrower.call sampleUrl (num 256) 0 = (Outcome.returns v, env1) →
        withRetries (callProvider numberedThrower 0 sampleUrl (num 256)) 2 400 ⟨0, []⟩ =
          (Outcome.returns v, ⟨env1, [] ++ [Event.invoke 0 (num 256)]⟩)) ∧
      ∀ loc e w1 entry,
        withRetries (callProvider numberedThrower 0 sampleUrl (num 256)) 2 400 ⟨0, []⟩ =
          (Outcome.throws e, w1) →
        failureEntry e numberedThrower.name = some entry →
        tryPair sampleUrl (num 256) 0 numberedThrower loc ⟨0, []⟩ =
          Flow.next ⟨e, loc.errorDetails ++ [entry]⟩ w1) :=
  ⟨⟨by decide, by decide, by decide⟩,
    withRetries_outcome_is_last_attempt numberedThrower 0 sampleUrl (num 256) 2 400 ⟨0, []⟩
      (by decide)⟩

/-! ### The client function `getAudioDownload` -/

/-- C22: for a non-empty url and a configured server, when the request fails with an error
`err` of the HTTP client (an error object, not `null` or `undefined`), `getAudioDownload` does
not throw: it returns the response body unchanged when the body is an object (or an array);
`{status: false, error: statusText || 'error', details: <the string>}` when the body is a
non-empty string; and `{status: false, error: <err.message, or String(err) without one>,
details: null}` when there is no response or no body (absent, `null` or empty). -/
theorem getAudioDownload_failed_request {σ : Type} (stringOf : JsVal → String)
    (scraperBase url err : JsVal) (post : String → JsVal → σ → Outcome × σ) (env env1 : σ)
    (hurl : url.truthy = true) (hbase : scraperBase.truthy = true)
    (hpost : post (audioEndpoint stringOf scraperBase) (audioRequestBody url) env =
      (Outcome.throws err, env1))
    (herr : err.isNullish = false) :
    ∃ v, getAudioDownload stringOf scraperBase post url env = (Outcome.returns v, env1) ∧
      (∀ fs, (err.prop "response").prop "data" = obj fs → v = obj fs) ∧
      (∀ xs, (err.prop "response").prop "data" = arr xs → v = arr xs) ∧
      (∀ t, t ≠ "" → (err.prop "response").prop "data" = str t →
        v = obj [("status", bool false),
                 ("error", ((err.prop "response").prop "statusText").or (str "error")),
                 ("details", str t)]) ∧
      ((err.prop "response").truthy = false ∨
          (err.prop "response").prop "data" = undefined ∨
          (err.prop "response").prop "data" = null ∨
          (err.prop "response").prop "data" = str "" →
        v = obj [("status", bool false),
                 ("error", (err.prop "message").or (str (stringOf err))),
                 ("details", null)]) ∧
      (∀ m, m ≠ "" → err.prop "message" = str m →
        (err.prop "message").or (str (stringOf err)) = str m) := by
  have hrun : getAudioDownload stringOf scraperBase post url env =
      (audioDownloadCatch stringOf err, env1) := by
    unfold audioRequestBody at hpost
    simp [getAudioDownload, hurl, hbase, hpost]
  rw [hrun]
  have hmsg : ∀ m, m ≠ "" → err.prop "message" = str m →
      (err.prop "message").or (str (stringOf err)) = str m := by
    intro m hm he
    have ht : (str m).truthy = true := by simp [truthy, hm]
    rw [he]
    simp [JsVal.or, ht]
  have hfalsy : (err.prop "response").truthy = false →
      (err.prop "response").prop "data" = undefined := by
    intro hrf
    cases hresp : err.prop "response" with
    | obj fs => rw [hresp] at hrf; simp [truthy] at hrf
    | _ => rfl
  by_cases hr : (err.prop "response").truthy = true
  · by_cases hdt : ((err.prop "response").prop "data").truthy = true
    · by_cases hs : isString ((err.prop "response").prop "data") = true
      · refine ⟨_, by simp only [audioDownloadCatch, herr, hr, hdt, hs]; rfl, ?_, ?_, ?_, ?_,
          hmsg⟩
        · intro fs h; rw [h] at hs; simp [isString] at hs
        · intro xs h; rw [h] at hs; simp [isString] at hs
        · intro t _ h; rw [h]
        · intro h
          rcases h with h | h | h | h
          · rw [hr] at h; cases h
          · rw [h] at hdt; simp [truthy] at hdt
          · rw [h] at hdt; simp [truthy] at hdt
          · rw [h] at hdt; simp [truthy] at hdt
      · refine ⟨(err.prop "response").prop "data",
          by simp only [audioDownloadCatch, herr, hr, hdt, hs]; rfl, ?_, ?_, ?_, ?_, hmsg⟩
        · intro fs h; exact h
        · intro xs h; exact h
        · intro t _ h; rw [h] at hs; simp [isString] at hs
        · intro h
          rcases h with h | h | h | h
          · rw [hr] at h; cases h
          · rw [h] at hdt; simp [truthy] at hdt
          · rw [h] at hdt; simp [truthy] at hdt
          · rw [h] at hdt; simp [truthy] at hdt
    · have hdf : ((err.prop "response").prop "data").truthy = false := by simpa using hdt
      refine ⟨_, by simp only [audioDownloadCatch, herr, hr, hdf]; rfl, ?_, ?_, ?_, ?_, hmsg⟩
      · intro fs h; rw [h] at hdf; simp [truthy] at hdf
      · intro xs h; rw [h] at hdf; simp [truthy] at hdf
      · intro t ht h; rw [h] at hdf; simp [truthy, ht] at hdf
      · intro _; rfl
  · have hrf : (err.prop "response").truthy = false := by simpa using hr
    have hdata := hfalsy hrf
    refine ⟨_, by simp only [audioDownloadCatch, herr, hrf]; rfl, ?_, ?_, ?_, ?_, hmsg⟩
    · intro fs h; rw [hdata] at h; cases h
    · intro xs h; rw [hdata] at h; cases h
    · intro t _ h; rw [hdata] at h; cases h
    · intro _; rfl

theorem getAudioDownload_failed_request_witness :
    (sampleUrl.truthy = true ∧ (str "http://localhost:4000").truthy = true ∧
      badGatewayPost (audioEndpoint objectString (str "http://localhost:4000"))
        (audioRequestBody sampleUrl) 0 = (Outcome.throws badGatewayError, 1) ∧
      badGatewayError.isNullish = false) ∧
    ∃ v, getAudioDownload objectString (str "http://localhost:4000") badGatewayPost sampleUrl 0 =
        (Outcome.returns v, 1) ∧
      (∀ fs, (badGatewayError.prop "response").prop "data" = obj fs → v = obj fs) ∧
      (∀ xs, (badGatewayError.prop "response").prop "data" = arr xs → v = arr xs) ∧
      (∀ t, t ≠ "" → (badGatewayError.prop "response").prop "data" = str t →
        v = obj [("status", bool false),
                 ("error", ((badGatewayError.prop "response").prop "statusText").or
                   (str "error")),
                 ("details", str t)]) ∧
      ((badGatewayError.prop "response").truthy = false ∨
          (badGatewayError.prop "response").prop "data" = undefined ∨
          (badGatewayError.prop "response").prop "data" = null ∨
          (badGatewayError.prop "response").prop "data" = str "" →
        v = obj [("status", bool false),
                 ("error", (badGatewayError.prop "message").or
                   (str (objectString badGatewayError))),
                 ("details", null)]) ∧
      (∀ m, m ≠ "" → badGatewayError.prop "message" = str m →
        (badGatewayError.prop "message").or (str (objectString badGatewayError)) = str m) :=
  ⟨⟨rfl, rfl, rfl, rfl⟩,
    getAudioDownload_failed_request objectString (str "http://localhost:4000") sampleUrl
      badGatewayError badGatewayPost 0 1 rfl rfl rfl rfl⟩

/-! ### The player wrapper without the player -/

/-- C23, at the failing input: with `react-native-track-player` not installed
(`available = false`), `isAvailable()` is `false` and `init`, `play`, `pause`, `stop`,
`skipToNext`, `skipToPrevious`, `getStatus`, `updateMetadata`, `setNotificationProgress` and
`destroyPlayer` complete without throwing and without calling the player; `addAndPlay` calls no
method of the player either, but it does not complete: it throws
`Error('TrackPlayer not available')`, whatever the track. -/
theorem addAndPlay_throws_when_unavailable {π : Type} (lib : PlayerLib π) (now : String)
    (track meta position duration : JsVal) (st : PlayerState π) :
    tpIsAvailable false = bool false ∧
      tpAddAndPlay false lib now track st =
        (Outcome.throws (newError "TrackPlayer not available"), st) ∧
      tpInit false lib st = (Outcome.returns (bool false), st) ∧
      (∀ method, tpSimple false lib method st = (Outcome.returns undefined, st)) ∧
      tpGetStatus false lib st =
        (Outcome.returns
          (obj [("position", num 0), ("duration", num 0), ("isPlaying", bool false)]), st) ∧
      tpUpdateMetadata false lib meta st = (Outcome.returns undefined, st) ∧
      tpSetNotificationProgress false position duration st = (Outcome.returns undefined, st) ∧
      tpDestroyPlayer false lib st = (Outcome.returns undefined, st) :=
  ⟨rfl, rfl, rfl, fun _ => rfl, rfl, rfl, rfl, rfl⟩

/-! ### Search history -/

theorem strictEq_str_right (x : JsVal) (c : String) :
    x.strictEq (str c) = decide (x = str c) := by
  by_cases h : x = str c
  · subst h
    rw [decide_eq_true rfl]
    simp only [strictEq, beq_self_eq_true]
  · rw [decide_eq_false h]
    cases x with
    | str t =>
      have hne : t ≠ c := fun e => h (by rw [e])
      simp only [strictEq]
      exact beq_false_of_ne hne
    | _ => rfl

theorem nextHistory_eq (c : String) (list : List JsVal) :
    nextHistory c list = (str c :: list.filter (fun x => decide (x ≠ str c))).take 50 := by
  unfold nextHistory
  congr 2
  apply List.filter_congr
  intro x _
  rw [strictEq_str_right]
  simp

/-- C24: for every query whose trimmed value `c` is not blank and every stored history list
`L`, the list `onSearch` stores is `c` followed by the entries of `L` different from `c`, in
their original order, truncated to 50 entries; `c` is its first entry and occurs in it exactly
once, its length is at most 50, and it has no duplicates when `L` has none. -/
theorem search_history_update (trim : String → String) (q : String) (list next : List JsVal)
    (h : onSearchHistory trim q list = some next) :
    trim q ≠ "" ∧
      next = (str (trim q) :: list.filter (fun x => decide (x ≠ str (trim q)))).take 50 ∧
      next.head? = some (str (trim q)) ∧
      next.count (str (trim q)) = 1 ∧
      next.length ≤ 50 ∧
      (list.Nodup → next.Nodup) := by
  unfold onSearchHistory at h
  split at h
  · cases h
  · rename_i hne
    simp only [Option.some.injEq] at h
    have hn := nextHistory_eq (trim q) list
    rw [h] at hn
    have hcons : next = str (trim q) ::
        (list.filter (fun x => decide (x ≠ str (trim q)))).take 49 := by
      rw [hn]; rfl
    have hnot : str (trim q) ∉ (list.filter (fun x => decide (x ≠ str (trim q)))).take 49 := by
      intro hm
      have := List.mem_of_mem_take hm
      simp [List.mem_filter] at this
    refine ⟨hne, hn, by rw [hcons]; rfl, ?_, ?_, ?_⟩
    · rw [hcons, List.count_cons_self, List.count_eq_zero_of_not_mem hnot]
    · rw [hn]
      exact le_trans (List.length_take_le _ _) (le_refl _)
    · intro hnd
      rw [hcons]
      refine List.nodup_cons.2 ⟨hnot, ?_⟩
      exact (hnd.filter _).sublist (List.take_sublist _ _)

theorem search_history_update_witness :
    onSearchHistory noTrim "lofi" [str "jazz", str "lofi", str "rock"] =
        some [str "lofi", str "jazz", str "rock"] ∧
    (noTrim "lofi" ≠ "" ∧
      [str "lofi", str "jazz", str "rock"] =
        (str (noTrim "lofi") :: [str "jazz", str "lofi", str "rock"].filter
          (fun x => decide (x ≠ str (noTrim "lofi")))).take 50 ∧
      [str "lofi", str "jazz", str "rock"].head? = some (str (noTrim "lofi")) ∧
      [str "lofi", str "jazz", str "rock"].count (str (noTrim "lofi")) = 1 ∧
      [str "lofi", str "jazz", str "rock"].length ≤ 50 ∧
      ([str "jazz", str "lofi", str "rock"].Nodup →
        [str "lofi", str "jazz", str "rock"].Nodup)) :=
  ⟨by decide,
    search_history_update noTrim "lofi" [str "jazz", str "lofi", str "rock"]
      [str "lofi", str "jazz", str "rock"] (by decide)⟩

/-! ### Playlists -/

theorem addTrackTo_other (pid : String) (track : Track) (p : Playlist) (h : p.id ≠ pid) :
    addTrackTo pid track p = p := by
  simp [addTrackTo, h]

theorem addTrackTo_present (pid : String) (track : Track) (p : Playlist) (h : p.id = pid)
    (hex : ∃ t ∈ p.trackList, t.id = track.id) : addTrackTo pid track p = p := by
  obtain ⟨t, ht, hid⟩ := hex
  have hsome : (p.trackList.find? (fun t => decide (t.id = track.id))).isSome = true := by
    rw [List.find?_isSome]
    exact ⟨t, ht, by simp [hid]⟩
  cases hf : p.trackList.find? (fun t => decide (t.id = track.id)) with
  | none => rw [hf] at hsome; cases hsome
  | some x => simp [addTrackTo, h, hf]

theorem addTrackTo_absent (pid : String) (track : Track) (p : Playlist) (h : p.id = pid)
    (hno : ∀ t ∈ p.trackList, t.id ≠ track.id) :
    addTrackTo pid track p = ⟨p.id, p.name, some (p.trackList ++ [track])⟩ := by
  have hf : p.trackList.find? (fun t => decide (t.id = track.id)) = none := by
    rw [List.find?_eq_none]
    intro t ht
    simp [hno t ht]
  simp [addTrackTo, h, hf]

theorem addTrackTo_idem (pid : String) (track : Track) (p : Playlist) :
    addTrackTo pid track (addTrackTo pid track p) = addTrackTo pid track p := by
  by_cases h : p.id = pid
  · by_cases hex : ∃ t ∈ p.trackList, t.id = track.id
    · rw [addTrackTo_present pid track p h hex, addTrackTo_present pid track p h hex]
    · have hno : ∀ t ∈ p.trackList, t.id ≠ track.id := by
        intro t ht hid
        exact hex ⟨t, ht, hid⟩
      rw [addTrackTo_absent pid track p h hno]
      apply addTrackTo_present
      · exact h
      · exact ⟨track, by simp [Playlist.trackList], rfl⟩
  · rw [addTrackTo_other pid track p h, addTrackTo_other pid track p h]

/-- C25: `addTrackToPlaylist(playlistId, track)` keeps the number and the order of the
playlists; a playlist with another id is unchanged; a playlist with the target id that already
holds a track with the id of `track` is unchanged; otherwise it gets `track` appended at the
end of its track list; and applying the operation twice gives the same playlists as applying
it once. -/
theorem addTrackToPlaylist_no_duplicates (ps : List Playlist) (pid : String) (track : Track) :
    (addTrackToPlaylist ps pid track).length = ps.length ∧
      (∀ (i : Nat) (p : Playlist), ps[i]? = some p → p.id ≠ pid → (addTrackToPlaylist ps pid track)[i]? = some p) ∧
      (∀ (i : Nat) (p : Playlist), ps[i]? = some p → p.id = pid → (∃ t ∈ p.trackList, t.id = track.id) →
        (addTrackToPlaylist ps pid track)[i]? = some p) ∧
      (∀ (i : Nat) (p : Playlist), ps[i]? = some p → p.id = pid → (∀ t ∈ p.trackList, t.id ≠ track.id) →
        (addTrackToPlaylist ps pid track)[i]? =
          some ⟨p.id, p.name, some (p.trackList ++ [track])⟩) ∧
      addTrackToPlaylist (addTrackToPlaylist ps pid track) pid track =
        addTrackToPlaylist ps pid track := by
  refine ⟨by simp [addTrackToPlaylist], ?_, ?_, ?_, ?_⟩
  · intro i p hp h
    simp [addTrackToPlaylist, List.getElem?_map, hp, addTrackTo_other pid track p h]
  · intro i p hp h hex
    simp [addTrackToPlaylist, List.getElem?_map, hp, addTrackTo_present pid track p h hex]
  · intro i p hp h hno
    simp [addTrackToPlaylist, List.getElem?_map, hp, addTrackTo_absent pid track p h hno]
  · simp only [addTrackToPlaylist, List.map_map]
    apply List.map_congr_left
    intro p _
    exact addTrackTo_idem pid track p

/-! ### `GET /search` -/

theorem searchMax_le (maxParam : Option String) (n : Int) (h : searchMax maxParam = some n) :
    n ≤ 50 := by
  unfold searchMax at h
  simp only [Option.map_eq_some'] at h
  obtain ⟨m, -, hm⟩ := h
  rw [← hm]
  exact min_le_right _ _

theorem sliceFromZero_leading {α : Type} (xs : List α) (stop : Option Int) :
    ∃ k, sliceFromZero xs stop = xs.take k := by
  unfold sliceFromZero
  cases stop with
  | none => exact ⟨0, by simp⟩
  | some e =>
    by_cases he : e < 0
    · exact ⟨xs.length - (-e).toNat, by simp only [he, if_true]⟩
    · exact ⟨e.toNat, by simp only [he, if_false]⟩

theorem sliceFromZero_length_cap {α : Type} (xs : List α) (stop : Option Int)
    (h : ∀ n, stop = some n → 0 ≤ n ∧ n ≤ 50) :
    (sliceFromZero xs stop).length ≤ min 50 xs.length := by
  unfold sliceFromZero
  cases stop with
  | none => simp
  | some e =>
    obtain ⟨h0, h50⟩ := h e rfl
    have he : ¬ e < 0 := by omega
    simp only [he, if_false, List.length_take]
    have : e.toNat ≤ 50 := by omega
    omega

theorem searchItems_length (xs : List JsVal) :
    ∀ out, searchItems xs = some out → out.length = xs.length := by
  induction xs with
  | nil => intro out h; simp only [searchItems, Option.some.injEq] at h; rw [← h]
  | cons v rest ih =>
    intro out h
    simp only [searchItems] at h
    cases h1 : searchItem v with
    | none => rw [h1] at h; simp at h
    | some x =>
      cases h2 : searchItems rest with
      | none => rw [h1, h2] at h; simp at h
      | some ys =>
        rw [h1, h2] at h
        simp only [Option.some.injEq] at h
        rw [← h, List.length_cons, List.length_cons, ih ys h2]

/-- Without a negative `max` the cap holds: the items of the response are those of a leading
part of the videos, at most `min(50, number of videos)` of them. -/
theorem search_cap_without_negative_max (items out : List JsVal) (maxParam : Option String)
    (hmax : ∀ n, searchMax maxParam = some n → 0 ≤ n)
    (h : searchItems (sliceFromZero items (searchMax maxParam)) = some out) :
    out.length ≤ min 50 items.length ∧ ∃ k, searchItems (items.take k) = some out := by
  constructor
  · rw [searchItems_length _ out h]
    exact sliceFromZero_length_cap items _
      (fun n hn => ⟨hmax n hn, searchMax_le maxParam n hn⟩)
  · obtain ⟨k, hk⟩ := sliceFromZero_leading items (searchMax maxParam)
    exact ⟨k, by rw [← hk]; exact h⟩

/-- C28, at the failing input: for `GET /search?q=lofi&max=-5` and a search library that
returns 60 videos, `max` is `Math.min(-5, 50) = -5` and `videos.slice(0, -5)` drops the last
five videos only: the response array has the 55 leading videos, more than 50. -/
theorem search_negative_max_exceeds_cap :
    searchMax (some "-5") = some (-5) ∧
      sixtyVideos.length = 60 ∧
      replyItems (searchHandler objectString sixtyResults (some "lofi") (some "-5")) =
        searchItems (sixtyVideos.take 55) ∧
      (replyItems (searchHandler objectString sixtyResults (some "lofi") (some "-5"))).map
        List.length = some 55 := by
  decide

/-! ### `sanitizeFilename` -/

theorem take_map_props (g : Nat → Nat) (n : Nat) (s : List Nat) (hg : ∀ u, g (g u) = g u) :
    ((s.map g).take n).length ≤ n ∧
      (∀ u ∈ (s.map g).take n, ∃ v, u = g v) ∧
      (s.length ≤ n → ((s.map g).take n).length = s.length) ∧
      (((s.map g).take n).map g).take n = (s.map g).take n := by
  refine ⟨?_, ?_, ?_, ?_⟩
  · rw [List.length_take]
    omega
  · intro u hu
    have hm := List.mem_of_mem_take hu
    rw [List.mem_map] at hm
    obtain ⟨v, -, rfl⟩ := hm
    exact ⟨v, rfl⟩
  · intro hlen
    rw [List.length_take, List.length_map]
    omega
  · rw [List.map_take, List.take_take, List.map_map, Nat.min_self]
    congr 1
    apply List.map_congr_left
    intro u _
    exact hg u

theorem allowedUnit_replace (u : Nat) :
    allowedUnit (if allowedUnit u then u else 95) = true := by
  by_cases h : allowedUnit u = true
  · simp only [h, if_true]
  · have h95 : allowedUnit 95 = true := by decide
    simp only [h, Bool.false_eq_true, if_false, h95]


theorem allowedUnit_iff (u : Nat) :
    allowedUnit u = true ↔
      (97 ≤ u ∧ u ≤ 122) ∨ (65 ≤ u ∧ u ≤ 90) ∨ (48 ≤ u ∧ u ≤ 57) ∨
        u = 45 ∨ u = 95 ∨ u = 46 ∨ u = 32 := by
  simp only [allowedUnit, Bool.or_eq_true, Bool.and_eq_true, decide_eq_true_eq, or_assoc]

/-- C30: for every string `s` (as UTF-16 code units), `sanitizeFilename(s)` has length at most
120, each of its characters is an ASCII letter, a digit, `-`, `_`, `.` or a space, it has the
length of `s` when `s` has at most 120 characters, and sanitizing it again changes nothing. -/
theorem sanitizeFilename_spec (s : List Nat) :
    (sanitizeFilename s).length ≤ 120 ∧
      (∀ u ∈ sanitizeFilename s,
        (97 ≤ u ∧ u ≤ 122) ∨ (65 ≤ u ∧ u ≤ 90) ∨ (48 ≤ u ∧ u ≤ 57) ∨
          u = 45 ∨ u = 95 ∨ u = 46 ∨ u = 32) ∧
      (s.length ≤ 120 → (sanitizeFilename s).length = s.length) ∧
      sanitizeFilename (sanitizeFilename s) = sanitizeFilename s := by
  have hg : ∀ u, (fun u => if allowedUnit u then u else 95)
      ((fun u => if allowedUnit u then u else 95) u) =
      (fun u => if allowedUnit u then u else 95) u := by
    intro u
    simp only [allowedUnit_replace u, if_true]
  obtain ⟨h1, h2, h3, h4⟩ :=
    take_map_props (fun u => if allowedUnit u then u else 95) 120 s hg
  refine ⟨h1, ?_, h3, h4⟩
  intro u hu
  obtain ⟨v, rfl⟩ := h2 u hu
  exact (allowedUnit_iff _).1 (allowedUnit_replace v)

/-! ### `compareSemver` -/

theorem semverLoop_sign (pa pb : List Int) :
    ∀ (n i : Nat), semverLoop pa pb n i = -1 ∨ semverLoop pa pb n i = 0 ∨
      semverLoop pa pb n i = 1 := by
  intro n
  induction n with
  | zero => intro i; exact Or.inr (Or.inl rfl)
  | succ n ih =>
    intro i
    rw [semverLoop]
    split
    · exact Or.inr (Or.inr rfl)
    · split
      · exact Or.inl rfl
      · exact ih (i + 1)

theorem semverLoop_antisymm (pa pb : List Int) :
    ∀ (n i : Nat), semverLoop pa pb n i = - semverLoop pb pa n i := by
  intro n
  induction n with
  | zero => intro i; rfl
  | succ n ih =>
    intro i
    rw [semverLoop, semverLoop]
    by_cases h1 : pa.getD i 0 > pb.getD i 0
    · have h2 : ¬ pb.getD i 0 > pa.getD i 0 := by omega
      have h3 : pb.getD i 0 < pa.getD i 0 := by omega
      simp only [h1, h2, h3, if_true, if_false, neg_neg]
    · by_cases h2 : pa.getD i 0 < pb.getD i 0
      · have h3 : pb.getD i 0 > pa.getD i 0 := by omega
        simp only [h1, h2, h3, if_true, if_false]
      · have h3 : ¬ pb.getD i 0 > pa.getD i 0 := by omega
        have h4 : ¬ pb.getD i 0 < pa.getD i 0 := by omega
        simp only [h1, h2, h3, h4, if_false]
        exact ih (i + 1)

theorem semverLoop_zero_iff (pa pb : List Int) :
    ∀ (n i : Nat), semverLoop pa pb n i = 0 ↔
      ∀ k, i ≤ k → k < i + n → pa.getD k 0 = pb.getD k 0 := by
  intro n
  induction n with
  | zero => intro i; exact ⟨fun _ k h1 h2 => by omega, fun _ => rfl⟩
  | succ n ih =>
    intro i
    rw [semverLoop]
    by_cases h1 : pa.getD i 0 > pb.getD i 0
    · simp only [h1, if_true]
      constructor
      · intro h; omega
      · intro h
        have := h i (le_refl _) (by omega)
        omega
    · by_cases h2 : pa.getD i 0 < pb.getD i 0
      · simp only [h1, h2, if_true, if_false]
        constructor
        · intro h; omega
        · intro h
          have := h i (le_refl _) (by omega)
          omega
      · simp only [h1, h2, if_false]
        rw [ih (i + 1)]
        constructor
        · intro h k hk1 hk2
          by_cases hki : k = i
          · subst hki; omega
          · exact h k (by omega) (by omega)
        · intro h k hk1 hk2
          exact h k (by omega) (by omega)

theorem semverLoop_one_iff (pa pb : List Int) :
    ∀ (n i : Nat), semverLoop pa pb n i = 1 ↔
      ∃ k, i ≤ k ∧ k < i + n ∧ pa.getD k 0 > pb.getD k 0 ∧
        ∀ j, i ≤ j → j < k → pa.getD j 0 = pb.getD j 0 := by
  intro n
  induction n with
  | zero =>
    intro i
    constructor
    · intro h; simp [semverLoop] at h
    · rintro ⟨k, h1, h2, -⟩; omega
  | succ n ih =>
    intro i
    rw [semverLoop]
    by_cases h1 : pa.getD i 0 > pb.getD i 0
    · simp only [h1, if_true, true_iff]
      exact ⟨i, le_refl _, by omega, h1, fun j hj1 hj2 => by omega⟩
    · by_cases h2 : pa.getD i 0 < pb.getD i 0
      · simp only [h1, h2, if_true, if_false]
        constructor
        · intro h; omega
        · rintro ⟨k, hk1, hk2, hk3, hk4⟩
          by_cases hki : k = i
          · subst hki; omega
          · have := hk4 i (le_refl _) (by omega)
            omega
      · simp only [h1, h2, if_false]
        rw [ih (i + 1)]
        constructor
        · rintro ⟨k, hk1, hk2, hk3, hk4⟩
          refine ⟨k, by omega, by omega, hk3, ?_⟩
          intro j hj1 hj2
          by_cases hji : j = i
          · subst hji; omega
          · exact hk4 j (by omega) hj2
        · rintro ⟨k, hk1, hk2, hk3, hk4⟩
          have hki : k ≠ i := by
            intro h
            subst h
            omega
          exact ⟨k, by omega, by omega, hk3, fun j hj1 hj2 => hk4 j (by omega) hj2⟩

theorem semverLoop_trans (pa pb pc : List Int) :
    ∀ (n i : Nat), semverLoop pa pb n i ≤ 0 → semverLoop pb pc n i ≤ 0 →
      semverLoop pa pc n i ≤ 0 := by
  intro n
  induction n with
  | zero => intro i _ _; exact le_refl _
  | succ n ih =>
    intro i hab hbc
    rw [semverLoop] at hab hbc ⊢
    by_cases h1 : pa.getD i 0 > pb.getD i 0
    · simp only [h1, if_true] at hab
      omega
    · by_cases h2 : pb.getD i 0 > pc.getD i 0
      · simp only [h2, if_true] at hbc
        omega
      · by_cases h3 : pa.getD i 0 < pb.getD i 0
        · have h4 : ¬ pa.getD i 0 > pc.getD i 0 := by omega
          have h5 : pa.getD i 0 < pc.getD i 0 := by omega
          simp only [h4, h5, if_true, if_false]
          omega
        · by_cases h6 : pb.getD i 0 < pc.getD i 0
          · have h4 : ¬ pa.getD i 0 > pc.getD i 0 := by omega
            have h5 : pa.getD i 0 < pc.getD i 0 := by omega
            simp only [h4, h5, if_true, if_false]
            omega
          · have h4 : ¬ pa.getD i 0 > pc.getD i 0 := by omega
            have h5 : ¬ pa.getD i 0 < pc.getD i 0 := by omega
            simp only [h1, h3, if_false] at hab
            simp only [h2, h6, if_false] at hbc
            simp only [h4, h5, if_false]
            exact ih (i + 1) hab hbc

theorem getD_beyond (l : List Int) (k : Nat) (h : l.length ≤ k) : l.getD k 0 = 0 := by
  rw [List.getD_eq_getElem?_getD, List.getElem?_eq_none h]
  rfl

theorem semverLoop_all_equal (pa pb : List Int) :
    ∀ (m i : Nat), (∀ k, i ≤ k → pa.getD k 0 = pb.getD k 0) → semverLoop pa pb m i = 0 := by
  intro m i h
  rw [semverLoop_zero_iff]
  intro k hk _
  exact h k hk

theorem semverLoop_extend (pa pb : List Int) :
    ∀ (n i : Nat), (∀ k, i + n ≤ k → pa.getD k 0 = pb.getD k 0) →
      ∀ m, semverLoop pa pb (n + m) i = semverLoop pa pb n i := by
  intro n
  induction n with
  | zero =>
    intro i h m
    rw [Nat.zero_add]
    exact semverLoop_all_equal pa pb m i (fun k hk => h k (by omega))
  | succ n ih =>
    intro i h m
    have e : n + 1 + m = (n + m) + 1 := by omega
    rw [e, semverLoop, semverLoop, ih (i + 1) (fun k hk => h k (by omega)) m]

/-- The loop may as well run over any number of components that covers both versions. -/
theorem compareSemver_eq_loop (a b : String) (N : Nat)
    (ha : (semverParts a).length ≤ N) (hb : (semverParts b).length ≤ N) :
    compareSemver a b = semverLoop (semverParts a) (semverParts b) N 0 := by
  unfold compareSemver
  obtain ⟨m, rfl⟩ : ∃ m, N = max (semverParts a).length (semverParts b).length + m :=
    ⟨N - max (semverParts a).length (semverParts b).length, by omega⟩
  rw [semverLoop_extend]
  intro k hk
  rw [getD_beyond _ k (by omega), getD_beyond _ k (by omega)]

theorem shiftOf_small (fuel n : Nat) (h : n < 2 ^ 53) : shiftOf fuel n = 0 := by
  cases fuel with
  | zero => rfl
  | succ f => simp only [shiftOf, h, if_true]

theorem shiftOf_normal : ∀ (fuel n : Nat), n < 2 ^ 53 * 2 ^ fuel →
    n / 2 ^ shiftOf fuel n < 2 ^ 53 ∧
      (shiftOf fuel n = 0 ∨ 2 ^ 52 ≤ n / 2 ^ shiftOf fuel n) := by
  intro fuel
  induction fuel with
  | zero =>
    intro n h
    have h0 : shiftOf 0 n = 0 := rfl
    rw [h0, pow_zero, Nat.div_one]
    rw [pow_zero, mul_one] at h
    exact ⟨h, Or.inl rfl⟩
  | succ f ih =>
    intro n h
    by_cases hn : n < 2 ^ 53
    · have h0 : shiftOf (f + 1) n = 0 := shiftOf_small _ _ hn
      rw [h0, pow_zero, Nat.div_one]
      exact ⟨hn, Or.inl rfl⟩
    · have h1 : shiftOf (f + 1) n = shiftOf f (n / 2) + 1 := by
        simp only [shiftOf, hn, if_false]
      rw [h1]
      have h2 : n / 2 < 2 ^ 53 * 2 ^ f := by
        rw [pow_succ] at h
        omega
      obtain ⟨h3, h4⟩ := ih (n / 2) h2
      have e : n / 2 ^ (shiftOf f (n / 2) + 1) = n / 2 / 2 ^ shiftOf f (n / 2) := by
        rw [pow_succ, mul_comm, Nat.div_div_eq_div_mul]
      rw [e]
      refine ⟨h3, Or.inr ?_⟩
      rcases h4 with h4 | h4
      · rw [h4, pow_zero, Nat.div_one]
        omega
      · exact h4

theorem toDouble_exact (n : Nat) (h : n < 2 ^ 53) : toDouble n = n := by
  have hi : n ≤ infinityRank := by
    have : (2 : Nat) ^ 53 ≤ infinityRank := by decide
    omega
  simp only [toDouble, shiftOf_small n n h, pow_zero, Nat.mod_one, Nat.div_one, mul_one,
    mul_zero]
  have hc : ¬ (1 < 0 ∨ (0 = 1 ∧ n % 2 = 1)) := by omega
  rw [if_neg hc]
  exact min_eq_left hi

theorem shiftOf_self (n : Nat) :
    n / 2 ^ shiftOf n n < 2 ^ 53 ∧ (shiftOf n n = 0 ∨ 2 ^ 52 ≤ n / 2 ^ shiftOf n n) := by
  apply shiftOf_normal
  have h1 : n < 2 ^ n := Nat.lt_two_pow n
  have h2 : 2 ^ n ≤ 2 ^ 53 * 2 ^ n := Nat.le_mul_of_pos_left _ (by decide)
  omega

/-- A Number below `Infinity` read from `n` has a significand of at most 53 bits at the
exponent of `n`, and is within half a unit in the last place of `n`. -/
theorem toDouble_nearest (n : Nat) (h : toDouble n < infinityRank) :
    ∃ e q, (e = 0 ∨ 2 ^ 52 * 2 ^ e ≤ n) ∧ q ≤ 2 ^ 53 ∧ toDouble n = q * 2 ^ e ∧
      2 * toDouble n ≤ 2 * n + 2 ^ e ∧ 2 * n ≤ 2 * toDouble n + 2 ^ e := by
  obtain ⟨h1, h2⟩ := shiftOf_self n
  have hdm : 2 ^ shiftOf n n * (n / 2 ^ shiftOf n n) + n % 2 ^ shiftOf n n = n :=
    Nat.div_add_mod n _
  have hpos : 0 < 2 ^ shiftOf n n := pow_pos (by decide) _
  have hr : n % 2 ^ shiftOf n n < 2 ^ shiftOf n n := Nat.mod_lt _ hpos
  have hlow : shiftOf n n = 0 ∨ 2 ^ 52 * 2 ^ shiftOf n n ≤ n := by
    rcases h2 with h2 | h2
    · exact Or.inl h2
    · right
      have := Nat.mul_le_mul_right (2 ^ shiftOf n n) h2
      have h3 : n / 2 ^ shiftOf n n * 2 ^ shiftOf n n ≤ n := Nat.div_mul_le_self _ _
      omega
  unfold toDouble at h ⊢
  generalize shiftOf n n = e at *
  generalize hP : 2 ^ e = P at *
  generalize hq : n / P = q at *
  generalize hrr : n % P = r at *
  by_cases hc : P < 2 * r ∨ (2 * r = P ∧ q % 2 = 1)
  · rw [if_pos hc] at h ⊢
    have hm : (q + 1) * P < infinityRank := by
      by_contra hcon
      rw [min_eq_right (by omega)] at h
      exact absurd h (lt_irrefl _)
    rw [min_eq_left (le_of_lt hm)]
    have e1 : (q + 1) * P = P * q + P := by ring
    refine ⟨e, q + 1, by rw [hP]; exact hlow, by omega, by rw [hP], ?_, ?_⟩ <;> rw [e1] <;> omega
  · rw [if_neg hc] at h ⊢
    have hm : q * P < infinityRank := by
      by_contra hcon
      rw [min_eq_right (by omega)] at h
      exact absurd h (lt_irrefl _)
    rw [min_eq_left (le_of_lt hm)]
    have e1 : q * P = P * q := by ring
    refine ⟨e, q, by rw [hP]; exact hlow, by omega, by rw [hP], ?_, ?_⟩ <;> rw [e1] <;> omega

theorem digitsValue_append (ds : List Char) (c : Char) :
    digitsValue (ds ++ [c]) = 10 * digitsValue ds + (c.toNat - 48) := by
  simp [digitsValue, List.foldl_append]

theorem splitOnDot_ne_nil : ∀ (xs : List Char), splitOnDot xs ≠ [] := by
  intro xs
  induction xs with
  | nil => simp [splitOnDot]
  | cons c cs ih =>
    unfold splitOnDot
    split
    · simp
    · split <;> simp

theorem splitOnDot_append (xs ys : List Char) :
    splitOnDot (xs ++ '.' :: ys) = splitOnDot xs ++ splitOnDot ys := by
  induction xs with
  | nil => simp [splitOnDot]
  | cons c cs ih =>
    rw [List.cons_append]
    by_cases hc : c = '.'
    · rw [splitOnDot, splitOnDot, if_pos hc, if_pos hc, ih]
      rfl
    · rw [splitOnDot, splitOnDot, if_neg hc, if_neg hc, ih]
      cases hs : splitOnDot cs with
      | nil => exact absurd hs (splitOnDot_ne_nil cs)
      | cons h t => rfl

theorem splitOnDot_nodot : ∀ (xs : List Char), (∀ c ∈ xs, c ≠ '.') → splitOnDot xs = [xs] := by
  intro xs
  induction xs with
  | nil => intro _; rfl
  | cons c cs ih =>
    intro h
    have hc : c ≠ '.' := h c (List.mem_cons_self _ _)
    have hcs := ih (fun d hd => h d (List.mem_cons_of_mem _ hd))
    simp only [splitOnDot, hc, if_false, hcs]

theorem splitOnDot_intercalate : ∀ (comps : List (List Char)), comps ≠ [] →
    (∀ ds ∈ comps, ∀ c ∈ ds, c ≠ '.') →
    splitOnDot (List.intercalate ['.'] comps) = comps := by
  intro comps
  induction comps with
  | nil => intro h; exact absurd rfl h
  | cons x rest ih =>
    intro _ hd
    cases rest with
    | nil =>
      have e : List.intercalate ['.'] [x] = x := by
        simp [List.intercalate, List.intersperse]
      rw [e]
      exact splitOnDot_nodot x (hd x (List.mem_cons_self _ _))
    | cons y t =>
      have e : List.intercalate ['.'] (x :: y :: t) =
          x ++ '.' :: List.intercalate ['.'] (y :: t) := by
        simp [List.intercalate, List.intersperse]
      rw [e, splitOnDot_append, splitOnDot_nodot x (hd x (List.mem_cons_self _ _)),
        ih (by simp) (fun ds hds => hd ds (List.mem_cons_of_mem _ hds))]
      rfl

theorem isDigit10_bounds (c : Char) (h : isDigit10 c = true) : 48 ≤ c.toNat ∧ c.toNat ≤ 57 := by
  simpa [isDigit10] using h

theorem parseIntChars_digits (ds : List Char) (hne : ds ≠ [])
    (hd : ∀ c ∈ ds, isDigit10 c = true) :
    parseIntChars ds = some ((toDouble (digitsValue ds) : Nat) : Int) := by
  cases ds with
  | nil => exact absurd rfl hne
  | cons d rest =>
    have hb := isDigit10_bounds d (hd d (List.mem_cons_self _ _))
    have hsp : isJsSpace d = false := by
      simp only [isJsSpace, Bool.or_eq_false_iff, decide_eq_false_iff_not, Bool.and_eq_false_imp,
        decide_eq_true_eq]
      omega
    have htw : (d :: rest).takeWhile isDigit10 = d :: rest :=
      List.takeWhile_eq_self_iff.2 hd
    have hdrop : (d :: rest).dropWhile isJsSpace = d :: rest := by
      simp [List.dropWhile, hsp]
    have hpd : parseDigits (d :: rest) = some (toDouble (digitsValue (d :: rest))) := by
      simp [parseDigits, htw]
    unfold parseIntChars
    rw [hdrop]
    split
    · rename_i r heq
      have : d = '-' := (List.cons.inj heq).1
      subst this
      exact absurd hb (by decide)
    · rename_i r heq
      have : d = '+' := (List.cons.inj heq).1
      subst this
      exact absurd hb (by decide)
    · rw [hpd]
      rfl

theorem semverParts_dotted (comps : List (List Char)) (hne : comps ≠ [])
    (hd : ∀ ds ∈ comps, ds ≠ [] ∧ ∀ c ∈ ds, isDigit10 c = true) :
    semverParts (String.mk (List.intercalate ['.'] comps)) =
      comps.map (fun ds => ((toDouble (digitsValue ds) : Nat) : Int)) := by
  have hdot : ∀ ds ∈ comps, ∀ c ∈ ds, c ≠ '.' := by
    intro ds hds c hc h
    subst h
    exact absurd ((hd ds hds).2 _ hc) (by decide)
  show (splitOnDot (List.intercalate ['.'] comps)).map (fun x => (parseIntChars x).getD 0) = _
  rw [splitOnDot_intercalate comps hne hdot]
  apply List.map_congr_left
  intro ds hds
  rw [parseIntChars_digits ds (hd ds hds).1 (hd ds hds).2]
  rfl

theorem semverParts_not_numeric (c : Char) (rest : List Char)
    (hdot : ∀ d ∈ c :: rest, d ≠ '.') (hdig : isDigit10 c = false)
    (hsp : isJsSpace c = false) (hminus : c ≠ '-') (hplus : c ≠ '+') :
    semverParts (String.mk (c :: rest)) = [0] := by
  show (splitOnDot (c :: rest)).map (fun x => (parseIntChars x).getD 0) = _
  rw [splitOnDot_nodot _ hdot]
  have hdrop : (c :: rest).dropWhile isJsSpace = c :: rest := by
    simp [List.dropWhile, hsp]
  have hpd : parseDigits (c :: rest) = none := by
    simp [parseDigits, List.takeWhile, hdig]
  have hp : parseIntChars (c :: rest) = none := by
    unfold parseIntChars
    rw [hdrop]
    split
    · rename_i r heq
      exact absurd (List.cons.inj heq).1 hminus
    · rename_i r heq
      exact absurd (List.cons.inj heq).1 hplus
    · rw [hpd]
      rfl
  simp only [List.map, hp]
  rfl

/-- C29, as stated, fails: the versions `'9007199254740993'` and `'9007199254740992'` have one
component each, the two integers written are different, yet `parseInt` gives both the Number
`9007199254740992` and `compareSemver` answers 0, not 1. -/
theorem compareSemver_rounding_counterexample :
    splitOnDot "9007199254740993".toList = ["9007199254740993".toList] ∧
      splitOnDot "9007199254740992".toList = ["9007199254740992".toList] ∧
      digitsValue "9007199254740993".toList = 9007199254740993 ∧
      digitsValue "9007199254740992".toList = 9007199254740992 ∧
      semverParts "9007199254740993" = [9007199254740992] ∧
      semverParts "9007199254740992" = [9007199254740992] ∧
      compareSemver "9007199254740993" "9007199254740992" = 0 := by
  decide

/-- C29, amended: `compareSemver a b` is the sign (-1, 0 or 1) of the lexicographic comparison
of the dot-separated components of `a` and `b` as the Numbers `parseInt(x, 10)` reads, a
missing component counting as 0: it is 1 exactly when `a` is larger at the first component
where they differ, and 0 exactly when they differ nowhere.  For all strings,
`compareSemver a b = -compareSemver b a`, `compareSemver a a = 0`,
`compareSemver "1.2" "1.2.0" = 0`, and the induced order is transitive.  The components of a
version written as digit strings joined by dots are the Numbers the digit strings round to,
which are the integers written when these are below `2 ^ 53` and otherwise the nearest
numbers with a significand of 53 bits; a component that does not start with a digit, a sign
or white space is 0. -/
theorem compareSemver_order (a b c : String) :
    (compareSemver a b = -1 ∨ compareSemver a b = 0 ∨ compareSemver a b = 1) ∧
    (compareSemver a b = 1 ↔
      ∃ k, (semverParts a).getD k 0 > (semverParts b).getD k 0 ∧
        ∀ j, j < k → (semverParts a).getD j 0 = (semverParts b).getD j 0) ∧
    (compareSemver a b = 0 ↔
      ∀ k, (semverParts a).getD k 0 = (semverParts b).getD k 0) ∧
    compareSemver a b = - compareSemver b a ∧
    compareSemver a a = 0 ∧
    compareSemver "1.2" "1.2.0" = 0 ∧
    (compareSemver a b ≤ 0 → compareSemver b c ≤ 0 → compareSemver a c ≤ 0) ∧
    (∀ comps : List (List Char), comps ≠ [] →
      (∀ ds ∈ comps, ds ≠ [] ∧ ∀ d ∈ ds, isDigit10 d = true) →
      semverParts (String.mk (List.intercalate ['.'] comps)) =
        comps.map (fun ds => ((toDouble (digitsValue ds) : Nat) : Int))) ∧
    (∀ n : Nat, n < 2 ^ 53 → toDouble n = n) ∧
    (∀ n : Nat, toDouble n < infinityRank →
      ∃ e q, (e = 0 ∨ 2 ^ 52 * 2 ^ e ≤ n) ∧ q ≤ 2 ^ 53 ∧ toDouble n = q * 2 ^ e ∧
        2 * toDouble n ≤ 2 * n + 2 ^ e ∧ 2 * n ≤ 2 * toDouble n + 2 ^ e) ∧
    (∀ (ds : List Char) (d : Char),
      digitsValue (ds ++ [d]) = 10 * digitsValue ds + (d.toNat - 48)) ∧
    (∀ (d : Char) (rest : List Char), (∀ x ∈ d :: rest, x ≠ '.') → isDigit10 d = false →
      isJsSpace d = false → d ≠ '-' → d ≠ '+' → semverParts (String.mk (d :: rest)) = [0]) ∧
    (semverParts "1.10.0" = [1, 10, 0] ∧ semverParts "v2.x." = [0, 0, 0] ∧
      compareSemver "1.10.0" "1.9.9" = 1 ∧ compareSemver "1.2.3" "1.3" = -1 ∧
      compareSemver "2" "1.9.9" = 1 ∧ compareSemver "1.x" "1.0" = 0 ∧
      compareSemver "9007199254740994" "9007199254740993" = 1 ∧
      compareSemver "9007199254740995" "9007199254740996" = 0) := by
  refine ⟨semverLoop_sign _ _ _ _, ?_, ?_, ?_, ?_, by decide, ?_, semverParts_dotted,
    toDouble_exact, toDouble_nearest, digitsValue_append, semverParts_not_numeric, by decide⟩
  · unfold compareSemver
    rw [semverLoop_one_iff]
    constructor
    · rintro ⟨k, -, -, hk, hj⟩
      exact ⟨k, hk, fun j hjk => hj j (Nat.zero_le _) hjk⟩
    · rintro ⟨k, hk, hj⟩
      refine ⟨k, Nat.zero_le _, ?_, hk, fun j _ hjk => hj j hjk⟩
      by_contra hlt
      rw [getD_beyond _ k (by omega), getD_beyond _ k (by omega)] at hk
      omega
  · unfold compareSemver
    rw [semverLoop_zero_iff]
    constructor
    · intro h k
      by_cases hk : k < 0 + max (semverParts a).length (semverParts b).length
      · exact h k (Nat.zero_le _) hk
      · rw [getD_beyond _ k (by omega), getD_beyond _ k (by omega)]
    · intro h k _ _
      exact h k
  · unfold compareSemver
    rw [max_comm (semverParts b).length]
    exact semverLoop_antisymm _ _ _ _
  · unfold compareSemver
    exact semverLoop_all_equal _ _ _ _ (fun _ _ => rfl)
  · intro hab hbc
    have hN : ∃ N, (semverParts a).length ≤ N ∧ (semverParts b).length ≤ N ∧
        (semverParts c).length ≤ N :=
      ⟨(semverParts a).length + (semverParts b).length + (semverParts c).length,
        by omega, by omega, by omega⟩
    obtain ⟨N, ha, hb, hc⟩ := hN
    rw [compareSemver_eq_loop a b N ha hb] at hab
    rw [compareSemver_eq_loop b c N hb hc] at hbc
    rw [compareSemver_eq_loop a c N ha hc]
    exact semverLoop_trans _ _ _ N 0 hab hbc

/-! ### The exhaustion reply, entry by entry -/

theorem entriesAfter_mem {σ : Type} (url : JsVal) (prs : List (Pair σ)) :
    ∀ (w : World σ) (x : JsVal), x ∈ entriesAfter url prs w →
      ∃ i pr e, prs[i]? = some pr ∧
        (attempt url pr (worldAfter url (prs.take i) w)).1 = Outcome.throws e ∧
        failureEntry e pr.resolver.name = some x := by
  induction prs with
  | nil => intro w x hx; simp [entriesAfter] at hx
  | cons y rest ih =>
    intro w x hx
    simp only [entriesAfter, List.mem_append] at hx
    rcases hx with hx | hx
    · unfold entryOf at hx
      cases ha : (attempt url y w).1 with
      | returns r => rw [ha] at hx; simp at hx
      | throws e =>
        rw [ha] at hx
        refine ⟨0, y, e, by simp, ha, ?_⟩
        simpa using hx
    · obtain ⟨i, pr, e, hp, ha, hf⟩ := ih _ x hx
      exact ⟨i + 1, pr, e, by simpa using hp, ha, hf⟩

theorem entriesAfter_take_succ {σ : Type} (url : JsVal) (prs : List (Pair σ)) (i : Nat)
    (pr : Pair σ) (w : World σ) (hp : prs[i]? = some pr) :
    entriesAfter url (prs.take (i + 1)) w =
      entriesAfter url (prs.take i) w ++ entryOf url pr (worldAfter url (prs.take i) w) := by
  rw [take_succ_of_getElem? _ i pr hp, entriesAfter_append]
  simp [entriesAfter]

/-- C9: when the full matrix of the server is exhausted (every slot, attempted in turn, fails
and lets the search go on), the reply has HTTP status 500 and the body `{status: false, error:
'Audio download failed for all providers/qualities.', details}` where, whatever the library
and the HTTP client do, `details` is the list `errorDetails` the handler has collected, never
a bare string.  That list is not empty (the two direct HTTP resolvers throw instead of
returning a payload that fails validation); it is made of the entries of the slots in the
order they were attempted, a slot whose retry-wrapped call throws `e` adding the one entry
built from `e` and a slot whose call returns adding none; and each of its entries is the
entry `{provider, status, data}` built from the error thrown at some slot. -/
theorem exhaustion_reply_details_list {σ : Type} (s : Services σ) (body : JsVal) (env : σ)
    (hurl : (reqUrl body).truthy = true)
    (hall : allGoOn (reqUrl body) (requestPairs (providerEndpoints s) body) ⟨env, []⟩ = true) :
    (aDl s body env).reply =
        Reply.json 500
          (obj [("status", bool false),
                ("error", str "Audio download failed for all providers/qualities."),
                ("details", arr (aDl s body env).locals.errorDetails)]) ∧
      (aDl s body env).locals.errorDetails ≠ [] ∧
      (aDl s body env).locals.errorDetails =
        entriesAfter (reqUrl body) (requestPairs (providerEndpoints s) body) ⟨env, []⟩ ∧
      (∀ (i : Nat) (pr : Pair σ),
        (requestPairs (providerEndpoints s) body)[i]? = some pr →
        entriesAfter (reqUrl body) ((requestPairs (providerEndpoints s) body).take (i + 1))
            ⟨env, []⟩ =
          entriesAfter (reqUrl body) ((requestPairs (providerEndpoints s) body).take i)
              ⟨env, []⟩ ++
            (match (attempt (reqUrl body) pr
                (worldAfter (reqUrl body) ((requestPairs (providerEndpoints s) body).take i)
                  ⟨env, []⟩)).1 with
              | Outcome.returns _ => []
              | Outcome.throws e => (failureEntry e pr.resolver.name).toList)) ∧
      ∀ x ∈ (aDl s body env).locals.errorDetails,
        ∃ (i : Nat) (pr : Pair σ) (e : JsVal),
          (requestPairs (providerEndpoints s) body)[i]? = some pr ∧
          (attempt (reqUrl body) pr
              (worldAfter (reqUrl body) ((requestPairs (providerEndpoints s) body).take i)
                ⟨env, []⟩)).1 = Outcome.throws e ∧
          x = obj [("provider", ((e.prop "provider").or (str pr.resolver.name)).or
                      (str "unknown")),
                   ("status", (e.prop "response").optProp "status"),
                   ("data", ((e.prop "response").optProp "data").or (e.prop "message"))] := by
  obtain ⟨le, hrun, -⟩ := run_exhausted (providerEndpoints s) body env hurl hall
  obtain ⟨q, hq⟩ := vreden_slot s body
  have hne := entriesAfter_ne_nil (reqUrl body) _ ⟨env, []⟩ 2 _ hq
    (fun u t e v e1 h => httpResolve_returns_valid _ _ v e1 h) hall
  have hloc : (aDl s body env).locals.errorDetails =
      entriesAfter (reqUrl body) (requestPairs (providerEndpoints s) body) ⟨env, []⟩ := by
    unfold aDl
    rw [hrun]
  have hrep : (aDl s body env).reply =
      Reply.json 500
        (exhaustionBody ⟨le,
          entriesAfter (reqUrl body) (requestPairs (providerEndpoints s) body) ⟨env, []⟩⟩) := by
    unfold aDl
    rw [hrun]
  refine ⟨?_, ?_, hloc, ?_, ?_⟩
  · rw [hrep, hloc]
    simp only [exhaustionBody, exhaustionDetails_of_ne_nil _ _ hne]
  · rw [hloc]
    exact hne
  · intro i pr hp
    exact entriesAfter_take_succ _ _ i pr _ hp
  · intro x hx
    rw [hloc] at hx
    obtain ⟨i, pr, e, hp, ha, hf⟩ := entriesAfter_mem _ _ _ x hx
    refine ⟨i, pr, e, hp, ha, ?_⟩
    unfold failureEntry at hf
    split at hf
    · simp at hf
    · simp only [Option.some.injEq] at hf
      exact hf.symm

theorem exhaustion_reply_details_list_witness :
    ((reqUrl sampleBody).truthy = true ∧
      allGoOn (reqUrl sampleBody) (requestPairs (providerEndpoints offline) sampleBody)
        ⟨0, []⟩ = true) ∧
    (aDl offline sampleBody 0).reply =
        Reply.json 500
          (obj [("status", bool false),
                ("error", str "Audio download failed for all providers/qualities."),
                ("details", arr (aDl offline sampleBody 0).locals.errorDetails)]) ∧
      (aDl offline sampleBody 0).locals.errorDetails.length = 8 :=
  ⟨⟨rfl, by decide⟩,
    (exhaustion_reply_details_list offline sampleBody 0 rfl (by decide)).1, by decide⟩

end AdilMusic
